import Mathlib

/-!
Verification of kubeflow-profile-manager: convergence engine and access decisions.

A shallow embedding of the Profile reconciler (`controller/profile/reconciler.go`),
of the service-account step of the Contributor reconciler
(`controller/contributor/reconciler.go`) and of the access manager
(`apiserver/access/manager.go`), together with the
parts of the Kubernetes client libraries they call (object store, owner
references, `CreateOrPatch` / `CreateOrUpdate`, `sets.String`, `crypto/md5`).

Conventions of the embedding:
* Go `map[string]string` values are association lists read through `mapGet`
  (first binding wins) and written through `mapSet` (replace in place, else
  append); a nil map and an empty map are both `[]`.
* The object store is the value `Cluster`; every client call first consults
  `Cluster.faults`, so that an arbitrary backend error can be injected for any
  verb and kind. With no fault the calls behave like the in-memory client used
  by the repository's tests.
* Go functions returning `(result, error)` return a record holding both.
* Resource versions, server-assigned UIDs and garbage collection through owner
  references belong to the API server and are not part of the store; one call is one
  atomic step, as under the scheduler's one-reconcile-per-key guarantee.
* A Lean keyword cannot name a field or a variable: the Go fields `namespace` (of the
  reconciler and of object metadata) and `prefix` are spelled `namespaceFn`, `ns` and
  `pfx`.
-/

namespace KPM

/-! ## String maps and string sets -/

abbrev StrMap := List (String × String)

/-- Lookup `m[k]` with the comma-ok idiom. -/
def mapGet : StrMap → String → Option String
  | [], _ => none
  | (k', v) :: rest, k => if k' = k then some v else mapGet rest k

/-- Assignment `m[k] = v`. -/
def mapSet : StrMap → String → String → StrMap
  | [], k, v => [(k, v)]
  | (k', v') :: rest, k, v => if k' = k then (k, v) :: rest else (k', v') :: mapSet rest k v

/-- Key membership `_, ok := m[k]`. -/
def mapHas (m : StrMap) (k : String) : Bool := (mapGet m k).isSome

/-- Whether every binding of `sel` is present in `labels` (an equality label selector). -/
def matchesLabels (sel labels : StrMap) : Bool :=
  sel.all (fun kv => mapGet labels kv.1 == some kv.2)

/-- Go `sets.String`: the keys of a map, kept here as a duplicate-free list. -/
abbrev StringSet := List String

/-- Method `sets.String.Insert` for one item. -/
def setInsert (s : StringSet) (x : String) : StringSet := if x ∈ s then s else s ++ [x]

/-- Method `sets.String.Has`. -/
def setHas (s : StringSet) (x : String) : Bool := decide (x ∈ s)

/-- Go string comparison `a <= b`: lexicographic on the code points, which for UTF-8
text is the order of the bytes. -/
def strLE (a b : String) : Bool := !decide (b.toList < a.toList)

/-- Method `sets.String.List`: the members in ascending order. -/
def setList (s : StringSet) : List String := s.insertionSort (fun a b => strLE a b = true)

/-- Go `strings.TrimPrefix`. -/
def TrimPrefix (s pfx : String) : String :=
  if pfx.toList.isPrefixOf s.toList then String.mk (s.toList.drop pfx.toList.length) else s

/-- Pieces of a character list between the occurrences of `sep`. -/
def splitChars (sep : Char) : List Char → List (List Char)
  | [] => [[]]
  | ch :: rest =>
    if ch = sep then [] :: splitChars sep rest
    else
      match splitChars sep rest with
      | [] => [[ch]]
      | w :: ws => (ch :: w) :: ws

/-- Go `strings.Split` for a separator of one character. -/
def Split (s : String) (sep : Char) : List String := (splitChars sep s.toList).map String.mk

/-- Go `strconv.FormatBool`. -/
def FormatBool (b : Bool) : String := if b then "true" else "false"

/-! ## Object metadata and owner references -/

structure OwnerReference where
  apiVersion : String := ""
  kind : String := ""
  name : String := ""
  uid : String := ""
  controller : Option Bool := none
  blockOwnerDeletion : Option Bool := none
deriving DecidableEq, Repr

structure ObjectMeta where
  name : String := ""
  ns : String := ""
  uid : String := ""
  labels : StrMap := []
  annotations : StrMap := []
  ownerReferences : List OwnerReference := []
deriving DecidableEq, Repr

/-- Go `rbacv1.Subject`. -/
structure Subject where
  kind : String := ""
  apiGroup : String := ""
  name : String := ""
  ns : String := ""
deriving DecidableEq, Repr

/-- Go `rbacv1.RoleRef`. -/
structure RoleRef where
  apiGroup : String := ""
  kind : String := ""
  name : String := ""
deriving DecidableEq, Repr

def UserKind : String := "User"

def ContributorRoleContributor : String := "Contributor"

def ContributorRoleOwner : String := "Owner"

/-- Go `corev1.ScopedResourceSelectorRequirement`. -/
structure ScopedResourceSelectorRequirement where
  scopeName : String := ""
  operator : String := ""
  values : List String := []
deriving DecidableEq, Repr

/-- Go `corev1.ResourceQuotaSpec`: hard limits by resource name (quantities in their
canonical text), scopes, and the match expressions of the optional scope selector. -/
structure ResourceQuotaSpec where
  hard : StrMap := []
  scopes : List String := []
  scopeSelector : Option (List ScopedResourceSelectorRequirement) := none
deriving DecidableEq, Repr

structure ProfileCondition where
  type : String := ""
  status : String := ""
  message : String := ""
deriving DecidableEq, Repr

structure ProfileSpec where
  owner : Subject := {}
  resourceQuotaSpec : Option ResourceQuotaSpec := none
deriving DecidableEq, Repr

structure ProfileStatus where
  conditions : List ProfileCondition := []
  contributors : List String := []
deriving DecidableEq, Repr

structure Profile where
  metadata : ObjectMeta := {}
  spec : ProfileSpec := {}
  status : ProfileStatus := {}
deriving DecidableEq, Repr

structure ContributorSpec where
  name : String := ""
  role : String := ""
deriving DecidableEq, Repr

structure Contributor where
  metadata : ObjectMeta := {}
  spec : ContributorSpec := {}
deriving DecidableEq, Repr

structure Namespace where
  metadata : ObjectMeta := {}
deriving DecidableEq, Repr

structure ResourceQuota where
  metadata : ObjectMeta := {}
  spec : ResourceQuotaSpec := {}
deriving DecidableEq, Repr

structure ServiceAccount where
  metadata : ObjectMeta := {}
deriving DecidableEq, Repr

structure RoleBinding where
  metadata : ObjectMeta := {}
  roleRef : RoleRef := {}
  subjects : List Subject := []
deriving DecidableEq, Repr

/-- Istio `Operation` of a `Rule_To`. -/
structure Operation where
  methods : List String := []
  paths : List String := []
deriving DecidableEq, Repr

/-- Istio `Condition` of a rule. -/
structure Condition where
  key : String := ""
  values : List String := []
deriving DecidableEq, Repr

/-- Istio `Rule`: source principals of each `From`, operations of each `To`, conditions. -/
structure Rule where
  fromPrincipals : List (List String) := []
  toOperations : List Operation := []
  whenConditions : List Condition := []
deriving DecidableEq, Repr

structure AuthorizationPolicySpec where
  action : String := ""
  rules : List Rule := []
  selector : Option StrMap := none
deriving DecidableEq, Repr

structure AuthorizationPolicy where
  metadata : ObjectMeta := {}
  spec : AuthorizationPolicySpec := {}
deriving DecidableEq, Repr

/-! ## Errors and the object store -/

inductive Err where
  | notFound
  | alreadyExists
  | conflict
  | backend (msg : String)
  | invalidOwner (msg : String)
  | alreadyOwned (owner : String)
  | mutateKey
  | wrapped (msg : String) (cause : Err)
deriving DecidableEq, Repr

/-- Go `apierrors.IsNotFound`. -/
def IsNotFound : Err → Bool
  | .notFound => true
  | _ => false

/-- Go `apierrors.IsAlreadyExists`. -/
def IsAlreadyExists : Err → Bool
  | .alreadyExists => true
  | _ => false

/-- Go `client.IgnoreNotFound`. -/
def IgnoreNotFound : Option Err → Option Err
  | some e => if IsNotFound e then none else some e
  | none => none

/-- Go `errors.Wrap`: nil stays nil. -/
def Wrap (e : Option Err) (msg : String) : Option Err := e.map (Err.wrapped msg)

deriving instance DecidableEq for Except

inductive Verb where
  | get | list | create | update | patch | patchStatus | delete | deleteAllOf
deriving DecidableEq, Repr

inductive Kind where
  | profile | namespace | contributor | resourceQuota | authorizationPolicy
  | serviceAccount | roleBinding
deriving DecidableEq, Repr

structure Cluster where
  profiles : List Profile := []
  namespaces : List Namespace := []
  contributors : List Contributor := []
  resourceQuotas : List ResourceQuota := []
  authorizationPolicies : List AuthorizationPolicy := []
  serviceAccounts : List ServiceAccount := []
  roleBindings : List RoleBinding := []
  faults : List ((Verb × Kind) × Err) := []
deriving DecidableEq, Repr

/-- The error, if any, that the backend answers to a call of verb `v` on kind `k`. -/
def faultOf (c : Cluster) (v : Verb) (k : Kind) : Option Err :=
  (c.faults.find? (fun f => decide (f.1 = (v, k)))).map (fun f => f.2)

/-- Go `client.ObjectKey`: namespace and name. -/
abbrev ObjectKey := String × String

def keyOf (m : ObjectMeta) : ObjectKey := (m.ns, m.name)

/-- Access to one kind of object in the store. -/
structure KindOps (α : Type) where
  kind : Kind
  namespaced : Bool
  meta : α → ObjectMeta
  items : Cluster → List α
  setItems : Cluster → List α → Cluster

def namespaceOps : KindOps Namespace :=
  ⟨.namespace, false, fun o => o.metadata, fun c => c.namespaces, fun c l => { c with namespaces := l }⟩

def profileOps : KindOps Profile :=
  ⟨.profile, false, fun o => o.metadata, fun c => c.profiles, fun c l => { c with profiles := l }⟩

def contributorOps : KindOps Contributor :=
  ⟨.contributor, true, fun o => o.metadata, fun c => c.contributors,
    fun c l => { c with contributors := l }⟩

def resourceQuotaOps : KindOps ResourceQuota :=
  ⟨.resourceQuota, true, fun o => o.metadata, fun c => c.resourceQuotas,
    fun c l => { c with resourceQuotas := l }⟩

def authorizationPolicyOps : KindOps AuthorizationPolicy :=
  ⟨.authorizationPolicy, true, fun o => o.metadata, fun c => c.authorizationPolicies,
    fun c l => { c with authorizationPolicies := l }⟩

def serviceAccountOps : KindOps ServiceAccount :=
  ⟨.serviceAccount, true, fun o => o.metadata, fun c => c.serviceAccounts,
    fun c l => { c with serviceAccounts := l }⟩

def roleBindingOps : KindOps RoleBinding :=
  ⟨.roleBinding, true, fun o => o.metadata, fun c => c.roleBindings,
    fun c l => { c with roleBindings := l }⟩

/-- Whether the object with metadata `m` is the one addressed by `key`; the namespace
part of a key is ignored for a cluster-scoped kind, as the REST client does. -/
def hasKey {α : Type} (ops : KindOps α) (key : ObjectKey) (o : α) : Bool :=
  (!ops.namespaced || decide ((ops.meta o).ns = key.1)) && decide ((ops.meta o).name = key.2)

/-- The stored object with key `key`, if any. -/
def lookupObj {α : Type} (ops : KindOps α) (c : Cluster) (key : ObjectKey) : Option α :=
  (ops.items c).find? (hasKey ops key)

/-- Replace the stored object that has the key of `obj`. -/
def replaceObj {α : Type} (ops : KindOps α) (c : Cluster) (obj : α) : Cluster :=
  ops.setItems c ((ops.items c).map
    (fun o => if hasKey ops (keyOf (ops.meta obj)) o then obj else o))

/-- Client call `Get`. -/
def clientGet {α : Type} (ops : KindOps α) (c : Cluster) (key : ObjectKey) : Except Err α :=
  match faultOf c .get ops.kind with
  | some e => .error e
  | none =>
    match lookupObj ops c key with
    | some o => .ok o
    | none => .error .notFound

/-- Client call `List` with the option `InNamespace(ns)` when `ns` is given and
`MatchingLabels(sel)`. -/
def clientList {α : Type} (ops : KindOps α) (c : Cluster) (ns : Option String)
    (sel : StrMap) : Except Err (List α) :=
  match faultOf c .list ops.kind with
  | some e => .error e
  | none =>
    .ok ((ops.items c).filter (fun o =>
      (match ns with
        | some n => decide ((ops.meta o).ns = n)
        | none => true) && matchesLabels sel (ops.meta o).labels))

/-- Client call `Create`. -/
def clientCreate {α : Type} (ops : KindOps α) (c : Cluster) (obj : α) : Except Err Cluster :=
  match faultOf c .create ops.kind with
  | some e => .error e
  | none =>
    match lookupObj ops c (keyOf (ops.meta obj)) with
    | some _ => .error .alreadyExists
    | none => .ok (ops.setItems c (ops.items c ++ [obj]))

/-- Client calls `Update` and `Patch` (verb `v`) with the fully computed object. -/
def clientWrite {α : Type} (v : Verb) (ops : KindOps α) (c : Cluster) (obj : α) :
    Except Err Cluster :=
  match faultOf c v ops.kind with
  | some e => .error e
  | none =>
    match lookupObj ops c (keyOf (ops.meta obj)) with
    | some _ => .ok (replaceObj ops c obj)
    | none => .error .notFound

/-- Client call `Delete`. -/
def clientDelete {α : Type} (ops : KindOps α) (c : Cluster) (key : ObjectKey) :
    Except Err Cluster :=
  match faultOf c .delete ops.kind with
  | some e => .error e
  | none =>
    match lookupObj ops c key with
    | some _ => .ok (ops.setItems c ((ops.items c).filter (fun o => !hasKey ops key o)))
    | none => .error .notFound

/-- Client call `DeleteAllOf` with `MatchingLabels(sel)` and `InNamespace(ns)`. -/
def clientDeleteAllOf {α : Type} (ops : KindOps α) (c : Cluster) (ns : String)
    (sel : StrMap) : Except Err Cluster :=
  match faultOf c .deleteAllOf ops.kind with
  | some e => .error e
  | none =>
    .ok (ops.setItems c ((ops.items c).filter
      (fun o => !(decide ((ops.meta o).ns = ns) && matchesLabels sel (ops.meta o).labels))))

/-! ## controllerutil: owner references and upserts -/

inductive OperationResult where
  | unchanged | created | updated | updatedStatus | updatedStatusOnly | stop
deriving DecidableEq, Repr

def OperationResultNone : OperationResult := .unchanged

def OperationResultCreated : OperationResult := .created

def OperationResultUpdated : OperationResult := .updated

/-- Outcome of a step: the store afterwards, and the Go pair `(result, error)`. -/
structure OpOut where
  cluster : Cluster
  res : OperationResult
  err : Option Err
deriving DecidableEq, Repr

/-- Group of an `apiVersion` as `schema.ParseGroupVersion` reads it; `none` on a parse error. -/
def parseGroup (gv : String) : Option String :=
  match gv.toList.count '/' with
  | 0 => some ""
  | 1 => some (String.mk (gv.toList.takeWhile (fun ch => ch != '/')))
  | _ => none

/-- Go `referSameObject`: same group, kind and name. -/
def referSameObject (a b : OwnerReference) : Bool :=
  match parseGroup a.apiVersion, parseGroup b.apiVersion with
  | some ga, some gb => decide (ga = gb) && decide (a.kind = b.kind) && decide (a.name = b.name)
  | _, _ => false

/-- Go `metav1.GetControllerOf`. -/
def GetControllerOf (m : ObjectMeta) : Option OwnerReference :=
  m.ownerReferences.find? (fun r => r.controller == some true)

/-- Go `upsertOwnerRef`: replace the first reference to the same object, else append. -/
def upsertOwnerRef (ref : OwnerReference) : List OwnerReference → List OwnerReference
  | [] => [ref]
  | r :: rest => if referSameObject r ref then ref :: rest else r :: upsertOwnerRef ref rest

/-- Go `validateOwner`. -/
def validateOwner (owner object : ObjectMeta) : Option Err :=
  if owner.ns ≠ "" then
    if object.ns = "" then
      some (.invalidOwner "cluster-scoped resource must not have a namespace-scoped owner")
    else if owner.ns ≠ object.ns then
      some (.invalidOwner "cross-namespace owner references are disallowed")
    else none
  else none

/-- The controller reference that `SetControllerReference` builds for an owner whose
registered `(apiVersion, kind)` is `gvk`. -/
def newControllerRef (gvk : String × String) (owner : ObjectMeta) : OwnerReference :=
  { apiVersion := gvk.1, kind := gvk.2, name := owner.name, uid := owner.uid,
    blockOwnerDeletion := some true, controller := some true }

/-- Go `controllerutil.SetControllerReference`; `gvk` is the owner's registered
`(apiVersion, kind)`. -/
def SetControllerReference (gvk : String × String) (owner controlled : ObjectMeta) :
    Except Err ObjectMeta :=
  match validateOwner owner controlled with
  | some e => .error e
  | none =>
    let ref : OwnerReference := newControllerRef gvk owner
    match GetControllerOf controlled with
    | some existing =>
      if !referSameObject existing ref then .error (.alreadyOwned existing.name)
      else .ok { controlled with ownerReferences := upsertOwnerRef ref controlled.ownerReferences }
    | none =>
      .ok { controlled with ownerReferences := upsertOwnerRef ref controlled.ownerReferences }

/-- Go `controllerutil.mutate`: run the mutate function, then insist that it kept the key. -/
def mutate {α : Type} (ops : KindOps α) (f : α → Except Err α) (key : ObjectKey) (obj : α) :
    Except Err α :=
  match f obj with
  | .error e => .error e
  | .ok obj' => if keyOf (ops.meta obj') = key then .ok obj' else .error .mutateKey

/-- Shared body of `controllerutil.CreateOrPatch` (verb `patch`) and
`controllerutil.CreateOrUpdate` (verb `update`): read the object; when it is absent,
mutate the given skeleton and create it; when it is present, mutate what was read and
write it back only if the mutation changed it. The merge patch from the object as read
to the mutated object, applied to the object as stored, is the mutated object. The
separate status patch of `CreateOrPatch` never fires here: no mutate function of the
repository touches a status. -/
def createOrWrite {α : Type} [DecidableEq α] (v : Verb) (ops : KindOps α) (c : Cluster)
    (obj : α) (f : α → Except Err α) : OpOut :=
  let key := keyOf (ops.meta obj)
  match clientGet ops c key with
  | .error e =>
    if !IsNotFound e then ⟨c, OperationResultNone, some e⟩
    else
      match mutate ops f key obj with
      | .error e' => ⟨c, OperationResultNone, some e'⟩
      | .ok obj' =>
        match clientCreate ops c obj' with
        | .error e' => ⟨c, OperationResultNone, some e'⟩
        | .ok c' => ⟨c', OperationResultCreated, none⟩
  | .ok cur =>
    match mutate ops f key cur with
    | .error e' => ⟨c, OperationResultNone, some e'⟩
    | .ok obj' =>
      if cur = obj' then ⟨c, OperationResultNone, none⟩
      else
        match clientWrite v ops c obj' with
        | .error e' => ⟨c, OperationResultNone, some e'⟩
        | .ok c' => ⟨c', OperationResultUpdated, none⟩

/-- Go `controllerutil.CreateOrPatch`. -/
def CreateOrPatch {α : Type} [DecidableEq α] (ops : KindOps α) (c : Cluster) (obj : α)
    (f : α → Except Err α) : OpOut :=
  createOrWrite .patch ops c obj f

/-- Go `controllerutil.CreateOrUpdate`. -/
def CreateOrUpdate {α : Type} [DecidableEq α] (ops : KindOps α) (c : Cluster) (obj : α)
    (f : α → Except Err α) : OpOut :=
  createOrWrite .update ops c obj f

/-- Helper `addLabel` of the reconciler packages. -/
def addLabel (o : ObjectMeta) (key value : String) : ObjectMeta :=
  { o with labels := mapSet o.labels key value }

/-- Helper `addAnnotation` of the reconciler packages. -/
def addAnnotation (o : ObjectMeta) (key value : String) : ObjectMeta :=
  { o with annotations := mapSet o.annotations key value }

/-- Go `metav1.HasLabel`. -/
def HasLabel (o : ObjectMeta) (key : String) : Bool := mapHas o.labels key

/-! ## crypto/md5 and the identity hash -/

/-- Per-round left-rotation amounts of MD5 (RFC 1321). -/
def md5Shifts : List Nat :=
  [7, 12, 17, 22, 7, 12, 17, 22, 7, 12, 17, 22, 7, 12, 17, 22,
   5, 9, 14, 20, 5, 9, 14, 20, 5, 9, 14, 20, 5, 9, 14, 20,
   4, 11, 16, 23, 4, 11, 16, 23, 4, 11, 16, 23, 4, 11, 16, 23,
   6, 10, 15, 21, 6, 10, 15, 21, 6, 10, 15, 21, 6, 10, 15, 21]

/-- Sine-derived additive constants of MD5 (RFC 1321). -/
def md5K : List Nat :=
  [0xd76aa478, 0xe8c7b756, 0x242070db, 0xc1bdceee, 0xf57c0faf, 0x4787c62a, 0xa8304613, 0xfd469501,
   0x698098d8, 0x8b44f7af, 0xffff5bb1, 0x895cd7be, 0x6b901122, 0xfd987193, 0xa679438e, 0x49b40821,
   0xf61e2562, 0xc040b340, 0x265e5a51, 0xe9b6c7aa, 0xd62f105d, 0x02441453, 0xd8a1e681, 0xe7d3fbc8,
   0x21e1cde6, 0xc33707d6, 0xf4d50d87, 0x455a14ed, 0xa9e3e905, 0xfcefa3f8, 0x676f02d9, 0x8d2a4c8a,
   0xfffa3942, 0x8771f681, 0x6d9d6122, 0xfde5380c, 0xa4beea44, 0x4bdecfa9, 0xf6bb4b60, 0xbebfbc70,
   0x289b7ec6, 0xeaa127fa, 0xd4ef3085, 0x04881d05, 0xd9d4d039, 0xe6db99e5, 0x1fa27cf8, 0xc4ac5665,
   0xf4292244, 0x432aff97, 0xab9423a7, 0xfc93a039, 0x655b59c3, 0x8f0ccc92, 0xffeff47d, 0x85845dd1,
   0x6fa87e4f, 0xfe2ce6e0, 0xa3014314, 0x4e0811a1, 0xf7537e82, 0xbd3af235, 0x2ad7d2bb, 0xeb86d391]

/-- Truncation to an unsigned 32-bit word. -/
def w32 (n : Nat) : Nat := n % 4294967296

/-- Bitwise complement of a 32-bit word. -/
def not32 (x : Nat) : Nat := 4294967295 - w32 x

/-- Left rotation of a 32-bit word (`bits.RotateLeft32`). -/
def rotl32 (x s : Nat) : Nat :=
  w32 ((w32 x) <<< s) ||| ((w32 x) >>> (32 - s))

/-- Four working variables of the MD5 compression function. -/
structure Md5State where
  a : Nat
  b : Nat
  c : Nat
  d : Nat
deriving DecidableEq, Repr

/-- Initial chaining value. -/
def md5Init : Md5State := ⟨0x67452301, 0xefcdab89, 0x98badcfe, 0x10325476⟩

/-- Round function of step `i`. -/
def md5F (i b c d : Nat) : Nat :=
  if i < 16 then (b &&& c) ||| (not32 b &&& d)
  else if i < 32 then (d &&& b) ||| (not32 d &&& c)
  else if i < 48 then b ^^^ c ^^^ d
  else c ^^^ (b ||| not32 d)

/-- Index of the message word used in step `i`. -/
def md5G (i : Nat) : Nat :=
  if i < 16 then i
  else if i < 32 then (5 * i + 1) % 16
  else if i < 48 then (3 * i + 5) % 16
  else (7 * i) % 16

/-- One of the 64 steps on the message words `m`. -/
def md5Round (m : List Nat) (st : Md5State) (i : Nat) : Md5State :=
  let f := w32 (md5F i st.b st.c st.d + st.a + md5K.getD i 0 + m.getD (md5G i) 0)
  ⟨st.d, w32 (st.b + rotl32 f (md5Shifts.getD i 0)), st.b, st.c⟩

/-- Little-endian 32-bit word made of the first four bytes. -/
def leWord (bs : List Nat) : Nat :=
  bs.getD 0 0 + 256 * bs.getD 1 0 + 65536 * bs.getD 2 0 + 16777216 * bs.getD 3 0

/-- Sixteen message words of a 64-byte block. -/
def blockWords (blk : List Nat) : List Nat :=
  (List.range 16).map (fun j => leWord (blk.drop (4 * j)))

/-- Compression of one block into the chaining value. -/
def md5Block (st : Md5State) (blk : List Nat) : Md5State :=
  let r := (List.range 64).foldl (md5Round (blockWords blk)) st
  ⟨w32 (st.a + r.a), w32 (st.b + r.b), w32 (st.c + r.c), w32 (st.d + r.d)⟩

/-- First `k` little-endian bytes of `n`. -/
def leBytes : Nat → Nat → List Nat
  | 0, _ => []
  | k + 1, n => n % 256 :: leBytes k (n / 256)

/-- Padding: a one bit, zeros up to 56 modulo 64, then the bit length on 8 bytes. -/
def md5Pad (msg : List Nat) : List Nat :=
  let l := msg.length
  msg ++ [128] ++ List.replicate ((119 - l % 64) % 64) 0 ++ leBytes 8 ((8 * l) % 18446744073709551616)

/-- Fold of the compression function over the first `n` blocks. -/
def md5Blocks : Nat → List Nat → Md5State → Md5State
  | 0, _, st => st
  | n + 1, bs, st => md5Blocks n (bs.drop 64) (md5Block st (bs.take 64))

/-- Go `md5.Sum`: the 16-byte digest of a byte string (RFC 1321). -/
def md5Digest (msg : List Nat) : List Nat :=
  let p := md5Pad msg
  let st := md5Blocks (p.length / 64) p md5Init
  leBytes 4 st.a ++ leBytes 4 st.b ++ leBytes 4 st.c ++ leBytes 4 st.d

/-- Lowercase hexadecimal digit of `n % 16`. -/
def hexDigit (n : Nat) : Char :=
  "0123456789abcdef".toList.getD (n % 16) '0'

/-- Two hexadecimal digits of a byte, as `%x` prints it. -/
def hexByte (b : Nat) : List Char := [hexDigit (b / 16), hexDigit b]

/-- UTF-8 encoding of a code point. -/
def utf8EncodeNat (v : Nat) : List Nat :=
  if v < 128 then [v]
  else if v < 2048 then [192 + v / 64, 128 + v % 64]
  else if v < 65536 then [224 + v / 4096, 128 + (v / 64) % 64, 128 + v % 64]
  else [240 + v / 262144, 128 + (v / 4096) % 64, 128 + (v / 64) % 64, 128 + v % 64]

/-- Conversion `[]byte(s)`. -/
def utf8Bytes (s : String) : List Nat := s.toList.flatMap (fun c => utf8EncodeNat c.toNat)

/-- Function `md5Sum` (the same in the three packages):
`fmt.Sprintf("%x", md5.Sum([]byte(name)))`. -/
def md5Sum (name : String) : String :=
  String.mk ((md5Digest (utf8Bytes name)).flatMap hexByte)

/-! ## Profile reconciler (`controller/profile/reconciler.go`) -/

namespace profile

def errReconcileNamespace : String := "failed to reconcile namespace"

def errReconcileAuthorizationPolicy : String := "failed to reconcile Istio AuthorizationPolicy"

def errReconcileResourceQuota : String := "failed to reconcile resource quota"

def errReconcileOwnerContributor : String := "failed to reconcile owner contributor"

/-- Format `errFmtSetControllerRef` applied to the resource name. -/
def errFmtSetControllerRef (what : String) : String :=
  "failed to set controller reference on " ++ what

/-- Result `Stop`: reconciliation of the profile should stop and finish gracefully. -/
def Stop : OperationResult := .stop

def principalNotebookController : String :=
  "cluster.local/ns/kubeflow/sa/notebook-controller-service-account"

/-- Registered `(apiVersion, kind)` of `v1alpha1.Profile`. -/
def profileGVK : String × String := ("kubeflow.org/v1alpha1", "Profile")

/-- Go `ctrl.Result`. -/
structure Result where
  requeue : Bool := false
  requeueAfter : Nat := 0
deriving DecidableEq, Repr

/-- Outcome of `Reconcile`: the store afterwards, and the Go pair `(ctrl.Result, error)`. -/
structure ReconcileOut where
  cluster : Cluster
  result : Result
  err : Option Err
deriving DecidableEq, Repr

/-- Data fields of the Go struct `Reconciler`. -/
structure Settings where
  namespaceAdoptionEnabled : Bool := false
  namespaceLabels : StrMap := []
  defaultResourceQuotaSpec : Option ResourceQuotaSpec := none
deriving DecidableEq, Repr

/-- Go type `ReconcileFunc`; a method value reads the receiver's data fields. -/
abbrev ReconcileFunc := Settings → Cluster → Profile → OpOut

def NopReconcileFunc : ReconcileFunc := fun _ c _ => ⟨c, OperationResultNone, none⟩

/-- Go struct `Reconciler`: the data fields and the four feature steps. -/
structure Reconciler extends Settings where
  namespaceFn : ReconcileFunc := NopReconcileFunc
  resourceQuota : ReconcileFunc := NopReconcileFunc
  istio : ReconcileFunc := NopReconcileFunc
  contributor : ReconcileFunc := NopReconcileFunc

/-- Closure `updateFn` of `ReconcileNamespace`. -/
def updateFn (r : Settings) (profile : Profile) (nsObj : Namespace) : Except Err Namespace :=
  match SetControllerReference profileGVK profile.metadata nsObj.metadata with
  | .error e => .error (.wrapped (errFmtSetControllerRef "namespace") e)
  | .ok m =>
    let m := r.namespaceLabels.foldl
      (fun m kv => if !HasLabel m kv.1 then addLabel m kv.1 kv.2 else m) m
    .ok { nsObj with metadata := addAnnotation m "owner" profile.spec.owner.name }

def ReconcileNamespace : ReconcileFunc := fun r c profile =>
  let nsObj : Namespace := { metadata := { name := profile.metadata.name } }
  match clientGet namespaceOps c (keyOf profile.metadata) with
  | .error e =>
    if IsNotFound e then
      let o := CreateOrPatch namespaceOps c nsObj (updateFn r profile)
      ⟨o.cluster, o.res, Wrap o.err errReconcileNamespace⟩
    else ⟨c, OperationResultNone, Wrap (some e) errReconcileNamespace⟩
  | .ok nsObj =>
    let annotations := nsObj.metadata.annotations
    if !r.namespaceAdoptionEnabled &&
        (match mapGet annotations "owner" with
          | some owner => decide (owner ≠ profile.spec.owner.name)
          | none => true) then
      ⟨c, Stop, none⟩
    else
      let o := CreateOrPatch namespaceOps c nsObj (updateFn r profile)
      ⟨o.cluster, o.res, Wrap o.err errReconcileNamespace⟩

/-- Spec of the policy written by `ReconcileIstioAuthorizationPolicy`. -/
def controlPlaneAccessSpec : AuthorizationPolicySpec :=
  { action := "ALLOW",
    rules := [
      { toOperations := [{ paths := ["/healthz", "/metrics", "/wait-for-drain"] }] },
      { fromPrincipals := [[principalNotebookController]],
        toOperations := [{ methods := ["GET"], paths := ["*/api/kernels"] }] }] }

def ReconcileIstioAuthorizationPolicy : ReconcileFunc := fun _ c profile =>
  let policy : AuthorizationPolicy :=
    { metadata := { name := "control-plane-access", ns := profile.metadata.name } }
  let o := CreateOrPatch authorizationPolicyOps c policy (fun policy =>
    match SetControllerReference profileGVK profile.metadata policy.metadata with
    | .error e => .error (.wrapped (errFmtSetControllerRef "AuthorizationPolicy") e)
    | .ok m =>
      .ok { metadata := addLabel m "app.kubernetes.io/part-of" "kubeflow-profile",
            spec := controlPlaneAccessSpec })
  ⟨o.cluster, o.res, Wrap o.err errReconcileAuthorizationPolicy⟩

def ReconcileResourceQuota : ReconcileFunc := fun r c profile =>
  let quota : ResourceQuota :=
    { metadata := { name := "kf-resource-quota", ns := profile.metadata.name } }
  let o := CreateOrUpdate resourceQuotaOps c quota (fun quota =>
    match SetControllerReference profileGVK profile.metadata quota.metadata with
    | .error e => .error (.wrapped (errFmtSetControllerRef "ResourceQuota") e)
    | .ok m =>
      let spec : ResourceQuotaSpec :=
        match profile.spec.resourceQuotaSpec, r.defaultResourceQuotaSpec with
        | some q, _ => q
        | none, some d => d
        | none, none => {}
      .ok { metadata := addLabel m "app.kubernetes.io/part-of" "kubeflow-profile",
            spec := spec })
  ⟨o.cluster, o.res, Wrap o.err errReconcileResourceQuota⟩

def ReconcileContributor : ReconcileFunc := fun r c profile =>
  if profile.spec.owner.kind ≠ UserKind then NopReconcileFunc r c profile
  else
    let contrib : Contributor :=
      { metadata := { name := profile.metadata.name, ns := profile.metadata.name } }
    let o := CreateOrPatch contributorOps c contrib (fun contrib =>
      match SetControllerReference profileGVK profile.metadata contrib.metadata with
      | .error e => .error (.wrapped (errFmtSetControllerRef "Contributor") e)
      | .ok m =>
        let m := addLabel m "owner.kubeflow.org/id" (md5Sum profile.spec.owner.name)
        let m := addLabel m "contributor.kubeflow.org/role" "admin"
        .ok { metadata := m,
              spec := { name := profile.spec.owner.name, role := ContributorRoleOwner } })
    ⟨o.cluster, o.res, Wrap o.err errReconcileOwnerContributor⟩

/-- Go type `ReconcilerOption`. -/
abbrev ReconcilerOption := Reconciler → Reconciler

def WithNamespaceAdoptionEnabled : ReconcilerOption :=
  fun r => { r with namespaceAdoptionEnabled := true }

def WithNamespaceAdoptionDisabled : ReconcilerOption :=
  fun r => { r with namespaceAdoptionEnabled := false }

def WithIstioEnabled : ReconcilerOption :=
  fun r => { r with istio := ReconcileIstioAuthorizationPolicy }

def WithDefaultNamespaceReconcileFunc : ReconcilerOption :=
  fun r => { r with namespaceFn := ReconcileNamespace }

def WithNamespaceLabels (labels : StrMap) : ReconcilerOption :=
  fun r => { r with
    namespaceLabels := labels.foldl (fun m kv => mapSet m kv.1 kv.2) r.namespaceLabels }

def WithNamespaceLabel (key value : String) : ReconcilerOption :=
  WithNamespaceLabels [(key, value)]

def WithDefaultResourceQuotaSpec (spec : ResourceQuotaSpec) : ReconcilerOption :=
  fun r => { r with defaultResourceQuotaSpec := some spec }

def WithResourceQuotaEnabled : ReconcilerOption :=
  fun r => { r with resourceQuota := ReconcileResourceQuota }

def WithPipelinesEnabled : ReconcilerOption :=
  WithNamespaceLabel "pipelines.kubeflow.org/enabled" "true"

def WithDefaultContributorReconcilerFunc : ReconcilerOption :=
  fun r => { r with contributor := ReconcileContributor }

/-- Go `NewReconciler`: every step a no-op, then the options in order. -/
def NewReconciler (opts : List ReconcilerOption) : Reconciler :=
  opts.foldl (fun r f => f r) {}

/-- Assignment of `profile.Status.Contributors`. -/
def setRoster (profile : Profile) (names : List String) : Profile :=
  { profile with status := { profile.status with contributors := names } }

/-- Status call `Status().Patch(ctx, profile, patch)` of `Reconcile`, where `patch` is the
merge patch from the profile as read to the profile with the new roster: the stored
profile gets the new `status.contributors`; the answer is the stored profile. -/
def patchStatus (c : Cluster) (profile : Profile) : Except Err (Cluster × Profile) :=
  match faultOf c .patchStatus .profile with
  | some e => .error e
  | none =>
    match lookupObj profileOps c (keyOf profile.metadata) with
    | none => .error .notFound
    | some cur =>
      let p := setRoster cur profile.status.contributors
      .ok (replaceObj profileOps c p, p)

/-- Loop of `Reconcile` over the step functions. -/
def runFuncs (r : Settings) : List ReconcileFunc → Cluster → Profile → ReconcileOut
  | [], c, _ => ⟨c, {}, none⟩
  | f :: fs, c, profile =>
    let o := f r c profile
    match o.err with
    | some e => ⟨o.cluster, {}, some e⟩
    | none => if o.res = Stop then ⟨o.cluster, {}, none⟩ else runFuncs r fs o.cluster profile

/-- Roster computed by `Reconcile`: the names inserted into a `sets.String`, then listed. -/
def roster (items : List Contributor) : List String :=
  setList (items.foldl (fun s item => setInsert s item.metadata.name) [])

def Reconcile (r : Reconciler) (c : Cluster) (req : ObjectKey) : ReconcileOut :=
  match clientGet profileOps c req with
  | .error e => ⟨c, {}, Wrap (IgnoreNotFound (some e)) "failed to read profile"⟩
  | .ok profile =>
    match clientList contributorOps c (some profile.metadata.name) [] with
    | .error e => ⟨c, {}, some e⟩
    | .ok items =>
      let profile := setRoster profile (roster items)
      match patchStatus c profile with
      | .error e => ⟨c, {}, some e⟩
      | .ok (c1, profile) =>
        runFuncs r.toSettings [r.namespaceFn, r.contributor, r.resourceQuota, r.istio] c1 profile

end profile

/-! ## Access manager (`apiserver/access/manager.go`) -/

namespace access

/-- Go struct `Binding`; the two pointer fields are optional. -/
structure Binding where
  user : Option Subject := none
  referredNamespace : String := ""
  roleRef : Option RoleRef := none
  status : String := ""
deriving DecidableEq, Repr

/-- Go struct `manager` without its client; `pfx` is the field spelled "prefix" in Go. -/
structure manager where
  header : String := "kubeflow-userid"
  pfx : String := ""
  admins : StringSet := []
deriving DecidableEq, Repr

/-- Go type `ManagerOption`. -/
abbrev ManagerOption := manager → manager

def WithUserIDHeader (header : String) : ManagerOption := fun m => { m with header := header }

def WithUserIDPrefix (pfx : String) : ManagerOption := fun m => { m with pfx := pfx }

def WithAdmin (admins : List String) : ManagerOption :=
  fun m => { m with admins := admins.foldl setInsert m.admins }

def NewManager (opts : List ManagerOption) : manager :=
  opts.foldl (fun m f => f m) {}

/-- What a handler reads from its `gin.Context`: request headers, path parameters, query
parameters, and the request body as `ShouldBindJSON` decodes it into a `Binding`
(`none` when decoding fails) and, for `CreateProfile`, into a `Profile`. -/
structure Context where
  headers : StrMap := []
  params : StrMap := []
  query : StrMap := []
  binding : Option Binding := none
  profile : Option Profile := none
deriving DecidableEq, Repr

/-- Method `GetHeader`: the empty string when the header is absent. -/
def GetHeader (c : Context) (key : String) : String := (mapGet c.headers key).getD ""

/-- Method `Param`: the empty string when the parameter is absent. -/
def Param (c : Context) (key : String) : String := (mapGet c.params key).getD ""

/-- Method `Query`: the empty string when the query parameter is absent. -/
def Query (c : Context) (key : String) : String := (mapGet c.query key).getD ""

/-- What a handler leaves in the response writer: a status code and a body, or a
run-time panic raised before anything was written. The body is the text written, for a
JSON object with the one member "message" or "error" the text of that member, and for
the JSON object with the one member "bindings" the list of bindings. -/
inductive Reply where
  | status (code : Nat) (body : String)
  | bindings (code : Nat) (bindings : List Binding)
  | panicked
deriving DecidableEq, Repr

/-- Status code of a reply, if one was written. -/
def replyCode : Reply → Option Nat
  | .status code _ => some code
  | .bindings code _ => some code
  | .panicked => none

structure HandlerOut where
  cluster : Cluster
  reply : Reply
deriving DecidableEq, Repr

/-- Caller identity of a request: the value of the configured header with the configured
prefix stripped (the variable `email` of the handlers). -/
def callerIdentity (m : manager) (c : Context) : String :=
  TrimPrefix (GetHeader c m.header) m.pfx

/-- The set `admins` that `RemoveProfile` builds for profile `p` and the listed
contributors `items`. -/
def removeProfileAdmins (m : manager) (p : Profile) (items : List Contributor) : StringSet :=
  let admins := m.admins
  let admins := setInsert admins p.spec.owner.name
  items.foldl (fun admins item =>
    if item.spec.role = ContributorRoleOwner then setInsert admins item.metadata.name
    else admins) admins

def RemoveProfile (m : manager) (cl : Cluster) (c : Context) : HandlerOut :=
  let email := callerIdentity m c
  let name := Param c "profile"
  match clientGet profileOps cl ("", name) with
  | .error e =>
    if IsNotFound e then ⟨cl, .status 404 ""⟩ else ⟨cl, .status 500 ""⟩
  | .ok p =>
    match clientList contributorOps cl (some p.metadata.name) [] with
    | .error _ => ⟨cl, .status 500 ""⟩
    | .ok items =>
      let admins := removeProfileAdmins m p items
      if !setHas admins email then ⟨cl, .status 403 ""⟩
      else
        match clientDelete profileOps cl (keyOf p.metadata) with
        | .error e =>
          if (IgnoreNotFound (some e)).isSome then ⟨cl, .status 500 ""⟩
          else ⟨cl, .status 200 ""⟩
        | .ok cl' => ⟨cl', .status 200 ""⟩

/-- The set `admins` that `RemoveContributor` builds for profile `p` and the listed
contributors `items`. -/
def removeContributorAdmins (m : manager) (p : Profile) (items : List Contributor) :
    StringSet :=
  let admins := m.admins
  let admins := if p.spec.owner.kind = UserKind then setInsert admins p.spec.owner.name
    else admins
  items.foldl (fun admins item =>
    if item.spec.role = ContributorRoleOwner then setInsert admins item.spec.name
    else admins) admins

def RemoveContributor (m : manager) (cl : Cluster) (c : Context) : HandlerOut :=
  let email := callerIdentity m c
  match c.binding with
  | none => ⟨cl, .status 400 ""⟩
  | some binding =>
    match clientGet profileOps cl ("", binding.referredNamespace) with
    | .error _ => ⟨cl, .status 500 ""⟩
    | .ok p =>
      match clientList contributorOps cl (some binding.referredNamespace) [] with
      | .error _ => ⟨cl, .status 500 ""⟩
      | .ok items =>
        let admins := removeContributorAdmins m p items
        if !setHas admins email then ⟨cl, .status 403 ""⟩
        else
          match binding.user with
          | none => ⟨cl, .panicked⟩
          | some user =>
            match clientDeleteAllOf contributorOps cl binding.referredNamespace
                [("owner.kubeflow.org/id", md5Sum user.name)] with
            | .error _ => ⟨cl, .status 500 ""⟩
            | .ok cl' => ⟨cl', .status 200 "Removed Contributor"⟩

def CreateProfile (_m : manager) (cl : Cluster) (c : Context) : HandlerOut :=
  match c.profile with
  | none => ⟨cl, .status 400 ""⟩
  | some p =>
    match clientCreate profileOps cl p with
    | .error e =>
      if IsAlreadyExists e then ⟨cl, .status 409 ""⟩ else ⟨cl, .status 500 ""⟩
    | .ok cl' => ⟨cl', .status 200 ""⟩

/-- Name that `AddContributor` gives the Contributor of an identity:
`strings.Split(name, "@")[0]`. -/
def localName (name : String) : String := (Split name '@').headD ""

/-- The Contributor that `AddContributor` builds from a binding, its user and its role
reference. -/
def newContributor (binding : Binding) (user : Subject) (roleRef : RoleRef) : Contributor :=
  { metadata :=
      { name := localName user.name,
        ns := binding.referredNamespace,
        labels := [("owner.kubeflow.org/id", md5Sum user.name),
                   ("contributor.kubeflow.org/role", roleRef.name)] },
    spec := { name := user.name, role := ContributorRoleContributor } }

def AddContributor (_m : manager) (cl : Cluster) (c : Context) : HandlerOut :=
  match c.binding with
  | none => ⟨cl, .status 400 ""⟩
  | some binding =>
    match binding.user with
    | none => ⟨cl, .panicked⟩
    | some user =>
      if user.kind ≠ UserKind then
        ⟨cl, .status 400 "only users can be added as contributors"⟩
      else
        match binding.roleRef with
        | none => ⟨cl, .panicked⟩
        | some roleRef =>
          match clientCreate contributorOps cl (newContributor binding user roleRef) with
          | .error _ => ⟨cl, .status 500 ""⟩
          | .ok cl' => ⟨cl', .status 200 "Added Contributor"⟩

/-- Loop of `ReadNamespaces` over the listed contributors. -/
def readBindings (items : List Contributor) : List Binding :=
  items.foldl (fun bindings contributor =>
    if contributor.spec.role = ContributorRoleOwner then
      bindings ++ [{ referredNamespace := contributor.metadata.ns,
                     roleRef := some { name := "admin", kind := "ClusterRole" },
                     user := some { kind := UserKind, name := contributor.spec.name } }]
    else if contributor.spec.role = ContributorRoleContributor then
      bindings ++ [{ referredNamespace := contributor.metadata.ns,
                     roleRef := some { name := "edit", kind := "ClusterRole" },
                     user := some { kind := UserKind, name := contributor.spec.name } }]
    else bindings) []

def ReadNamespaces (_m : manager) (cl : Cluster) (c : Context) : HandlerOut :=
  let ns := Query c "namespace"
  let user := Query c "user"
  let role := Query c "role"
  let selector : StrMap :=
    (if user ≠ "" then [("owner.kubeflow.org/id", md5Sum user)] else [])
      ++ (if role ≠ "" then [("contributor.kubeflow.org/role", role)] else [])
  match clientList contributorOps cl (if ns ≠ "" then some ns else none) selector with
  | .error _ => ⟨cl, .status 500 ""⟩
  | .ok items => ⟨cl, .bindings 200 (readBindings items)⟩

def ListAdmins (m : manager) (cl : Cluster) (c : Context) : HandlerOut :=
  let user := Query c "user"
  if user = "" then ⟨cl, .status 400 "missing required param \x27user\x27"⟩
  else ⟨cl, .status 200 (FormatBool (setHas m.admins user))⟩

end access

/-! ## Contributor reconciler (`controller/contributor/reconciler.go`) -/

namespace contributor

def errReconcileServiceAccount : String := "failed to reconcile service account"

/-- Format `errFmtSetControllerRef` applied to the resource name. -/
def errFmtSetControllerRef (what : String) : String :=
  "failed to set controller reference on " ++ what

/-- Registered `(apiVersion, kind)` of `v1alpha1.Contributor`. -/
def contributorGVK : String × String := ("kubeflow.org/v1alpha1", "Contributor")

/-- Data fields of the Go struct `Reconciler` of the contributor package. -/
structure Settings where
  contributorRole : String := "kubeflow-edit"
  userIDPrefix : String := ""
  userIDHeader : String := "kubeflow-userid"
deriving DecidableEq, Repr

/-- Go type `ReconcileFunc` of the contributor package. -/
abbrev ReconcileFunc := Settings → Cluster → Contributor → OpOut

def ReconcileServiceAccount : ReconcileFunc := fun _ c contributor =>
  let serviceAccount : ServiceAccount :=
    { metadata := { name := contributor.metadata.name, ns := contributor.metadata.ns } }
  let o := CreateOrPatch serviceAccountOps c serviceAccount (fun serviceAccount =>
    match SetControllerReference contributorGVK contributor.metadata
        serviceAccount.metadata with
    | .error e => .error (.wrapped (errFmtSetControllerRef "ServiceAccount") e)
    | .ok m =>
      let m := addLabel m "owner.kubeflow.org/id" (md5Sum contributor.spec.name)
      .ok { metadata := addAnnotation m "owner.kubeflow.org/name" contributor.spec.name })
  ⟨o.cluster, o.res, Wrap o.err errReconcileServiceAccount⟩

def errReconcileRoleBinding : String := "failed to reconcile role binding"

def errReconcileAuthorizationPolicy : String := "failed to reconcile authorization policy"

def principalIstioIngressGateway : String :=
  "cluster.local/ns/istio-system/sa/istio-ingressgateway-service-account"

/-- Go `rbacv1.GroupName`. -/
def rbacGroupName : String := "rbac.authorization.k8s.io"

def ReconcileRoleBinding : ReconcileFunc := fun r c contributor =>
  let binding : RoleBinding :=
    { metadata := { name := contributor.metadata.name, ns := contributor.metadata.ns } }
  let o := CreateOrPatch roleBindingOps c binding (fun binding =>
    match SetControllerReference contributorGVK contributor.metadata binding.metadata with
    | .error e => .error (.wrapped (errFmtSetControllerRef "RoleBinding") e)
    | .ok m =>
      let m := addLabel m "owner.kubeflow.org/id" (md5Sum contributor.spec.name)
      let m := addAnnotation m "owner.kubeflow.org/name" contributor.spec.name
      let m := addAnnotation m "owner" contributor.spec.name
      let m := addAnnotation m "role" contributor.spec.role
      .ok { metadata := m,
            roleRef := { kind := "ClusterRole", apiGroup := rbacGroupName,
                         name := r.contributorRole },
            subjects := [{ kind := UserKind, name := contributor.spec.name }] })
  ⟨o.cluster, o.res, Wrap o.err errReconcileRoleBinding⟩

/-- Condition of both policies: the user-id header carries the prefixed identity. -/
def headerCondition (r : Settings) (contributor : Contributor) : Condition :=
  { key := "request.headers[" ++ r.userIDHeader ++ "]",
    values := [r.userIDPrefix ++ contributor.spec.name] }

/-- Spec of the policy "<name>-public" written by `ReconcileIstioAuthorizationPolicy`. -/
def publicSpec (r : Settings) (contributor : Contributor) : AuthorizationPolicySpec :=
  { action := "ALLOW",
    rules := [
      { whenConditions := [headerCondition r contributor],
        fromPrincipals := [[principalIstioIngressGateway]] }],
    selector := some [("kubeflow.org/visibility", "public")] }

/-- Spec of the policy "<name>-private" written by `ReconcileIstioAuthorizationPolicy`. -/
def privateSpec (r : Settings) (contributor : Contributor) : AuthorizationPolicySpec :=
  { action := "ALLOW",
    rules := [
      { whenConditions := [headerCondition r contributor],
        fromPrincipals := [[principalIstioIngressGateway,
          "cluster.local/ns/" ++ contributor.metadata.ns ++ "/sa/"
            ++ contributor.metadata.name]] }],
    selector := some [("owner.kubeflow.org/id", md5Sum contributor.spec.name)] }

/-- First upsert of `ReconcileIstioAuthorizationPolicy`: the policy "<name>-public". -/
def upsertPublic (r : Settings) (c : Cluster) (contributor : Contributor) : OpOut :=
  let pub : AuthorizationPolicy :=
    { metadata := { name := contributor.metadata.name ++ "-public",
                    ns := contributor.metadata.ns } }
  CreateOrPatch authorizationPolicyOps c pub (fun pub =>
    match SetControllerReference contributorGVK contributor.metadata pub.metadata with
    | .error e => .error (.wrapped (errFmtSetControllerRef "AuthorizationPolicy") e)
    | .ok m => .ok { metadata := m, spec := publicSpec r contributor })

/-- Second upsert of `ReconcileIstioAuthorizationPolicy`: the policy "<name>-private". -/
def upsertPrivate (r : Settings) (c : Cluster) (contributor : Contributor) : OpOut :=
  let policy : AuthorizationPolicy :=
    { metadata := { name := contributor.metadata.name ++ "-private",
                    ns := contributor.metadata.ns } }
  CreateOrPatch authorizationPolicyOps c policy (fun policy =>
    match SetControllerReference contributorGVK contributor.metadata policy.metadata with
    | .error e => .error (.wrapped (errFmtSetControllerRef "AuthorizationPolicy") e)
    | .ok m => .ok { metadata := m, spec := privateSpec r contributor })

def ReconcileIstioAuthorizationPolicy : ReconcileFunc := fun r c contributor =>
  let o := upsertPublic r c contributor
  match o.err with
  | some e => ⟨o.cluster, o.res, some e⟩
  | none =>
    let o2 := upsertPrivate r o.cluster contributor
    ⟨o2.cluster, o2.res, Wrap o2.err errReconcileAuthorizationPolicy⟩

def NopReconcileFunc : ReconcileFunc := fun _ c _ => ⟨c, OperationResultNone, none⟩

/-- Go struct `Reconciler` of the contributor package: the data fields and the three
feature steps. -/
structure Reconciler extends Settings where
  istio : ReconcileFunc := NopReconcileFunc
  roleBinding : ReconcileFunc := NopReconcileFunc
  serviceAccount : ReconcileFunc := NopReconcileFunc

/-- Go type `ReconcilerOption` of the contributor package. -/
abbrev ReconcilerOption := Reconciler → Reconciler

def WithUserIDPrefix (pfx : String) : ReconcilerOption :=
  fun r => { r with userIDPrefix := pfx }

def WithUserIDHeader (header : String) : ReconcilerOption :=
  fun r => { r with userIDHeader := header }

def WithIstioEnabled : ReconcilerOption :=
  fun r => { r with istio := ReconcileIstioAuthorizationPolicy }

def WithPipelinesEnabled : ReconcilerOption := fun r => r

def WithContributorClusterRole (name : String) : ReconcilerOption :=
  fun r => { r with contributorRole := name }

def WithDefaultServiceAccountReconcilerFunc : ReconcilerOption :=
  fun r => { r with serviceAccount := ReconcileServiceAccount }

def WithDefaultRoleBindingReconcilerFunc : ReconcilerOption :=
  fun r => { r with roleBinding := ReconcileRoleBinding }

/-- Go `NewReconciler` of the contributor package: every step a no-op, the role
"kubeflow-edit", the header "kubeflow-userid", then the options in order. -/
def NewReconciler (opts : List ReconcilerOption) : Reconciler :=
  opts.foldl (fun r f => f r) {}

/-- Options that `Setup` of the contributor package passes to `NewReconciler` (the
logger option is omitted). -/
def SetupOptions (opts : List ReconcilerOption) (istio pipelines : Bool) :
    List ReconcilerOption :=
  opts ++ [WithDefaultServiceAccountReconcilerFunc, WithDefaultRoleBindingReconcilerFunc]
    ++ (if istio then [WithIstioEnabled] else [])
    ++ (if pipelines then [WithPipelinesEnabled] else [])

/-- Loop of `Reconcile` over the step functions. -/
def runFuncs (r : Settings) : List ReconcileFunc → Cluster → Contributor → profile.ReconcileOut
  | [], c, _ => ⟨c, {}, none⟩
  | f :: fs, c, contributor =>
    let o := f r c contributor
    match o.err with
    | some e => ⟨o.cluster, {}, some e⟩
    | none => runFuncs r fs o.cluster contributor

def Reconcile (r : Reconciler) (c : Cluster) (req : ObjectKey) : profile.ReconcileOut :=
  match clientGet contributorOps c req with
  | .error e => ⟨c, {}, Wrap (IgnoreNotFound (some e)) "failed to read profile"⟩
  | .ok contributor =>
    runFuncs r.toSettings [r.serviceAccount, r.roleBinding, r.istio] c contributor

/-- Reconcilers that the options of the contributor package can build: each step is
either the no-op or the method of that step. -/
def PackageSteps (r : Reconciler) : Prop :=
  (r.serviceAccount = NopReconcileFunc ∨ r.serviceAccount = ReconcileServiceAccount) ∧
  (r.roleBinding = NopReconcileFunc ∨ r.roleBinding = ReconcileRoleBinding) ∧
  (r.istio = NopReconcileFunc ∨ r.istio = ReconcileIstioAuthorizationPolicy)

end contributor

/-! ## Values of the repository's tests -/

namespace profile

/-- Reconcilers that the options of the package can build: each step is either the
no-op or the method of that step. -/
def PackageSteps (r : Reconciler) : Prop :=
  (r.namespaceFn = NopReconcileFunc ∨ r.namespaceFn = ReconcileNamespace) ∧
  (r.contributor = NopReconcileFunc ∨ r.contributor = ReconcileContributor) ∧
  (r.resourceQuota = NopReconcileFunc ∨ r.resourceQuota = ReconcileResourceQuota) ∧
  (r.istio = NopReconcileFunc ∨ r.istio = ReconcileIstioAuthorizationPolicy)

/-- Options that `Setup` passes to `NewReconciler`: the caller's options, the default
steps, then the options of the enabled features `Istio`, `NamespaceAdoption` and
`Pipelines` (the logger option is omitted). -/
def SetupOptions (opts : List ReconcilerOption) (istio adoption pipelines : Bool) :
    List ReconcilerOption :=
  opts ++ [WithDefaultNamespaceReconcileFunc, WithDefaultContributorReconcilerFunc,
      WithNamespaceAdoptionDisabled, WithResourceQuotaEnabled]
    ++ (if istio then [WithIstioEnabled, WithNamespaceLabel "istio-injection" "true"] else [])
    ++ (if adoption then [WithNamespaceAdoptionEnabled] else [])
    ++ (if pipelines then [WithPipelinesEnabled] else [])

/-- Profile "starlord" of the tests. -/
def starlord : Profile :=
  { metadata := { name := "starlord" },
    spec := { owner := { kind := "User", name := "starlord@guardians.net" } } }

/-- Namespace "starlord" with no label, annotation or owner reference, as in the test
`IgnoresAnExistingNamespaceNotOwnedByAProfile`. -/
def bareNamespace : Namespace := { metadata := { name := "starlord" } }

/-- Namespace "starlord" with a controller reference to the profile and no annotation,
as in the test `AdoptsAnExistingNamespace`. -/
def referencedNamespace : Namespace :=
  { metadata :=
      { name := "starlord",
        ownerReferences := [newControllerRef profileGVK starlord.metadata] } }

/-- Namespace "starlord" annotated with the owner, and one label of its own, as in the
test `UpdatesAnExistingNamespaceWithLabels`. -/
def annotatedNamespace : Namespace :=
  { metadata :=
      { name := "starlord",
        labels := [("istio-injected", "true")],
        annotations := [("owner", "starlord@guardians.net")] } }

/-- Namespace "starlord" whose controller is another profile, "gamora". -/
def foreignNamespace : Namespace :=
  { metadata :=
      { name := "starlord",
        ownerReferences := [newControllerRef profileGVK { name := "gamora" }] } }

/-- Store of the roster example: the profile, three contributors of its namespace of
which two share a name, and one contributor of another namespace. -/
def rosterCluster : Cluster :=
  { profiles := [starlord],
    contributors := [
      { metadata := { name := "b", ns := "starlord" } },
      { metadata := { name := "a", ns := "starlord" } },
      { metadata := { name := "b", ns := "starlord" } },
      { metadata := { name := "z", ns := "other" } }] }

/-- Store with the profile "starlord" in which every create of a resource quota
fails. -/
def quotaFaultCluster : Cluster :=
  { profiles := [starlord],
    faults := [((Verb.create, Kind.resourceQuota), Err.backend "quota service down")] }

/-- Store with the profile "starlord" in which every list of contributors fails. -/
def listFaultCluster : Cluster :=
  { profiles := [starlord],
    faults := [((Verb.list, Kind.contributor), Err.backend "list failed")] }

/-- Store of the test `RemovesExistingResourceQuotaLimits`. -/
def quotaCluster : Cluster :=
  { profiles := [starlord],
    resourceQuotas := [
      { metadata :=
          { name := "kf-resource-quota", ns := "starlord",
            labels := [("app.kubernetes.io/part-of", "kubeflow-profile")],
            ownerReferences := [newControllerRef profileGVK starlord.metadata] },
        spec := { hard := [("configmaps", "10")] } }] }

end profile

namespace access

/-- Owner Contributor of the profile "starlord", named after the profile as the Profile
reconciler names it. -/
def starlordOwner : Contributor :=
  { metadata :=
      { name := "starlord", ns := "starlord",
        labels := [("owner.kubeflow.org/id", md5Sum "starlord@guardians.net"),
                   ("contributor.kubeflow.org/role", "admin")] },
    spec := { name := "starlord@guardians.net", role := "Owner" } }

/-- An Owner-role Contributor for gamora in the namespace "starlord". -/
def gamoraOwner : Contributor :=
  { metadata :=
      { name := "gamora", ns := "starlord",
        labels := [("owner.kubeflow.org/id", md5Sum "gamora@guardians.net"),
                   ("contributor.kubeflow.org/role", "admin")] },
    spec := { name := "gamora@guardians.net", role := "Owner" } }

/-- A Contributor-role Contributor for rocket in the namespace "starlord". -/
def rocketContributor : Contributor :=
  { metadata :=
      { name := "rocket", ns := "starlord",
        labels := [("owner.kubeflow.org/id", md5Sum "rocket@guardians.net"),
                   ("contributor.kubeflow.org/role", "edit")] },
    spec := { name := "rocket@guardians.net", role := "Contributor" } }

/-- Store of the access examples: the profile "starlord" and the three Contributors. -/
def guardians : Cluster :=
  { profiles := [profile.starlord],
    contributors := [starlordOwner, gamoraOwner, rocketContributor] }

/-- Store that `CreateProfile` for the profile "starlord" and one pass of the Profile
reconciler of `Setup` build from a store without objects. -/
def reconciledStarlord : Cluster :=
  (profile.Reconcile (profile.NewReconciler (profile.SetupOptions [] true false true))
    (CreateProfile {} {} { profile := some profile.starlord }).cluster
    ("", "starlord")).cluster

/-- Store with a profile whose owner is a group. -/
def groupOwned : Cluster :=
  { profiles := [
      { metadata := { name := "team" },
        spec := { owner := { kind := "Group", name := "guardians" } } }] }

/-- Request `DELETE /profiles/<name>` sent by `user` (header "kubeflow-userid"). -/
def deleteProfile (user name : String) : Context :=
  { headers := [("kubeflow-userid", user)], params := [("profile", name)] }

/-- Binding of the user `target` in the namespace `ns`. -/
def userBinding (target ns : String) : Binding :=
  { user := some { kind := "User", name := target }, referredNamespace := ns }

/-- Binding of the principal `target` of kind `kind` in the namespace `ns` with the role
reference `role`. -/
def roleBindingOf (kind target ns role : String) : Binding :=
  { user := some { kind := kind, name := target },
    referredNamespace := ns,
    roleRef := some { kind := "ClusterRole", name := role } }

/-- Request `POST /bindings` for the principal `target` of kind `kind`. -/
def postBinding (kind target ns role : String) : Context :=
  { binding := some (roleBindingOf kind target ns role) }

/-- Request `GET /role/clusteradmin?user=<user>`. -/
def adminQuery (user : String) : Context := { query := [("user", user)] }

/-- Translation of one Contributor into a Binding as the specification words it: role
Owner gives the role reference "admin", role Contributor gives "edit", any other role
gives nothing. -/
def specBinding (contributor : Contributor) : Option Binding :=
  if contributor.spec.role = "Owner" then
    some (roleBindingOf "User" contributor.spec.name contributor.metadata.ns "admin")
  else if contributor.spec.role = "Contributor" then
    some (roleBindingOf "User" contributor.spec.name contributor.metadata.ns "edit")
  else none

/-- Request `POST /bindings` whose body names no user. -/
def postNoUser (ns : String) : Context := { binding := some { referredNamespace := ns } }

/-- Request `POST /bindings` whose body names a user of kind "User" and no role
reference. -/
def postNoRoleRef (target ns : String) : Context :=
  { binding := some (userBinding target ns) }

/-- Request `DELETE /bindings` sent by `user` for the binding of `target` in `ns`. -/
def deleteBinding (user target ns : String) : Context :=
  { headers := [("kubeflow-userid", user)], binding := some (userBinding target ns) }

end access

/-! ## Errors that an upsert raises -/

/-- Errors that a read or an upsert of kind `k` raises on the store `c`: a fault of the
backend for that kind, NotFound, AlreadyExists, the key check of `mutate`, or the failure
to set the controller reference on the resource called `what`. -/
def RaisedBy (c : Cluster) (k : Kind) (what : String) (cause : Err) : Prop :=
  (∃ v, faultOf c v k = some cause) ∨ cause = .notFound ∨ cause = .alreadyExists ∨
    cause = .mutateKey ∨
    ∃ e0, cause = .wrapped ("failed to set controller reference on " ++ what) e0

/-! ## States the system reaches -/

/-- Contributors of namespace `n` whose role is Owner. -/
def ownersIn (c : Cluster) (n : String) : List Contributor :=
  c.contributors.filter
    (fun o => decide (o.metadata.ns = n) && decide (o.spec.role = ContributorRoleOwner))

/-- Invariant of the Contributors of a store: no two have the same namespace and name,
and one whose role is Owner is named after its namespace. -/
def OwnersNamed (l : List Contributor) : Prop :=
  (l.map (fun o => keyOf o.metadata)).Nodup ∧
    ∀ o ∈ l, o.spec.role = ContributorRoleOwner → o.metadata.name = o.metadata.ns

/-- Stores that the operations of the system reach from a store without objects, whatever
the faults of the backend: the handlers `CreateProfile`, `RemoveProfile`,
`AddContributor` and `RemoveContributor` for any manager and request, and a pass of the
Profile or of the Contributor reconciler, built from the steps of its package, for any
request. -/
inductive Reachable : Cluster → Prop where
  | empty (faults : List ((Verb × Kind) × Err)) : Reachable { faults := faults }
  | createProfile (m : access.manager) (ctx : access.Context) {cl : Cluster} :
      Reachable cl → Reachable (access.CreateProfile m cl ctx).cluster
  | removeProfile (m : access.manager) (ctx : access.Context) {cl : Cluster} :
      Reachable cl → Reachable (access.RemoveProfile m cl ctx).cluster
  | addContributor (m : access.manager) (ctx : access.Context) {cl : Cluster} :
      Reachable cl → Reachable (access.AddContributor m cl ctx).cluster
  | removeContributor (m : access.manager) (ctx : access.Context) {cl : Cluster} :
      Reachable cl → Reachable (access.RemoveContributor m cl ctx).cluster
  | profilePass (r : profile.Reconciler) (req : ObjectKey) {cl : Cluster} :
      profile.PackageSteps r → Reachable cl → Reachable (profile.Reconcile r cl req).cluster
  | contributorPass (r : contributor.Reconciler) (req : ObjectKey) {cl : Cluster} :
      contributor.PackageSteps r → Reachable cl →
      Reachable (contributor.Reconcile r cl req).cluster

/-! ## Laws of the store accessors -/

/-- Laws of a kind accessor: the items written are the items read back, and writing
items leaves the injected faults alone. -/
structure LawfulOps {α : Type} (ops : KindOps α) : Prop where
  items_set : ∀ c l, ops.items (ops.setItems c l) = l
  faults_set : ∀ c l, (ops.setItems c l).faults = c.faults

end KPM

namespace KPM

theorem hasKey_self {α : Type} (ops : KindOps α) (o : α) :
    hasKey ops (keyOf (ops.meta o)) o = true := by
  simp [hasKey, keyOf]

theorem namespaceOps_lawful : LawfulOps namespaceOps := ⟨fun _ _ => rfl, fun _ _ => rfl⟩

theorem profileOps_lawful : LawfulOps profileOps := ⟨fun _ _ => rfl, fun _ _ => rfl⟩

theorem contributorOps_lawful : LawfulOps contributorOps := ⟨fun _ _ => rfl, fun _ _ => rfl⟩

theorem resourceQuotaOps_lawful : LawfulOps resourceQuotaOps := ⟨fun _ _ => rfl, fun _ _ => rfl⟩

theorem authorizationPolicyOps_lawful : LawfulOps authorizationPolicyOps :=
  ⟨fun _ _ => rfl, fun _ _ => rfl⟩

theorem clientGet_ok {α : Type} {ops : KindOps α} {c : Cluster} {key : ObjectKey} {o : α}
    (h : clientGet ops c key = .ok o) :
    faultOf c .get ops.kind = none ∧ lookupObj ops c key = some o := by
  unfold clientGet at h
  cases hf : faultOf c .get ops.kind with
  | some e => simp [hf] at h
  | none =>
    cases hl : lookupObj ops c key with
    | none => simp [hf, hl] at h
    | some o' =>
      simp [hf, hl] at h
      exact ⟨rfl, by rw [h]⟩

theorem clientGet_of_lookup {α : Type} {ops : KindOps α} {c : Cluster} {key : ObjectKey} {o : α}
    (hf : faultOf c .get ops.kind = none) (hl : lookupObj ops c key = some o) :
    clientGet ops c key = .ok o := by
  simp [clientGet, hf, hl]

theorem lookupObj_hasKey {α : Type} {ops : KindOps α} {c : Cluster} {key : ObjectKey} {o : α}
    (h : lookupObj ops c key = some o) : hasKey ops key o = true := by
  unfold lookupObj at h
  exact List.find?_some h

theorem find_replace {α : Type} (p : α → Bool) (obj : α) (hp : p obj = true) :
    ∀ (l : List α) (cur : α), l.find? p = some cur →
      (l.map (fun o => if p o then obj else o)).find? p = some obj := by
  intro l
  induction l with
  | nil => intro cur h; simp at h
  | cons a t ih =>
    intro cur h
    by_cases ha : p a = true
    · simp [List.find?, ha, hp]
    · have ha' : p a = false := by simpa using ha
      rw [List.find?_cons, ha'] at h
      simp only [List.map_cons, ha', Bool.false_eq_true, if_false, List.find?_cons]
      exact ih cur h

theorem lookupObj_replaceObj {α : Type} {ops : KindOps α} (hl : LawfulOps ops) {c : Cluster}
    {key : ObjectKey} {cur obj : α} (hcur : lookupObj ops c key = some cur)
    (hkey : keyOf (ops.meta obj) = key) :
    lookupObj ops (replaceObj ops c obj) key = some obj := by
  unfold lookupObj replaceObj
  rw [hl.items_set, hkey]
  exact find_replace (hasKey ops key) obj (by rw [← hkey]; exact hasKey_self ops obj) _ cur hcur

theorem lookupObj_append {α : Type} {ops : KindOps α} (hl : LawfulOps ops) {c : Cluster}
    {key : ObjectKey} {obj : α} (hnone : lookupObj ops c key = none)
    (hkey : keyOf (ops.meta obj) = key) :
    lookupObj ops (ops.setItems c (ops.items c ++ [obj])) key = some obj := by
  unfold lookupObj at hnone ⊢
  rw [hl.items_set, List.find?_append, hnone]
  have : hasKey ops key obj = true := by rw [← hkey]; exact hasKey_self ops obj
  simp [List.find?, this]

theorem mutate_ok {α : Type} {ops : KindOps α} {f : α → Except Err α} {key : ObjectKey}
    {o o' : α} (h : mutate ops f key o = .ok o') : f o = .ok o' ∧ keyOf (ops.meta o') = key := by
  unfold mutate at h
  cases hf : f o with
  | error e => simp [hf] at h
  | ok r =>
    simp only [hf] at h
    by_cases hk : keyOf (ops.meta r) = key
    · simp only [hk, if_true] at h
      cases h
      exact ⟨rfl, hk⟩
    · simp [hk] at h

theorem clientCreate_ok {α : Type} {ops : KindOps α} {c c' : Cluster} {o : α}
    (h : clientCreate ops c o = .ok c') :
    lookupObj ops c (keyOf (ops.meta o)) = none ∧ c' = ops.setItems c (ops.items c ++ [o]) := by
  unfold clientCreate at h
  cases hf : faultOf c .create ops.kind with
  | some e => simp [hf] at h
  | none =>
    cases hl : lookupObj ops c (keyOf (ops.meta o)) with
    | some x => simp [hf, hl] at h
    | none =>
      simp only [hf, hl] at h
      cases h
      exact ⟨rfl, rfl⟩

theorem clientWrite_ok {α : Type} {v : Verb} {ops : KindOps α} {c c' : Cluster} {o : α}
    (h : clientWrite v ops c o = .ok c') : c' = replaceObj ops c o := by
  unfold clientWrite at h
  cases hf : faultOf c v ops.kind with
  | some e => simp [hf] at h
  | none =>
    cases hl : lookupObj ops c (keyOf (ops.meta o)) with
    | none => simp [hf, hl] at h
    | some x =>
      simp only [hf, hl] at h
      cases h
      rfl

/-- A successful `CreateOrPatch` / `CreateOrUpdate` leaves in the store, under the key of
the skeleton, the result of the mutate function applied to what was stored there before
(or to the skeleton when nothing was). -/
theorem createOrWrite_ok {α : Type} [DecidableEq α] {ops : KindOps α} (hl : LawfulOps ops)
    (v : Verb) (c : Cluster) (obj : α) (f : α → Except Err α)
    (h : (createOrWrite v ops c obj f).err = none) :
    ∃ base obj', (lookupObj ops c (keyOf (ops.meta obj)) = some base ∨
        (lookupObj ops c (keyOf (ops.meta obj)) = none ∧ base = obj)) ∧
      f base = .ok obj' ∧ keyOf (ops.meta obj') = keyOf (ops.meta obj) ∧
      lookupObj ops (createOrWrite v ops c obj f).cluster (keyOf (ops.meta obj)) = some obj' := by
  unfold createOrWrite at h ⊢
  cases hg : clientGet ops c (keyOf (ops.meta obj)) with
  | error e =>
    simp only [hg] at h ⊢
    by_cases hnf : IsNotFound e = true
    · simp only [hnf, Bool.not_true, Bool.false_eq_true, if_false] at h ⊢
      cases hm : mutate ops f (keyOf (ops.meta obj)) obj with
      | error e' => simp [hm] at h
      | ok obj' =>
        simp only [hm] at h ⊢
        cases hc : clientCreate ops c obj' with
        | error e' => simp [hc] at h
        | ok c' =>
          simp only [hc]
          obtain ⟨hfo, hk⟩ := mutate_ok hm
          obtain ⟨hnone, hc'⟩ := clientCreate_ok hc
          rw [hk] at hnone
          refine ⟨obj, obj', Or.inr ⟨hnone, rfl⟩, hfo, hk, ?_⟩
          rw [hc']
          exact lookupObj_append hl hnone hk
    · simp [hnf] at h
  | ok cur =>
    simp only [hg] at h ⊢
    have hcur := (clientGet_ok hg).2
    cases hm : mutate ops f (keyOf (ops.meta obj)) cur with
    | error e' => simp [hm] at h
    | ok obj' =>
      simp only [hm] at h ⊢
      obtain ⟨hfo, hk⟩ := mutate_ok hm
      by_cases heq : cur = obj'
      · subst heq
        simp only [if_true]
        exact ⟨cur, cur, Or.inl hcur, hfo, hk, hcur⟩
      · simp only [heq, if_false] at h ⊢
        cases hw : clientWrite v ops c obj' with
        | error e' => simp [hw] at h
        | ok c' =>
          simp only [hw]
          refine ⟨cur, obj', Or.inl hcur, hfo, hk, ?_⟩
          rw [clientWrite_ok hw]
          exact lookupObj_replaceObj hl hcur hk

/-! ### String maps -/

theorem mapGet_mapSet_same (m : StrMap) (k v : String) : mapGet (mapSet m k v) k = some v := by
  induction m with
  | nil => simp [mapSet, mapGet]
  | cons a t ih =>
    obtain ⟨k', v'⟩ := a
    by_cases h : k' = k
    · simp [mapSet, mapGet, h]
    · simp [mapSet, mapGet, h, ih]

theorem mapGet_mapSet_other (m : StrMap) (k v k2 : String) (hne : k2 ≠ k) :
    mapGet (mapSet m k v) k2 = mapGet m k2 := by
  induction m with
  | nil =>
    have : ¬ k = k2 := fun h => hne h.symm
    simp [mapSet, mapGet, this]
  | cons a t ih =>
    obtain ⟨k', v'⟩ := a
    by_cases h : k' = k
    · subst h
      have : ¬ k' = k2 := fun h => hne h.symm
      simp [mapSet, mapGet, this]
    · by_cases h2 : k' = k2
      · subst h2
        simp [mapSet, mapGet, h]
      · simp [mapSet, mapGet, h, h2, ih]

/-! ### Owner references -/

theorem SetControllerReference_ok {gvk : String × String} {owner controlled m : ObjectMeta}
    (h : SetControllerReference gvk owner controlled = .ok m) :
    m = { controlled with
          ownerReferences :=
            upsertOwnerRef (newControllerRef gvk owner) controlled.ownerReferences } := by
  unfold SetControllerReference at h
  cases hv : validateOwner owner controlled with
  | some e => simp [hv] at h
  | none =>
    simp only [hv] at h
    cases hc : GetControllerOf controlled with
    | none =>
      simp only [hc] at h
      cases h
      rfl
    | some ex =>
      simp only [hc] at h
      split at h
      · cases h
      · cases h
        rfl

namespace profile

/-- Labels after the loop of `updateFn` over the configured labels: a label already
set keeps its value, a missing one takes the configured value. -/
theorem labelLoop_labels (L : StrMap) (k : String) : ∀ m : ObjectMeta,
    mapGet (L.foldl (fun m kv => if !HasLabel m kv.1 then addLabel m kv.1 kv.2 else m) m).labels k
      = (mapGet m.labels k).or (mapGet L k) := by
  induction L with
  | nil => intro m; simp [mapGet]
  | cons a t ih =>
    intro m
    obtain ⟨k0, v0⟩ := a
    rw [List.foldl_cons, ih]
    by_cases hhas : HasLabel m k0 = true
    · simp only [hhas, Bool.not_true, Bool.false_eq_true, if_false]
      cases hg : mapGet m.labels k with
      | some v => simp
      | none =>
        have hne : ¬ k0 = k := by
          intro heq
          rw [heq] at hhas
          simp [HasLabel, mapHas, hg] at hhas
        simp [mapGet, hne]
    · have hhas' : HasLabel m k0 = false := by simpa using hhas
      simp only [hhas', Bool.not_false, if_true]
      by_cases hk : k = k0
      · subst hk
        have hnone : mapGet m.labels k = none := by
          simpa [HasLabel, mapHas] using hhas'
        simp [addLabel, mapGet_mapSet_same, hnone, mapGet]
      · have hk' : ¬ k0 = k := fun h => hk h.symm
        simp [addLabel, mapGet_mapSet_other _ _ _ _ hk, mapGet, hk']

theorem labelLoop_frame (L : StrMap) : ∀ m : ObjectMeta,
    L.foldl (fun m kv => if !HasLabel m kv.1 then addLabel m kv.1 kv.2 else m) m
      = { m with labels :=
          (L.foldl (fun m kv => if !HasLabel m kv.1 then addLabel m kv.1 kv.2 else m) m).labels } := by
  induction L with
  | nil => intro m; rfl
  | cons a t ih =>
    intro m
    rw [List.foldl_cons, ih]
    split <;> rfl

theorem updateFn_ok {r : Settings} {profile : Profile} {n n' : Namespace}
    (h : updateFn r profile n = .ok n') :
    mapGet n'.metadata.annotations "owner" = some profile.spec.owner.name ∧
    (∀ k, mapGet n'.metadata.labels k
      = (mapGet n.metadata.labels k).or (mapGet r.namespaceLabels k)) ∧
    n'.metadata.ownerReferences
      = upsertOwnerRef (newControllerRef profileGVK profile.metadata) n.metadata.ownerReferences := by
  unfold updateFn at h
  cases hs : SetControllerReference profileGVK profile.metadata n.metadata with
  | error e => simp [hs] at h
  | ok m =>
    simp only [hs] at h
    have hm := SetControllerReference_ok hs
    cases h
    refine ⟨by simp [ addAnnotation, mapGet_mapSet_same], ?_, ?_⟩
    · intro k
      simp only [ addAnnotation]
      rw [labelLoop_labels, hm]
    · simp only [ addAnnotation]
      rw [labelLoop_frame, hm]

/-- Reading a cluster-scoped kind depends on the name part of the key only. -/
theorem lookupObj_namespace_name (c : Cluster) (k k' : ObjectKey) (h : k.2 = k'.2) :
    lookupObj namespaceOps c k = lookupObj namespaceOps c k' := by
  unfold lookupObj
  congr 1
  funext o
  simp [hasKey, namespaceOps, h]

theorem lookupObj_profile_name (c : Cluster) (k k' : ObjectKey) (h : k.2 = k'.2) :
    lookupObj profileOps c k = lookupObj profileOps c k' := by
  unfold lookupObj
  congr 1
  funext o
  simp [hasKey, profileOps, h]

/-- The refusal branch of `ReconcileNamespace`. -/
theorem ReconcileNamespace_refuses (r : Settings) (c : Cluster) (profile : Profile) (nsObj : Namespace)
    (hget : clientGet namespaceOps c (keyOf profile.metadata) = .ok nsObj)
    (hadopt : r.namespaceAdoptionEnabled = false)
    (howner : mapGet nsObj.metadata.annotations "owner" ≠ some profile.spec.owner.name) :
    ReconcileNamespace r c profile = ⟨c, Stop, none⟩ := by
  unfold ReconcileNamespace
  simp only [hget, hadopt]
  cases hann : mapGet nsObj.metadata.annotations "owner" with
  | none => simp
  | some owner =>
    have hne : owner ≠ profile.spec.owner.name := by
      intro heq
      exact howner (by rw [hann, heq])
    simp [hne]

/-- Claim C1: when the namespace named after the Profile is read from the store,
adoption is disabled and its "owner" annotation is absent or differs from the
Profile's owner name, `ReconcileNamespace` returns `Stop` with a nil error and the
store (hence the namespace object) is exactly as it was. -/
theorem c1_namespace_not_owned_stops (r : Settings) (c : Cluster) (profile : Profile)
    (nsObj : Namespace)
    (hget : clientGet namespaceOps c (keyOf profile.metadata) = .ok nsObj)
    (hadopt : r.namespaceAdoptionEnabled = false)
    (howner : mapGet nsObj.metadata.annotations "owner" ≠ some profile.spec.owner.name) :
    ReconcileNamespace r c profile = ⟨c, Stop, none⟩ ∧
      lookupObj namespaceOps (ReconcileNamespace r c profile).cluster (keyOf profile.metadata)
        = some nsObj := by
  have hrun := ReconcileNamespace_refuses r c profile nsObj hget hadopt howner
  refine ⟨hrun, ?_⟩
  rw [hrun]
  exact (clientGet_ok hget).2

/-- Witness of C1: the namespace "starlord" exists without annotations. -/
theorem c1_namespace_not_owned_stops_witness :
    ReconcileNamespace {}
        { namespaces := [{ metadata := { name := "starlord" } }] }
        { metadata := { name := "starlord" },
          spec := { owner := { kind := "User", name := "starlord@guardians.net" } } }
      = ⟨{ namespaces := [{ metadata := { name := "starlord" } }] }, Stop, none⟩ :=
  (c1_namespace_not_owned_stops {}
    { namespaces := [{ metadata := { name := "starlord" } }] }
    { metadata := { name := "starlord" },
      spec := { owner := { kind := "User", name := "starlord@guardians.net" } } }
    { metadata := { name := "starlord" } } (by decide) rfl (by decide)).1

theorem patchStatus_ok {c : Cluster} {profile : Profile}
    (hpatch : faultOf c .patchStatus .profile = none)
    (hl : lookupObj profileOps c (keyOf profile.metadata) = some profile) (names : List String) :
    patchStatus c (setRoster profile names)
      = .ok (replaceObj profileOps c (setRoster profile names), setRoster profile names) := by
  unfold patchStatus
  simp only [hpatch]
  have hl' : lookupObj profileOps c (keyOf (setRoster profile names).metadata) = some profile := hl
  rw [hl']
  rfl

/-- Contributors that `Reconcile` lists for a profile: those of its namespace. -/
theorem clientList_contributors {c : Cluster} (hlist : faultOf c .list .contributor = none)
    (n : String) :
    clientList contributorOps c (some n) []
      = .ok (c.contributors.filter (fun o => decide (o.metadata.ns = n))) := by
  unfold clientList
  have : faultOf c .list contributorOps.kind = none := hlist
  simp only [this]
  simp [contributorOps, matchesLabels]

/-- Claim C2: with adoption disabled, when the Profile's namespace exists without the
right "owner" annotation, a full `Reconcile` whose namespace step is
`ReconcileNamespace` returns a nil error and the zero `Result`, whatever the later
steps are; the store is the one left by the roster patch, so that contributors,
resource quotas, authorization policies and namespaces are as before. -/
theorem c2_stop_skips_later_steps (r : Reconciler) (c : Cluster) (req : ObjectKey)
    (profile : Profile) (nsObj : Namespace)
    (hns : r.namespaceFn = ReconcileNamespace)
    (hadopt : r.namespaceAdoptionEnabled = false)
    (hprofile : clientGet profileOps c req = .ok profile)
    (hlist : faultOf c .list .contributor = none)
    (hpatch : faultOf c .patchStatus .profile = none)
    (hget : clientGet namespaceOps c (keyOf profile.metadata) = .ok nsObj)
    (howner : mapGet nsObj.metadata.annotations "owner" ≠ some profile.spec.owner.name) :
    (Reconcile r c req).err = none ∧ (Reconcile r c req).result = {} ∧
    (Reconcile r c req).cluster.contributors = c.contributors ∧
    (Reconcile r c req).cluster.resourceQuotas = c.resourceQuotas ∧
    (Reconcile r c req).cluster.authorizationPolicies = c.authorizationPolicies ∧
    (Reconcile r c req).cluster.namespaces = c.namespaces ∧
    (Reconcile r c req).cluster.serviceAccounts = c.serviceAccounts ∧
    (Reconcile r c req).cluster.roleBindings = c.roleBindings ∧
    (Reconcile r c req).cluster.profiles = c.profiles.map (fun o =>
      if hasKey profileOps (keyOf profile.metadata) o then
        setRoster profile (roster (c.contributors.filter
          (fun o => decide (o.metadata.ns = profile.metadata.name))))
      else o) := by
  obtain ⟨_, hlp⟩ := clientGet_ok hprofile
  have hname : profile.metadata.name = req.2 := by
    have := lookupObj_hasKey hlp
    simpa [hasKey, profileOps] using this
  have hself : lookupObj profileOps c (keyOf profile.metadata) = some profile := by
    rw [lookupObj_profile_name c (keyOf profile.metadata) req (by simp [keyOf, hname])]
    exact hlp
  have hrun : Reconcile r c req = ⟨replaceObj profileOps c
      (setRoster profile (roster (c.contributors.filter
        (fun o => decide (o.metadata.ns = profile.metadata.name))))), {}, none⟩ := by
    unfold Reconcile
    simp only [hprofile, clientList_contributors hlist]
    rw [patchStatus_ok hpatch hself]
    simp only [runFuncs, hns]
    have hget' : clientGet namespaceOps (replaceObj profileOps c
        (setRoster profile (roster (c.contributors.filter
          (fun o => decide (o.metadata.ns = profile.metadata.name))))))
        (keyOf (setRoster profile (roster (c.contributors.filter
          (fun o => decide (o.metadata.ns = profile.metadata.name))))).metadata)
          = .ok nsObj := hget
    rw [ReconcileNamespace_refuses r.toSettings _ _ nsObj hget' hadopt howner]
    simp [Stop]
  rw [hrun]
  exact ⟨rfl, rfl, rfl, rfl, rfl, rfl, rfl, rfl, rfl⟩

/-- Witness of C2: the reconciler of `Setup` with Istio enabled, a store holding the
profile and a bare namespace "starlord". -/
theorem c2_stop_skips_later_steps_witness :
    (Reconcile (NewReconciler (SetupOptions [] true false false))
        { profiles := [starlord], namespaces := [bareNamespace] } ("", "starlord")).err = none ∧
    (Reconcile (NewReconciler (SetupOptions [] true false false))
        { profiles := [starlord], namespaces := [bareNamespace] }
        ("", "starlord")).cluster.resourceQuotas = [] :=
  ⟨(c2_stop_skips_later_steps (NewReconciler (SetupOptions [] true false false))
      { profiles := [starlord], namespaces := [bareNamespace] } ("", "starlord") starlord
      bareNamespace rfl rfl (by decide) (by decide) (by decide) (by decide) (by decide)).1,
   (c2_stop_skips_later_steps (NewReconciler (SetupOptions [] true false false))
      { profiles := [starlord], namespaces := [bareNamespace] } ("", "starlord") starlord
      bareNamespace rfl rfl (by decide) (by decide) (by decide) (by decide)
      (by decide)).2.2.2.1⟩

theorem createOrWrite_res_ne_stop {α : Type} [DecidableEq α] (v : Verb) (ops : KindOps α)
    (c : Cluster) (obj : α) (f : α → Except Err α) :
    (createOrWrite v ops c obj f).res ≠ Stop := by
  unfold createOrWrite
  simp only [Stop, OperationResultNone, OperationResultCreated, OperationResultUpdated]
  repeat' split
  all_goals simp

/-- The allowed branch of `ReconcileNamespace` on an existing namespace. -/
theorem ReconcileNamespace_allowed (r : Settings) (c : Cluster) (profile : Profile)
    (nsObj : Namespace)
    (hget : clientGet namespaceOps c (keyOf profile.metadata) = .ok nsObj)
    (hallowed : r.namespaceAdoptionEnabled = true ∨
      mapGet nsObj.metadata.annotations "owner" = some profile.spec.owner.name) :
    ReconcileNamespace r c profile =
      ⟨(CreateOrPatch namespaceOps c nsObj (updateFn r profile)).cluster,
       (CreateOrPatch namespaceOps c nsObj (updateFn r profile)).res,
       Wrap (CreateOrPatch namespaceOps c nsObj (updateFn r profile)).err
         errReconcileNamespace⟩ := by
  unfold ReconcileNamespace
  simp only [hget]
  rcases hallowed with h | h
  · simp [h]
  · simp [h]

/-- What a successful upsert of an existing namespace leaves in the store. -/
theorem namespace_upsert_ok (r : Settings) (c : Cluster) (profile : Profile)
    (nsObj : Namespace)
    (hget : clientGet namespaceOps c (keyOf profile.metadata) = .ok nsObj)
    (hok : (CreateOrPatch namespaceOps c nsObj (updateFn r profile)).err = none) :
    ∃ ns', updateFn r profile nsObj = .ok ns' ∧
      lookupObj namespaceOps (CreateOrPatch namespaceOps c nsObj (updateFn r profile)).cluster
        (keyOf profile.metadata) = some ns' := by
  obtain ⟨_, hl⟩ := clientGet_ok hget
  have hname : nsObj.metadata.name = profile.metadata.name := by
    have := lookupObj_hasKey hl
    simpa [hasKey, namespaceOps, keyOf] using this
  have hkeys : (keyOf (namespaceOps.meta nsObj)).2 = (keyOf profile.metadata).2 := hname
  obtain ⟨base, ns', hbase, hf, _, hlook⟩ :=
    createOrWrite_ok namespaceOps_lawful .patch c nsObj (updateFn r profile) hok
  rw [lookupObj_namespace_name c _ _ hkeys, hl] at hbase
  rw [lookupObj_namespace_name _ _ _ hkeys] at hlook
  rcases hbase with hb | ⟨hb, _⟩
  · cases hb
    exact ⟨ns', hf, hlook⟩
  · cases hb

/-- Claim C3 as amended: for an existing namespace of the Profile's name,
`ReconcileNamespace` does not return `Stop` and runs the upsert whenever adoption is
enabled or the namespace's "owner" annotation equals the Profile's owner name; when the
upsert succeeds the stored namespace has the owner annotation and, under every key, the
label it had before or else the configured one. -/
theorem c3_namespace_upsert_when_allowed (r : Settings) (c : Cluster) (profile : Profile)
    (nsObj : Namespace)
    (hget : clientGet namespaceOps c (keyOf profile.metadata) = .ok nsObj)
    (hallowed : r.namespaceAdoptionEnabled = true ∨
      mapGet nsObj.metadata.annotations "owner" = some profile.spec.owner.name) :
    (ReconcileNamespace r c profile).res ≠ Stop ∧
    ReconcileNamespace r c profile =
      ⟨(CreateOrPatch namespaceOps c nsObj (updateFn r profile)).cluster,
       (CreateOrPatch namespaceOps c nsObj (updateFn r profile)).res,
       Wrap (CreateOrPatch namespaceOps c nsObj (updateFn r profile)).err
         errReconcileNamespace⟩ ∧
    ((ReconcileNamespace r c profile).err = none →
      ∃ ns', lookupObj namespaceOps (ReconcileNamespace r c profile).cluster
          (keyOf profile.metadata) = some ns' ∧
        mapGet ns'.metadata.annotations "owner" = some profile.spec.owner.name ∧
        ∀ k, mapGet ns'.metadata.labels k
          = (mapGet nsObj.metadata.labels k).or (mapGet r.namespaceLabels k)) := by
  have hrun := ReconcileNamespace_allowed r c profile nsObj hget hallowed
  refine ⟨?_, hrun, ?_⟩
  · rw [hrun]
    exact createOrWrite_res_ne_stop .patch namespaceOps c nsObj (updateFn r profile)
  · rw [hrun]
    intro herr
    have hok : (CreateOrPatch namespaceOps c nsObj (updateFn r profile)).err = none := by
      cases he : (CreateOrPatch namespaceOps c nsObj (updateFn r profile)).err with
      | none => rfl
      | some e => simp [Wrap, he] at herr
    obtain ⟨ns', hf, hlook⟩ := namespace_upsert_ok r c profile nsObj hget hok
    obtain ⟨hann, hlab, _⟩ := updateFn_ok hf
    exact ⟨ns', hlook, hann, hlab⟩

/-- Witness of C3 as amended: adoption disabled, namespace annotated with the owner. -/
theorem c3_namespace_upsert_when_allowed_witness :
    (ReconcileNamespace { namespaceLabels := [("app.kubernetes.io/part-of", "kubeflow-profile")] }
      { profiles := [starlord], namespaces := [annotatedNamespace] } starlord).res ≠ Stop :=
  (c3_namespace_upsert_when_allowed
    { namespaceLabels := [("app.kubernetes.io/part-of", "kubeflow-profile")] }
    { profiles := [starlord], namespaces := [annotatedNamespace] } starlord annotatedNamespace
    (by decide) (Or.inr (by decide))).1

/-- Counterexample to C3 as stated: with adoption disabled, a namespace whose controller
reference names the Profile but which has no "owner" annotation makes
`ReconcileNamespace` return `Stop` and leave the namespace alone. -/
theorem c3_controller_reference_does_not_count :
    (GetControllerOf referencedNamespace.metadata).map (fun ref => (ref.kind, ref.name))
      = some ("Profile", starlord.metadata.name) ∧
    mapGet referencedNamespace.metadata.annotations "owner" = none ∧
    ReconcileNamespace { namespaceAdoptionEnabled := false }
      { profiles := [starlord], namespaces := [referencedNamespace] } starlord
      = ⟨{ profiles := [starlord], namespaces := [referencedNamespace] }, Stop, none⟩ := by
  decide

/-! ### Roster -/

theorem strLE_iff (a b : String) : strLE a b = true ↔ a ≤ b := by
  simp [strLE, String.le_iff_toList_le]

theorem setInsert_mem (s : StringSet) (x n : String) :
    n ∈ setInsert s x ↔ n ∈ s ∨ n = x := by
  unfold setInsert
  by_cases h : x ∈ s
  · simp only [h, if_true]
    constructor
    · exact Or.inl
    · rintro (h1 | h1)
      · exact h1
      · rw [h1]; exact h
  · simp [h]

theorem setInsert_nodup (s : StringSet) (x : String) (hs : s.Nodup) : (setInsert s x).Nodup := by
  unfold setInsert
  by_cases h : x ∈ s
  · simpa [h] using hs
  · simp only [h, if_false]
    rw [List.nodup_append]
    refine ⟨hs, List.nodup_singleton x, ?_⟩
    intro a ha hb
    rw [List.mem_singleton] at hb
    exact h (hb ▸ ha)

theorem foldl_setInsert_names (items : List Contributor) : ∀ s : StringSet, s.Nodup →
    (items.foldl (fun s item => setInsert s item.metadata.name) s).Nodup ∧
    ∀ n, n ∈ items.foldl (fun s item => setInsert s item.metadata.name) s
      ↔ n ∈ s ∨ ∃ item ∈ items, item.metadata.name = n := by
  induction items with
  | nil => intro s hs; simp [hs]
  | cons a t ih =>
    intro s hs
    rw [List.foldl_cons]
    obtain ⟨h1, h2⟩ := ih (setInsert s a.metadata.name) (setInsert_nodup s _ hs)
    refine ⟨h1, fun n => ?_⟩
    rw [h2, setInsert_mem]
    constructor
    · rintro ((h | h) | ⟨item, hi, hn⟩)
      · exact Or.inl h
      · exact Or.inr ⟨a, List.mem_cons_self _ _, h.symm⟩
      · exact Or.inr ⟨item, List.mem_cons_of_mem _ hi, hn⟩
    · rintro (h | ⟨item, hi, hn⟩)
      · exact Or.inl (Or.inl h)
      · rcases List.mem_cons.mp hi with h | h
        · exact Or.inl (Or.inr (by rw [← hn, h]))
        · exact Or.inr ⟨item, h, hn⟩

theorem setList_perm (s : StringSet) : (setList s).Perm s :=
  List.perm_insertionSort _ s

theorem setList_sorted (s : StringSet) : (setList s).Sorted (fun a b => a ≤ b) := by
  haveI : IsTotal String (fun a b => strLE a b = true) :=
    ⟨fun a b => by simp only [strLE_iff]; exact le_total a b⟩
  haveI : IsTrans String (fun a b => strLE a b = true) :=
    ⟨fun a b c => by simp only [strLE_iff]; exact le_trans⟩
  have h := List.sorted_insertionSort (fun a b => strLE a b = true) s
  exact List.Pairwise.imp (fun {a b} hab => (strLE_iff a b).mp hab) h

/-- The roster is strictly ascending, duplicate-free, and holds exactly the names of the
listed contributors. -/
theorem roster_spec (items : List Contributor) :
    (roster items).Sorted (fun a b => a < b) ∧ (roster items).Nodup ∧
    ∀ n, n ∈ roster items ↔ ∃ item ∈ items, item.metadata.name = n := by
  obtain ⟨hnd, hmem⟩ := foldl_setInsert_names items [] List.nodup_nil
  have hperm := setList_perm (items.foldl (fun s item => setInsert s item.metadata.name) [])
  have hnd' : (roster items).Nodup := hperm.nodup_iff.mpr hnd
  refine ⟨(setList_sorted _).lt_of_le hnd', hnd', fun n => ?_⟩
  unfold roster
  rw [hperm.mem_iff, hmem]
  simp

/-! ### Frame of the steps -/

theorem createOrWrite_cluster {α : Type} [DecidableEq α] (v : Verb) (ops : KindOps α)
    (c : Cluster) (obj : α) (f : α → Except Err α) :
    (createOrWrite v ops c obj f).cluster = c ∨
      ∃ l, (createOrWrite v ops c obj f).cluster = ops.setItems c l := by
  unfold createOrWrite
  cases hg : clientGet ops c (keyOf (ops.meta obj)) with
  | error e =>
    simp only [hg]
    by_cases hnf : IsNotFound e = true
    · simp only [hnf, Bool.not_true, Bool.false_eq_true, if_false]
      cases hm : mutate ops f (keyOf (ops.meta obj)) obj with
      | error e' => exact Or.inl rfl
      | ok obj' =>
        simp only [hm]
        cases hc : clientCreate ops c obj' with
        | error e' => exact Or.inl rfl
        | ok c' => exact Or.inr ⟨_, (clientCreate_ok hc).2⟩
    · simp [hnf]
  | ok cur =>
    simp only [hg]
    cases hm : mutate ops f (keyOf (ops.meta obj)) cur with
    | error e' => exact Or.inl rfl
    | ok obj' =>
      simp only [hm]
      by_cases heq : cur = obj'
      · simp [heq]
      · simp only [heq, if_false]
        cases hw : clientWrite v ops c obj' with
        | error e' => exact Or.inl rfl
        | ok c' => exact Or.inr ⟨_, clientWrite_ok hw⟩

theorem createOrWrite_profiles {α : Type} [DecidableEq α] (v : Verb) (ops : KindOps α)
    (hfr : ∀ c l, (ops.setItems c l).profiles = c.profiles)
    (c : Cluster) (obj : α) (f : α → Except Err α) :
    (createOrWrite v ops c obj f).cluster.profiles = c.profiles := by
  rcases createOrWrite_cluster v ops c obj f with h | ⟨l, h⟩
  · rw [h]
  · rw [h, hfr]

theorem ReconcileNamespace_profiles (r : Settings) (c : Cluster) (p : Profile) :
    (ReconcileNamespace r c p).cluster.profiles = c.profiles := by
  unfold ReconcileNamespace
  dsimp only
  repeat' split
  all_goals first
    | rfl
    | exact createOrWrite_profiles .patch namespaceOps (fun _ _ => rfl) _ _ _

theorem ReconcileContributor_profiles (r : Settings) (c : Cluster) (p : Profile) :
    (ReconcileContributor r c p).cluster.profiles = c.profiles := by
  unfold ReconcileContributor
  split
  · rfl
  · exact createOrWrite_profiles .patch contributorOps (fun _ _ => rfl) _ _ _

theorem ReconcileResourceQuota_profiles (r : Settings) (c : Cluster) (p : Profile) :
    (ReconcileResourceQuota r c p).cluster.profiles = c.profiles :=
  createOrWrite_profiles .update resourceQuotaOps (fun _ _ => rfl) _ _ _

theorem ReconcileIstioAuthorizationPolicy_profiles (r : Settings) (c : Cluster) (p : Profile) :
    (ReconcileIstioAuthorizationPolicy r c p).cluster.profiles = c.profiles :=
  createOrWrite_profiles .patch authorizationPolicyOps (fun _ _ => rfl) _ _ _

theorem runFuncs_profiles (r : Settings) (p : Profile) : ∀ (fs : List ReconcileFunc) (c : Cluster),
    (∀ f ∈ fs, ∀ c, (f r c p).cluster.profiles = c.profiles) →
    (runFuncs r fs c p).cluster.profiles = c.profiles := by
  intro fs
  induction fs with
  | nil => intro c _; rfl
  | cons f t ih =>
    intro c hfs
    unfold runFuncs
    have hf := hfs f (List.mem_cons_self _ _) c
    cases he : (f r c p).err with
    | some e => simpa [he] using hf
    | none =>
      simp only [he]
      by_cases hs : (f r c p).res = Stop
      · simpa [hs] using hf
      · simp only [hs, if_false]
        rw [ih _ (fun g hg => hfs g (List.mem_cons_of_mem _ hg)), hf]

theorem packageSteps_profiles (r : Reconciler) (hsteps : PackageSteps r) (p : Profile) :
    ∀ f ∈ [r.namespaceFn, r.contributor, r.resourceQuota, r.istio], ∀ c,
      (f r.toSettings c p).cluster.profiles = c.profiles := by
  obtain ⟨h1, h2, h3, h4⟩ := hsteps
  intro f hf c
  simp only [List.mem_cons, List.mem_singleton, List.not_mem_nil, or_false] at hf
  rcases hf with hf | hf | hf | hf
  · rcases h1 with h | h
    · rw [hf, h]; rfl
    · rw [hf, h]; exact ReconcileNamespace_profiles _ _ _
  · rcases h2 with h | h
    · rw [hf, h]; rfl
    · rw [hf, h]; exact ReconcileContributor_profiles _ _ _
  · rcases h3 with h | h
    · rw [hf, h]; rfl
    · rw [hf, h]; exact ReconcileResourceQuota_profiles _ _ _
  · rcases h4 with h | h
    · rw [hf, h]; rfl
    · rw [hf, h]; exact ReconcileIstioAuthorizationPolicy_profiles _ _ _

/-- Claim C7: `Reconcile` stores as the Profile's `status.contributors` the roster of
the Contributors listed in its namespace, whatever the later steps answer; the roster is
strictly ascending, has no duplicates, and contains a name exactly when a listed
Contributor has it (names a, b, a give [a, b]). -/
theorem c7_roster_sorted_distinct (r : Reconciler) (c : Cluster) (req : ObjectKey)
    (profile : Profile)
    (hsteps : PackageSteps r)
    (hprofile : clientGet profileOps c req = .ok profile)
    (hlist : faultOf c .list .contributor = none)
    (hpatch : faultOf c .patchStatus .profile = none) :
    (∃ p, lookupObj profileOps (Reconcile r c req).cluster req = some p ∧
      p.status.contributors = roster (c.contributors.filter
        (fun o => decide (o.metadata.ns = profile.metadata.name))) ∧
      p.status.contributors.Sorted (fun a b => a < b) ∧ p.status.contributors.Nodup ∧
      ∀ n, n ∈ p.status.contributors ↔
        ∃ item ∈ c.contributors, item.metadata.ns = profile.metadata.name ∧
          item.metadata.name = n) ∧
    (∀ items : List Contributor, (roster items).Sorted (fun a b => a < b) ∧
      (roster items).Nodup ∧ ∀ n, n ∈ roster items ↔ ∃ item ∈ items, item.metadata.name = n) ∧
    roster [{ metadata := { name := "a" } }, { metadata := { name := "b" } },
      { metadata := { name := "a" } }] = ["a", "b"] := by
  refine ⟨?_, roster_spec, by decide⟩
  obtain ⟨_, hlp⟩ := clientGet_ok hprofile
  have hname : profile.metadata.name = req.2 := by
    have := lookupObj_hasKey hlp
    simpa [hasKey, profileOps] using this
  have hkey : (keyOf profile.metadata).2 = req.2 := hname
  have hself : lookupObj profileOps c (keyOf profile.metadata) = some profile := by
    rw [lookupObj_profile_name c _ req hkey]
    exact hlp
  have hprof : (Reconcile r c req).cluster.profiles = (replaceObj profileOps c
      (setRoster profile (roster (c.contributors.filter
        (fun o => decide (o.metadata.ns = profile.metadata.name)))))).profiles := by
    unfold Reconcile
    simp only [hprofile, clientList_contributors hlist]
    rw [patchStatus_ok hpatch hself]
    exact runFuncs_profiles _ _ _ _ (packageSteps_profiles r hsteps _)
  have hlook : lookupObj profileOps (Reconcile r c req).cluster req
      = some (setRoster profile (roster (c.contributors.filter
        (fun o => decide (o.metadata.ns = profile.metadata.name))))) := by
    have h1 : lookupObj profileOps (Reconcile r c req).cluster req
        = lookupObj profileOps (replaceObj profileOps c
            (setRoster profile (roster (c.contributors.filter
              (fun o => decide (o.metadata.ns = profile.metadata.name)))))) req := by
      unfold lookupObj
      show List.find? _ (Reconcile r c req).cluster.profiles = List.find? _ _
      rw [hprof]
      rfl
    rw [h1, ← lookupObj_profile_name _ (keyOf profile.metadata) req hkey]
    exact lookupObj_replaceObj profileOps_lawful hself rfl
  obtain ⟨hs, hnd, hmem⟩ := roster_spec (c.contributors.filter
    (fun o => decide (o.metadata.ns = profile.metadata.name)))
  refine ⟨_, hlook, rfl, hs, hnd, fun n => ?_⟩
  show n ∈ roster _ ↔ _
  rw [hmem]
  constructor
  · rintro ⟨item, hi, hn⟩
    rw [List.mem_filter] at hi
    exact ⟨item, hi.1, by simpa using hi.2, hn⟩
  · rintro ⟨item, hi, hns, hn⟩
    exact ⟨item, List.mem_filter.mpr ⟨hi, by simpa using hns⟩, hn⟩

/-- Witness of C7: the reconciler of `Setup` on the roster example. -/
theorem c7_roster_sorted_distinct_witness :
    ∃ p, lookupObj profileOps (Reconcile (NewReconciler (SetupOptions [] true false false))
        rosterCluster ("", "starlord")).cluster ("", "starlord") = some p ∧
      p.status.contributors.Nodup :=
  match (c7_roster_sorted_distinct (NewReconciler (SetupOptions [] true false false))
      rosterCluster ("", "starlord") starlord
      ⟨Or.inr rfl, Or.inr rfl, Or.inr rfl, Or.inr rfl⟩ (by decide) (by decide) (by decide)).1 with
  | ⟨p, h1, _, _, h4, _⟩ => ⟨p, h1, h4⟩

/-! ### Quota and owner contributor -/

theorem Wrap_none {e : Option Err} {msg : String} (h : Wrap e msg = none) : e = none := by
  cases e with
  | none => rfl
  | some x => simp [Wrap] at h

/-- Claim C8: after `ReconcileResourceQuota` succeeds, the quota "kf-resource-quota" of
the Profile's namespace has as spec the Profile's quota spec when set, else the
configured default when set, else the empty spec, whatever the stored quota held. -/
theorem c8_quota_spec_precedence (r : Settings) (c : Cluster) (profile : Profile)
    (hok : (ReconcileResourceQuota r c profile).err = none) :
    ∃ q, lookupObj resourceQuotaOps (ReconcileResourceQuota r c profile).cluster
        (profile.metadata.name, "kf-resource-quota") = some q ∧
      (∀ s, profile.spec.resourceQuotaSpec = some s → q.spec = s) ∧
      (∀ d, profile.spec.resourceQuotaSpec = none → r.defaultResourceQuotaSpec = some d →
        q.spec = d) ∧
      (profile.spec.resourceQuotaSpec = none → r.defaultResourceQuotaSpec = none →
        q.spec = {}) := by
  unfold ReconcileResourceQuota at hok ⊢
  dsimp only at hok ⊢
  have hok' := Wrap_none hok
  obtain ⟨base, q, _, hf, _, hlook⟩ :=
    createOrWrite_ok resourceQuotaOps_lawful .update c _ _ hok'
  refine ⟨q, hlook, ?_⟩
  cases hs : SetControllerReference profileGVK profile.metadata base.metadata with
  | error e => simp [hs] at hf
  | ok m =>
    simp only [hs] at hf
    cases hf
    refine ⟨?_, ?_, ?_⟩
    · intro s h1
      simp [h1]
    · intro d h1 h2
      simp [h1, h2]
    · intro h1 h2
      simp [h1, h2]

/-- Witness of C8: neither spec is set and the stored quota has limits, which are
cleared. -/
theorem c8_quota_spec_precedence_witness :
    ∃ q, lookupObj resourceQuotaOps (ReconcileResourceQuota {} quotaCluster starlord).cluster
        ("starlord", "kf-resource-quota") = some q ∧ q.spec = {} :=
  match c8_quota_spec_precedence {} quotaCluster starlord (by decide) with
  | ⟨q, h1, _, _, h4⟩ => ⟨q, h1, h4 rfl rfl⟩

/-- After `SetControllerReference` succeeds the controller of the object is the new
reference. -/
theorem upsertOwnerRef_controller (ref : OwnerReference) (hctrl : ref.controller = some true) :
    ∀ l : List OwnerReference,
      (∀ ex, l.find? (fun r => r.controller == some true) = some ex →
        referSameObject ex ref = true) →
      (upsertOwnerRef ref l).find? (fun r => r.controller == some true) = some ref := by
  intro l
  induction l with
  | nil => intro _; simp [upsertOwnerRef, hctrl]
  | cons a t ih =>
    intro h
    unfold upsertOwnerRef
    by_cases hsame : referSameObject a ref = true
    · simp [hsame, hctrl]
    · simp only [hsame, Bool.false_eq_true, if_false]
      by_cases hc : (a.controller == some true) = true
      · exact absurd (h a (by simp [List.find?, hc])) hsame
      · have hc' : (a.controller == some true) = false := by simpa using hc
        rw [List.find?_cons, hc']
        apply ih
        intro ex hex
        apply h
        rw [List.find?_cons, hc']
        exact hex

theorem SetControllerReference_controller {gvk : String × String}
    {owner controlled m : ObjectMeta}
    (h : SetControllerReference gvk owner controlled = .ok m) :
    GetControllerOf m = some (newControllerRef gvk owner) ∧ m.name = controlled.name ∧
      m.ns = controlled.ns ∧ m.labels = controlled.labels ∧
      m.annotations = controlled.annotations := by
  have hm := SetControllerReference_ok h
  refine ⟨?_, by rw [hm], by rw [hm], by rw [hm], by rw [hm]⟩
  rw [hm]
  unfold GetControllerOf
  apply upsertOwnerRef_controller _ rfl
  intro ex hex
  unfold SetControllerReference at h
  cases hv : validateOwner owner controlled with
  | some e => simp [hv] at h
  | none =>
    simp only [hv] at h
    have hc : GetControllerOf controlled = some ex := hex
    simp only [hc] at h
    by_cases hsame : referSameObject ex (newControllerRef gvk owner) = true
    · exact hsame
    · simp [hsame] at h

/-- Claim C9: for an owner of kind "User", after `ReconcileContributor` succeeds the
Contributor named after the Profile, in the namespace named after the Profile, has role
Owner, the owner's name, the identity-hash label, the role label "admin" and the Profile
as controller; for any other owner kind the step returns the None result with no error
and the store is unchanged. -/
theorem c9_owner_contributor (r : Settings) (c : Cluster) (profile : Profile) :
    (profile.spec.owner.kind = UserKind → (ReconcileContributor r c profile).err = none →
      ∃ co, lookupObj contributorOps (ReconcileContributor r c profile).cluster
          (profile.metadata.name, profile.metadata.name) = some co ∧
        co.metadata.name = profile.metadata.name ∧ co.metadata.ns = profile.metadata.name ∧
        co.spec.role = ContributorRoleOwner ∧ co.spec.name = profile.spec.owner.name ∧
        mapGet co.metadata.labels "owner.kubeflow.org/id"
          = some (md5Sum profile.spec.owner.name) ∧
        mapGet co.metadata.labels "contributor.kubeflow.org/role" = some "admin" ∧
        GetControllerOf co.metadata = some (newControllerRef profileGVK profile.metadata)) ∧
    (profile.spec.owner.kind ≠ UserKind →
      ReconcileContributor r c profile = ⟨c, OperationResultNone, none⟩) := by
  constructor
  · intro hkind hok
    unfold ReconcileContributor at hok ⊢
    simp only [hkind, ne_eq, not_true_eq_false, if_false] at hok ⊢
    have hok' := Wrap_none hok
    obtain ⟨base, co, _, hf, hkey, hlook⟩ :=
      createOrWrite_ok contributorOps_lawful .patch c _ _ hok'
    refine ⟨co, hlook, ?_⟩
    have hk1 : co.metadata.ns = profile.metadata.name := congrArg Prod.fst hkey
    have hk2 : co.metadata.name = profile.metadata.name := congrArg Prod.snd hkey
    refine ⟨hk2, hk1, ?_⟩
    cases hs : SetControllerReference profileGVK profile.metadata base.metadata with
    | error e => simp [hs] at hf
    | ok m =>
      simp only [hs] at hf
      cases hf
      obtain ⟨hctrl, _, _, _, _⟩ := SetControllerReference_controller hs
      refine ⟨rfl, rfl, ?_, ?_, ?_⟩
      · simp only [addLabel]
        rw [mapGet_mapSet_other _ _ _ _ (by decide), mapGet_mapSet_same]
      · simp only [addLabel]
        rw [mapGet_mapSet_same]
      · exact hctrl
  · intro hkind
    unfold ReconcileContributor
    simp [hkind, NopReconcileFunc]

/-- Witness of C9: the test `CreatesAContributorForTheProfileOwner`. -/
theorem c9_owner_contributor_witness :
    ∃ co, lookupObj contributorOps
        (ReconcileContributor {} { profiles := [starlord] } starlord).cluster
        ("starlord", "starlord") = some co ∧
      co.spec.role = "Owner" ∧ co.spec.name = "starlord@guardians.net" :=
  match (c9_owner_contributor {} { profiles := [starlord] } starlord).1 rfl (by decide) with
  | ⟨co, h1, _, _, h4, h5, _⟩ => ⟨co, h1, h4, h5⟩

end profile

/-! ### Identity hash -/

theorem leBytes_length (k : Nat) : ∀ n, (leBytes k n).length = k := by
  induction k with
  | zero => intro n; rfl
  | succ k ih => intro n; simp [leBytes, ih]

theorem md5Digest_length (msg : List Nat) : (md5Digest msg).length = 16 := by
  simp [md5Digest, leBytes_length]

theorem hexDigit_mem (n : Nat) : hexDigit n ∈ "0123456789abcdef".toList := by
  unfold hexDigit
  have h : n % 16 < 16 := Nat.mod_lt _ (by decide)
  generalize n % 16 = m at h
  interval_cases m <;> decide

theorem hexBytes_length (l : List Nat) : (l.flatMap hexByte).length = 2 * l.length := by
  induction l with
  | nil => rfl
  | cons a t ih =>
    rw [List.flatMap_cons, List.length_append, ih]
    simp [hexByte]
    omega

theorem hexBytes_mem (l : List Nat) (ch : Char) (h : ch ∈ l.flatMap hexByte) :
    ch ∈ "0123456789abcdef".toList := by
  rw [List.mem_flatMap] at h
  obtain ⟨b, _, hb⟩ := h
  simp only [hexByte, List.mem_cons, List.mem_singleton, List.not_mem_nil, or_false] at hb
  rcases hb with hb | hb
  · rw [hb]; exact hexDigit_mem _
  · rw [hb]; exact hexDigit_mem _

set_option maxRecDepth 100000 in
theorem md5Sum_starlord :
    md5Sum "starlord@guardians.net" = "c4b21e45ce00680aa4cfea244fcf3889" := by
  decide

/-- Claim C10: `md5Sum` returns 32 characters, each one of 0-9 a-f, determined by the
bytes of its argument; on "starlord@guardians.net" it returns
"c4b21e45ce00680aa4cfea244fcf3889". -/
theorem c10_md5Sum_token (name : String) :
    (md5Sum name).length = 32 ∧
    (∀ ch ∈ (md5Sum name).toList, ch ∈ "0123456789abcdef".toList) ∧
    (∀ other : String, utf8Bytes other = utf8Bytes name → md5Sum other = md5Sum name) ∧
    md5Sum "starlord@guardians.net" = "c4b21e45ce00680aa4cfea244fcf3889" := by
  refine ⟨?_, ?_, ?_, md5Sum_starlord⟩
  · show ((md5Digest (utf8Bytes name)).flatMap hexByte).length = 32
    rw [hexBytes_length, md5Digest_length]
  · intro ch hch
    exact hexBytes_mem _ ch hch
  · intro other h
    unfold md5Sum
    rw [h]

/-! ### Access decisions -/

namespace access

theorem foldl_owner_insert (g : Contributor → String) (items : List Contributor) :
    ∀ (init : StringSet) (n : String),
      n ∈ items.foldl (fun admins item =>
          if item.spec.role = ContributorRoleOwner then setInsert admins (g item)
          else admins) init
        ↔ n ∈ init ∨ ∃ item ∈ items, item.spec.role = ContributorRoleOwner ∧ g item = n := by
  induction items with
  | nil => intro init n; simp
  | cons a t ih =>
    intro init n
    rw [List.foldl_cons, ih]
    by_cases hrole : a.spec.role = ContributorRoleOwner
    · simp only [hrole, if_true]
      rw [profile.setInsert_mem]
      constructor
      · rintro ((h | h) | ⟨item, hi, hr, hn⟩)
        · exact Or.inl h
        · exact Or.inr ⟨a, List.mem_cons_self _ _, hrole, h.symm⟩
        · exact Or.inr ⟨item, List.mem_cons_of_mem _ hi, hr, hn⟩
      · rintro (h | ⟨item, hi, hr, hn⟩)
        · exact Or.inl (Or.inl h)
        · rcases List.mem_cons.mp hi with h | h
          · exact Or.inl (Or.inr (by rw [← hn, h]))
          · exact Or.inr ⟨item, h, hr, hn⟩
    · simp only [hrole, if_false]
      constructor
      · rintro (h | ⟨item, hi, hr, hn⟩)
        · exact Or.inl h
        · exact Or.inr ⟨item, List.mem_cons_of_mem _ hi, hr, hn⟩
      · rintro (h | ⟨item, hi, hr, hn⟩)
        · exact Or.inl h
        · rcases List.mem_cons.mp hi with h | h
          · rw [h] at hr; exact absurd hr hrole
          · exact Or.inr ⟨item, h, hr, hn⟩

/-- Members of the set that `RemoveContributor` computes. -/
theorem removeContributorAdmins_mem (m : manager) (p : Profile) (items : List Contributor)
    (n : String) :
    n ∈ removeContributorAdmins m p items ↔
      n ∈ m.admins ∨ (p.spec.owner.kind = UserKind ∧ n = p.spec.owner.name) ∨
        ∃ item ∈ items, item.spec.role = ContributorRoleOwner ∧ item.spec.name = n := by
  unfold removeContributorAdmins
  dsimp only
  rw [foldl_owner_insert (fun item => item.spec.name)]
  by_cases hk : p.spec.owner.kind = UserKind
  · simp only [hk, if_true, true_and]
    rw [profile.setInsert_mem, or_assoc]
  · simp [hk]

/-- Members of the set that `RemoveProfile` computes. -/
theorem removeProfileAdmins_mem (m : manager) (p : Profile) (items : List Contributor)
    (n : String) :
    n ∈ removeProfileAdmins m p items ↔
      n ∈ m.admins ∨ n = p.spec.owner.name ∨
        ∃ item ∈ items, item.spec.role = ContributorRoleOwner ∧ item.metadata.name = n := by
  unfold removeProfileAdmins
  dsimp only
  rw [foldl_owner_insert (fun item => item.metadata.name), profile.setInsert_mem, or_assoc]

/-- What `RemoveContributor` answers once the body, the profile and the contributors
have been read. -/
theorem RemoveContributor_read (m : manager) (cl : Cluster) (ctx : Context)
    (binding : Binding) (p : Profile)
    (hbody : ctx.binding = some binding)
    (hprofile : clientGet profileOps cl ("", binding.referredNamespace) = .ok p)
    (hlist : faultOf cl .list .contributor = none) :
    RemoveContributor m cl ctx =
      if !setHas (removeContributorAdmins m p (cl.contributors.filter
          (fun o => decide (o.metadata.ns = binding.referredNamespace))))
          (callerIdentity m ctx) then ⟨cl, .status 403 ""⟩
      else
        match binding.user with
        | none => ⟨cl, .panicked⟩
        | some user =>
          match clientDeleteAllOf contributorOps cl binding.referredNamespace
              [("owner.kubeflow.org/id", md5Sum user.name)] with
          | .error _ => ⟨cl, .status 500 ""⟩
          | .ok cl' => ⟨cl', .status 200 "Removed Contributor"⟩ := by
  unfold RemoveContributor
  simp only [hbody, hprofile, profile.clientList_contributors hlist]

/-- Claim C5: once the Profile of the referred namespace and the Contributors of that
namespace are read, `RemoveContributor` answers something other than 403 exactly when
the caller identity is a configured admin, or the Profile's owner name when the owner
kind is "User", or the identity (`spec.name`) of an Owner-role Contributor of the
referred namespace. -/
theorem c5_removeContributor_authorizes (m : manager) (cl : Cluster) (ctx : Context)
    (binding : Binding) (p : Profile)
    (hbody : ctx.binding = some binding)
    (hprofile : clientGet profileOps cl ("", binding.referredNamespace) = .ok p)
    (hlist : faultOf cl .list .contributor = none) :
    replyCode (RemoveContributor m cl ctx).reply ≠ some 403 ↔
      (callerIdentity m ctx ∈ m.admins ∨
        (p.spec.owner.kind = "User" ∧ callerIdentity m ctx = p.spec.owner.name) ∨
        ∃ item ∈ cl.contributors, item.metadata.ns = binding.referredNamespace ∧
          item.spec.role = "Owner" ∧ item.spec.name = callerIdentity m ctx) := by
  rw [RemoveContributor_read m cl ctx binding p hbody hprofile hlist]
  have hmem := removeContributorAdmins_mem m p (cl.contributors.filter
    (fun o => decide (o.metadata.ns = binding.referredNamespace))) (callerIdentity m ctx)
  have hset : (callerIdentity m ctx ∈ m.admins ∨
        (p.spec.owner.kind = "User" ∧ callerIdentity m ctx = p.spec.owner.name) ∨
        ∃ item ∈ cl.contributors, item.metadata.ns = binding.referredNamespace ∧
          item.spec.role = "Owner" ∧ item.spec.name = callerIdentity m ctx) ↔
      callerIdentity m ctx ∈ removeContributorAdmins m p (cl.contributors.filter
        (fun o => decide (o.metadata.ns = binding.referredNamespace))) := by
    rw [hmem]
    simp only [List.mem_filter, decide_eq_true_eq, UserKind, ContributorRoleOwner, and_assoc]
  rw [hset]
  by_cases hin : callerIdentity m ctx ∈ removeContributorAdmins m p (cl.contributors.filter
      (fun o => decide (o.metadata.ns = binding.referredNamespace)))
  · simp only [setHas, hin, decide_True, Bool.not_true, Bool.false_eq_true, if_false, iff_true]
    cases binding.user with
    | none => simp [replyCode]
    | some user =>
      simp only []
      cases clientDeleteAllOf contributorOps cl binding.referredNamespace
          [("owner.kubeflow.org/id", md5Sum user.name)] with
      | error e => simp [replyCode]
      | ok cl' => simp [replyCode]
  · simp [setHas, hin, replyCode]

/-- Witness of C5: gamora holds an Owner-role Contributor and may remove rocket. -/
theorem c5_removeContributor_authorizes_witness :
    replyCode (RemoveContributor {} guardians
      (deleteBinding "gamora@guardians.net" "rocket@guardians.net" "starlord")).reply
        ≠ some 403 :=
  (c5_removeContributor_authorizes {} guardians
    (deleteBinding "gamora@guardians.net" "rocket@guardians.net" "starlord")
    (userBinding "rocket@guardians.net" "starlord")
    profile.starlord rfl (by decide) (by decide)).mpr
    (Or.inr (Or.inr ⟨gamoraOwner, by simp [guardians], rfl, rfl, rfl⟩))

/-- When the caller is not in the set that the handler itself computes, `RemoveProfile`
and `RemoveContributor` answer 403 and return the store as it was. -/
theorem refused_by_own_set (m : manager) (cl : Cluster) (ctx : Context) :
    (∀ p, clientGet profileOps cl ("", Param ctx "profile") = .ok p →
      faultOf cl .list .contributor = none →
      callerIdentity m ctx ∉ removeProfileAdmins m p (cl.contributors.filter
        (fun o => decide (o.metadata.ns = p.metadata.name))) →
      RemoveProfile m cl ctx = ⟨cl, .status 403 ""⟩ ∧
      lookupObj profileOps (RemoveProfile m cl ctx).cluster ("", Param ctx "profile")
        = some p) ∧
    (∀ binding p, ctx.binding = some binding →
      clientGet profileOps cl ("", binding.referredNamespace) = .ok p →
      faultOf cl .list .contributor = none →
      callerIdentity m ctx ∉ removeContributorAdmins m p (cl.contributors.filter
        (fun o => decide (o.metadata.ns = binding.referredNamespace))) →
      RemoveContributor m cl ctx = ⟨cl, .status 403 ""⟩ ∧
      (RemoveContributor m cl ctx).cluster.contributors = cl.contributors) := by
  constructor
  · intro p hprofile hlist hnot
    have hrun : RemoveProfile m cl ctx = ⟨cl, .status 403 ""⟩ := by
      unfold RemoveProfile
      simp only [hprofile, profile.clientList_contributors hlist]
      simp [setHas, hnot]
    refine ⟨hrun, ?_⟩
    rw [hrun]
    exact (clientGet_ok hprofile).2
  · intro binding p hbody hprofile hlist hnot
    have hrun : RemoveContributor m cl ctx = ⟨cl, .status 403 ""⟩ := by
      rw [RemoveContributor_read m cl ctx binding p hbody hprofile hlist]
      simp [setHas, hnot]
    refine ⟨hrun, ?_⟩
    rw [hrun]

set_option maxRecDepth 100000 in
/-- Claim C4, evaluated on the store `guardians` with no configured admin: the caller
"gamora@guardians.net", identity of an Owner-role Contributor, is refused by
`RemoveProfile` with 403 although `RemoveContributor` authorizes the same caller; the
caller "gamora", which is only that Contributor's object name, is authorized by
`RemoveProfile` and the Profile is deleted; and the name of an owner of kind "Group" is
authorized as well. -/
theorem c4_removeProfile_admin_set_diverges :
    (RemoveProfile {} guardians (deleteProfile "gamora@guardians.net" "starlord")).reply
      = .status 403 "" ∧
    (RemoveContributor {} guardians
      (deleteBinding "gamora@guardians.net" "rocket@guardians.net" "starlord")).reply
      = .status 200 "Removed Contributor" ∧
    RemoveProfile {} guardians (deleteProfile "gamora" "starlord")
      = ⟨{ guardians with profiles := [] }, .status 200 ""⟩ ∧
    (RemoveContributor {} guardians
      (deleteBinding "gamora" "rocket@guardians.net" "starlord")).reply = .status 403 "" ∧
    RemoveProfile {} groupOwned (deleteProfile "guardians" "team")
      = ⟨{ groupOwned with profiles := [] }, .status 200 ""⟩ := by
  decide

end access

end KPM

namespace KPM

/-! ### Local name of an identity -/

theorem splitChars_head (sep : Char) : ∀ l : List Char,
    (splitChars sep l).headD [] = l.takeWhile (fun ch => ch != sep) := by
  intro l
  induction l with
  | nil => rfl
  | cons a t ih =>
    unfold splitChars
    by_cases h : a = sep
    · simp [h]
    · have hne : (a != sep) = true := by simpa using h
      simp only [h, if_false, List.takeWhile_cons, hne, if_true]
      cases hs : splitChars sep t with
      | nil =>
        rw [hs] at ih
        simp only [List.headD_nil] at ih
        simp [← ih]
      | cons w ws =>
        rw [hs] at ih
        simp only [List.headD_cons] at ih
        simp [ih]

theorem chars_split_at (sep : Char) : ∀ l : List Char, sep ∈ l →
    ∃ rest, l = l.takeWhile (fun ch => ch != sep) ++ sep :: rest := by
  intro l
  induction l with
  | nil => intro h; simp at h
  | cons a t ih =>
    intro h
    by_cases ha : a = sep
    · subst ha
      exact ⟨t, by simp⟩
    · have hne : (a != sep) = true := by simpa using ha
      have ht : sep ∈ t := by
        rcases List.mem_cons.mp h with h1 | h1
        · exact absurd h1.symm ha
        · exact h1
      obtain ⟨rest, hrest⟩ := ih ht
      refine ⟨rest, ?_⟩
      rw [List.takeWhile_cons, hne]
      simp only [if_true, List.cons_append]
      rw [← hrest]

namespace access

theorem localName_eq (s : String) :
    localName s = String.mk (s.toList.takeWhile (fun ch => ch != '@')) := by
  unfold localName Split
  rw [← splitChars_head]
  cases splitChars '@' s.toList with
  | nil => rfl
  | cons w ws => rfl

/-- Claim C11: the name `strings.Split(s, "@")[0]` that `AddContributor` derives from
an identity `s` contains no "@", is a prefix of `s`, equals `s` when `s` contains no
"@", and otherwise `s` is the name, then "@", then a rest. -/
theorem c11_localName_before_first_at (s : String) :
    '@' ∉ (localName s).toList ∧
    (∃ rest : String, s = localName s ++ rest) ∧
    ('@' ∉ s.toList → localName s = s) ∧
    ('@' ∈ s.toList → ∃ rest : String, s = localName s ++ "@" ++ rest) ∧
    localName "starlord@guardians.net" = "starlord" := by
  rw [localName_eq]
  refine ⟨?_, ?_, ?_, ?_, by decide⟩
  · intro hmem
    have := List.mem_takeWhile_imp hmem
    simp at this
  · refine ⟨String.mk (s.toList.dropWhile (fun ch => ch != '@')), ?_⟩
    apply String.ext
    simp [List.takeWhile_append_dropWhile]
  · intro hno
    apply String.ext
    simp only [String.toList]
    rw [List.takeWhile_eq_self_iff]
    intro ch hch
    have : ch ≠ '@' := fun h => hno (h ▸ hch)
    simpa using this
  · intro hmem
    obtain ⟨rest, hrest⟩ := chars_split_at '@' s.toList hmem
    refine ⟨String.mk rest, ?_⟩
    apply String.ext
    simp only [String.data_append]
    rw [List.append_assoc]
    exact hrest

end access

end KPM

namespace KPM

/-! ### Namespace upsert -/

/-- Variant of `createOrWrite_ok` that tells a stored object, which the read returned,
from an absent one. -/
theorem createOrWrite_ok_read {α : Type} [DecidableEq α] {ops : KindOps α}
    (hl : LawfulOps ops) (v : Verb) (c : Cluster) (obj : α) (f : α → Except Err α)
    (h : (createOrWrite v ops c obj f).err = none) :
    ∃ base obj', (clientGet ops c (keyOf (ops.meta obj)) = .ok base ∨
        (lookupObj ops c (keyOf (ops.meta obj)) = none ∧ base = obj)) ∧
      f base = .ok obj' ∧ keyOf (ops.meta obj') = keyOf (ops.meta obj) ∧
      lookupObj ops (createOrWrite v ops c obj f).cluster (keyOf (ops.meta obj)) = some obj' := by
  obtain ⟨base, obj', hbase, hf, hk, hlook⟩ := createOrWrite_ok hl v c obj f h
  cases hg : clientGet ops c (keyOf (ops.meta obj)) with
  | ok cur =>
    have hcur := (clientGet_ok hg).2
    rcases hbase with hb | ⟨hb, _⟩
    · rw [hcur] at hb
      cases hb
      exact ⟨_, obj', Or.inl rfl, hf, hk, hlook⟩
    · rw [hcur] at hb
      cases hb
  | error e =>
    unfold createOrWrite at h
    simp only [hg] at h
    by_cases hnf : IsNotFound e = true
    · simp only [hnf, Bool.not_true, Bool.false_eq_true, if_false] at h
      cases hm : mutate ops f (keyOf (ops.meta obj)) obj with
      | error e' => simp [hm] at h
      | ok o' =>
        simp only [hm] at h
        cases hc : clientCreate ops c o' with
        | error e' => simp [hc] at h
        | ok c' =>
          obtain ⟨_, hk'⟩ := mutate_ok hm
          obtain ⟨hnone, _⟩ := clientCreate_ok hc
          rw [hk'] at hnone
          rcases hbase with hb | ⟨_, hb⟩
          · rw [hnone] at hb
            cases hb
          · exact ⟨base, obj', Or.inr ⟨hnone, hb⟩, hf, hk, hlook⟩
    · simp [hnf] at h

namespace profile

theorem updateFn_meta {r : Settings} {profile : Profile} {n n' : Namespace}
    (h : updateFn r profile n = .ok n') :
    n'.metadata.name = n.metadata.name ∧
    GetControllerOf n'.metadata = some (newControllerRef profileGVK profile.metadata) := by
  unfold updateFn at h
  cases hs : SetControllerReference profileGVK profile.metadata n.metadata with
  | error e => simp [hs] at h
  | ok m =>
    simp only [hs] at h
    obtain ⟨hctrl, hname, _, _, _⟩ := SetControllerReference_controller hs
    cases h
    constructor
    · simp only [ addAnnotation]
      rw [labelLoop_frame]
      exact hname
    · unfold GetControllerOf at hctrl ⊢
      simp only [ addAnnotation]
      rw [labelLoop_frame]
      exact hctrl

theorem clientGet_namespace_name (c : Cluster) (k k' : ObjectKey) (h : k.2 = k'.2) :
    clientGet namespaceOps c k = clientGet namespaceOps c k' := by
  unfold clientGet
  rw [lookupObj_namespace_name c k k' h]

/-- Claim C12 as amended: when `ReconcileNamespace` runs the upsert (the namespace is
absent, or present and allowed) and the upsert succeeds, the stored namespace is named
after the Profile, has the Profile as controller, has the annotation "owner" with the
Profile's owner name, and under every key has the label it had before if it had one and
else the configured label of that key if there is one. -/
theorem c12_namespace_upsert_result (r : Settings) (c : Cluster) (profile : Profile)
    (old : Option Namespace)
    (hold : lookupObj namespaceOps c (keyOf profile.metadata) = old)
    (hallowed : ∀ n, old = some n → r.namespaceAdoptionEnabled = true ∨
      mapGet n.metadata.annotations "owner" = some profile.spec.owner.name)
    (hok : (ReconcileNamespace r c profile).err = none) :
    ∃ ns', lookupObj namespaceOps (ReconcileNamespace r c profile).cluster
        (keyOf profile.metadata) = some ns' ∧
      ns'.metadata.name = profile.metadata.name ∧
      GetControllerOf ns'.metadata = some (newControllerRef profileGVK profile.metadata) ∧
      mapGet ns'.metadata.annotations "owner" = some profile.spec.owner.name ∧
      ∀ k, mapGet ns'.metadata.labels k
        = (mapGet ((old.map (fun n => n.metadata.labels)).getD []) k).or
            (mapGet r.namespaceLabels k) := by
  cases hg : clientGet namespaceOps c (keyOf profile.metadata) with
  | ok nsObj =>
    obtain ⟨_, hl⟩ := clientGet_ok hg
    have hold' : old = some nsObj := by rw [← hold, hl]
    have hrun := ReconcileNamespace_allowed r c profile nsObj hg (hallowed nsObj hold')
    rw [hrun] at hok ⊢
    obtain ⟨ns', hf, hlook⟩ := namespace_upsert_ok r c profile nsObj hg (Wrap_none hok)
    obtain ⟨hann, hlab, _⟩ := updateFn_ok hf
    obtain ⟨hname, hctrl⟩ := updateFn_meta hf
    have hn : nsObj.metadata.name = profile.metadata.name := by
      have := lookupObj_hasKey hl
      simpa [hasKey, namespaceOps, keyOf] using this
    refine ⟨ns', hlook, by rw [hname, hn], hctrl, hann, fun k => ?_⟩
    rw [hlab, hold']
    rfl
  | error e =>
    have hrun : ReconcileNamespace r c profile =
        if IsNotFound e then
          ⟨(CreateOrPatch namespaceOps c { metadata := { name := profile.metadata.name } }
              (updateFn r profile)).cluster,
           (CreateOrPatch namespaceOps c { metadata := { name := profile.metadata.name } }
              (updateFn r profile)).res,
           Wrap (CreateOrPatch namespaceOps c { metadata := { name := profile.metadata.name } }
              (updateFn r profile)).err errReconcileNamespace⟩
        else ⟨c, OperationResultNone, Wrap (some e) errReconcileNamespace⟩ := by
      unfold ReconcileNamespace
      simp only [hg]
    rw [hrun] at hok ⊢
    by_cases hnf : IsNotFound e = true
    · simp only [hnf, if_true] at hok ⊢
      have hkeys : (keyOf (namespaceOps.meta
          ({ metadata := { name := profile.metadata.name } } : Namespace))).2
          = (keyOf profile.metadata).2 := rfl
      obtain ⟨base, ns', hbase, hf, _, hlook⟩ :=
        createOrWrite_ok_read namespaceOps_lawful .patch c
          ({ metadata := { name := profile.metadata.name } } : Namespace)
          (updateFn r profile) (Wrap_none hok)
      rw [lookupObj_namespace_name _ _ _ hkeys] at hlook
      rw [clientGet_namespace_name c _ _ hkeys, hg,
        lookupObj_namespace_name c _ _ hkeys, hold] at hbase
      rcases hbase with hb | ⟨hnone, hb⟩
      · cases hb
      · subst hb
        obtain ⟨hann, hlab, _⟩ := updateFn_ok hf
        obtain ⟨hname, hctrl⟩ := updateFn_meta hf
        refine ⟨ns', hlook, hname, hctrl, hann, fun k => ?_⟩
        rw [hlab, hnone]
        rfl
    · simp [hnf, Wrap] at hok

/-- Witness of C12 as amended: the test `UpdatesAnExistingNamespaceWithLabels`. -/
theorem c12_namespace_upsert_result_witness :
    ∃ ns', lookupObj namespaceOps
        (ReconcileNamespace { namespaceLabels := [("app.kubernetes.io/part-of", "kubeflow-profile")] }
          { profiles := [starlord], namespaces := [annotatedNamespace] } starlord).cluster
        ("", "starlord") = some ns' ∧
      mapGet ns'.metadata.labels "istio-injected" = some "true" ∧
      mapGet ns'.metadata.labels "app.kubernetes.io/part-of" = some "kubeflow-profile" :=
  match c12_namespace_upsert_result
      { namespaceLabels := [("app.kubernetes.io/part-of", "kubeflow-profile")] }
      { profiles := [starlord], namespaces := [annotatedNamespace] } starlord
      (some annotatedNamespace) (by decide)
      (fun n hn => Or.inr (by cases hn; decide)) (by decide) with
  | ⟨ns', h1, _, _, _, h5⟩ => ⟨ns', h1, (h5 _).trans (by decide), (h5 _).trans (by decide)⟩

/-- Counterexample to C12 as stated: with adoption enabled, a namespace controlled by
another profile is "present and allowed", the upsert is attempted and refused, and the
namespace afterwards has neither a controller reference to the Profile nor the owner
annotation. -/
theorem c12_foreign_controller_refuses_upsert :
    ReconcileNamespace { namespaceAdoptionEnabled := true }
      { profiles := [starlord], namespaces := [foreignNamespace] } starlord
      = ⟨{ profiles := [starlord], namespaces := [foreignNamespace] }, OperationResultNone,
          some (.wrapped errReconcileNamespace
            (.wrapped (errFmtSetControllerRef "namespace") (.alreadyOwned "gamora")))⟩ ∧
    GetControllerOf foreignNamespace.metadata
      ≠ some (newControllerRef profileGVK starlord.metadata) ∧
    mapGet foreignNamespace.metadata.annotations "owner" = none := by
  decide

end profile

end KPM

namespace KPM

namespace access

/-! ### Removing and adding contributors -/

/-- Claim C13: an authorized `RemoveContributor` for the identity `user.name` and the
referred namespace, when the store accepts the bulk delete, answers 200 and removes
exactly the Contributors of that namespace whose label "owner.kubeflow.org/id" is the
hash of the identity, whatever their role; every other Contributor and every object of
another kind stays as it was. -/
theorem c13_removeContributor_deletes (m : manager) (cl : Cluster) (ctx : Context)
    (binding : Binding) (p : Profile) (user : Subject)
    (hbody : ctx.binding = some binding)
    (huser : binding.user = some user)
    (hprofile : clientGet profileOps cl ("", binding.referredNamespace) = .ok p)
    (hlist : faultOf cl .list .contributor = none)
    (hauth : callerIdentity m ctx ∈ removeContributorAdmins m p (cl.contributors.filter
      (fun o => decide (o.metadata.ns = binding.referredNamespace))))
    (hdel : faultOf cl .deleteAllOf .contributor = none) :
    (RemoveContributor m cl ctx).reply = .status 200 "Removed Contributor" ∧
    (∀ o, o ∈ (RemoveContributor m cl ctx).cluster.contributors ↔
      o ∈ cl.contributors ∧
        ¬ (o.metadata.ns = binding.referredNamespace ∧
          mapGet o.metadata.labels "owner.kubeflow.org/id" = some (md5Sum user.name))) ∧
    (RemoveContributor m cl ctx).cluster.contributors.Sublist cl.contributors ∧
    (RemoveContributor m cl ctx).cluster
      = { cl with contributors := (RemoveContributor m cl ctx).cluster.contributors } := by
  have hrun : RemoveContributor m cl ctx = ⟨contributorOps.setItems cl (cl.contributors.filter
      (fun o => !(decide (o.metadata.ns = binding.referredNamespace) &&
        matchesLabels [("owner.kubeflow.org/id", md5Sum user.name)] o.metadata.labels))),
      .status 200 "Removed Contributor"⟩ := by
    rw [RemoveContributor_read m cl ctx binding p hbody hprofile hlist]
    have hdel' : faultOf cl .deleteAllOf contributorOps.kind = none := hdel
    simp only [setHas, hauth, decide_True, Bool.not_true, Bool.false_eq_true, if_false, huser,
      clientDeleteAllOf, hdel']
    rfl
  rw [hrun]
  refine ⟨rfl, fun o => ?_, List.filter_sublist _, rfl⟩
  show o ∈ List.filter _ cl.contributors ↔ _
  simp only [List.mem_filter, matchesLabels, List.all_cons, List.all_nil, Bool.and_true,
    Bool.not_eq_true', Bool.and_eq_false_iff, decide_eq_false_iff_not, beq_eq_false_iff_ne,
    ne_eq, not_and_or]

/-- Witness of C13: gamora removes rocket from the namespace "starlord". -/
theorem c13_removeContributor_deletes_witness :
    (RemoveContributor {} guardians
      (deleteBinding "gamora@guardians.net" "rocket@guardians.net" "starlord")).reply
      = .status 200 "Removed Contributor" :=
  (c13_removeContributor_deletes {} guardians
    (deleteBinding "gamora@guardians.net" "rocket@guardians.net" "starlord")
    (userBinding "rocket@guardians.net" "starlord") profile.starlord
    { kind := "User", name := "rocket@guardians.net" } rfl rfl (by decide) (by decide)
    ((removeContributorAdmins_mem _ _ _ _).mpr
      (Or.inr (Or.inr ⟨gamoraOwner, by simp [guardians, gamoraOwner, userBinding], rfl, rfl⟩)))
    (by decide)).1

/-- Claim C14: for a decoded binding whose user is present with a kind other than
"User", `AddContributor` answers 400 and returns the store as it was. -/
theorem c14_addContributor_rejects_kind (m : manager) (cl : Cluster) (ctx : Context)
    (binding : Binding) (user : Subject)
    (hbody : ctx.binding = some binding)
    (huser : binding.user = some user)
    (hkind : user.kind ≠ "User") :
    AddContributor m cl ctx = ⟨cl, .status 400 "only users can be added as contributors"⟩ ∧
    replyCode (AddContributor m cl ctx).reply = some 400 ∧
    (AddContributor m cl ctx).cluster.contributors = cl.contributors := by
  have hrun : AddContributor m cl ctx
      = ⟨cl, .status 400 "only users can be added as contributors"⟩ := by
    unfold AddContributor
    have hk : user.kind ≠ UserKind := hkind
    simp only [hbody, huser, hk, ne_eq, not_false_eq_true, if_true]
  rw [hrun]
  exact ⟨rfl, rfl, rfl⟩

/-- Witness of C14: a binding for a group. -/
theorem c14_addContributor_rejects_kind_witness :
    AddContributor {} guardians (postBinding "Group" "ravagers" "starlord" "edit")
      = ⟨guardians, .status 400 "only users can be added as contributors"⟩ :=
  (c14_addContributor_rejects_kind {} guardians
    (postBinding "Group" "ravagers" "starlord" "edit")
    (roleBindingOf "Group" "ravagers" "starlord" "edit")
    { kind := "Group", name := "ravagers" } rfl rfl (by decide)).1

/-- Claim C15: for a decoded binding with a user of kind "User" and a role reference,
when the store accepts the create, `AddContributor` answers 200 and the store gains
exactly one Contributor, named by the local name of the identity, in the referred
namespace, with the identity as `spec.name`, role Contributor and the identity-hash
label; nothing else changes. -/
theorem c15_addContributor_creates (m : manager) (cl : Cluster) (ctx : Context)
    (binding : Binding) (user : Subject) (roleRef : RoleRef)
    (hbody : ctx.binding = some binding)
    (huser : binding.user = some user)
    (hkind : user.kind = "User")
    (hrole : binding.roleRef = some roleRef)
    (hfault : faultOf cl .create .contributor = none)
    (hfree : lookupObj contributorOps cl (binding.referredNamespace, localName user.name)
      = none) :
    (AddContributor m cl ctx).reply = .status 200 "Added Contributor" ∧
    ∃ co, (AddContributor m cl ctx).cluster = { cl with contributors := cl.contributors ++ [co] } ∧
      co.metadata.name = localName user.name ∧
      co.metadata.ns = binding.referredNamespace ∧
      co.spec.name = user.name ∧
      co.spec.role = "Contributor" ∧ co.spec.role ≠ "Owner" ∧
      mapGet co.metadata.labels "owner.kubeflow.org/id" = some (md5Sum user.name) := by
  have hcreate : clientCreate contributorOps cl (newContributor binding user roleRef)
      = .ok { cl with contributors := cl.contributors ++ [newContributor binding user roleRef] } := by
    unfold clientCreate
    have hf : faultOf cl .create contributorOps.kind = none := hfault
    have hl : lookupObj contributorOps cl
        (keyOf (contributorOps.meta (newContributor binding user roleRef))) = none := hfree
    simp only [hf, hl]
    rfl
  have hrun : AddContributor m cl ctx
      = ⟨{ cl with contributors := cl.contributors ++ [newContributor binding user roleRef] },
          .status 200 "Added Contributor"⟩ := by
    unfold AddContributor
    have hk : ¬ user.kind ≠ UserKind := fun h => h hkind
    simp only [hbody, huser, hk, if_false, hrole, hcreate]
  rw [hrun]
  refine ⟨rfl, newContributor binding user roleRef, rfl, rfl, rfl, rfl, rfl, ?_, ?_⟩
  · simp [newContributor, ContributorRoleContributor]
  · simp [newContributor, mapGet]

/-- Witness of C15: drax is added to the namespace "starlord". -/
theorem c15_addContributor_creates_witness :
    (AddContributor {} guardians
      (postBinding "User" "drax@guardians.net" "starlord" "edit")).reply
      = .status 200 "Added Contributor" :=
  (c15_addContributor_creates {} guardians
    (postBinding "User" "drax@guardians.net" "starlord" "edit")
    (roleBindingOf "User" "drax@guardians.net" "starlord" "edit")
    { kind := "User", name := "drax@guardians.net" } { kind := "ClusterRole", name := "edit" }
    rfl rfl rfl rfl (by decide) (by decide)).1

end access

end KPM

namespace KPM

namespace access

/-! ### Creating profiles, listing admins and bindings -/

theorem CreateProfile_ok (m : manager) (cl cl' : Cluster) (ctx : Context) (p : Profile)
    (hbody : ctx.profile = some p) (h : clientCreate profileOps cl p = .ok cl') :
    CreateProfile m cl ctx = ⟨cl', .status 200 ""⟩ := by
  unfold CreateProfile
  simp only [hbody, h]

theorem CreateProfile_error (m : manager) (cl : Cluster) (ctx : Context) (p : Profile)
    (e : Err) (hbody : ctx.profile = some p) (h : clientCreate profileOps cl p = .error e) :
    CreateProfile m cl ctx
      = if IsAlreadyExists e then ⟨cl, .status 409 ""⟩ else ⟨cl, .status 500 ""⟩ := by
  unfold CreateProfile
  simp only [hbody, h]

/-- Claim C16: for a decoded Profile body, `CreateProfile` answers 200 and stores the
Profile when the store has no Profile of that name; answers 409 exactly when the store
answers the create with AlreadyExists, as it does when a Profile of that name exists,
which is then left as it was; and answers 500 on any other error of the store. -/
theorem c16_createProfile_codes (m : manager) (cl : Cluster) (ctx : Context) (p : Profile)
    (hbody : ctx.profile = some p) :
    (faultOf cl .create .profile = none → lookupObj profileOps cl (keyOf p.metadata) = none →
      (CreateProfile m cl ctx).reply = .status 200 "" ∧
      (CreateProfile m cl ctx).cluster = profileOps.setItems cl (cl.profiles ++ [p]) ∧
      lookupObj profileOps (CreateProfile m cl ctx).cluster (keyOf p.metadata) = some p) ∧
    (∀ existing, faultOf cl .create .profile = none →
      lookupObj profileOps cl (keyOf p.metadata) = some existing →
      CreateProfile m cl ctx = ⟨cl, .status 409 ""⟩ ∧
      lookupObj profileOps (CreateProfile m cl ctx).cluster (keyOf p.metadata)
        = some existing) ∧
    (replyCode (CreateProfile m cl ctx).reply = some 409 ↔
      ∃ e, clientCreate profileOps cl p = .error e ∧ IsAlreadyExists e = true) ∧
    (∀ e, clientCreate profileOps cl p = .error e → IsAlreadyExists e = false →
      CreateProfile m cl ctx = ⟨cl, .status 500 ""⟩) := by
  refine ⟨?_, ?_, ?_, ?_⟩
  · intro hfault hfree
    have hf : faultOf cl .create profileOps.kind = none := hfault
    have hfree' : lookupObj profileOps cl (keyOf (profileOps.meta p)) = none := hfree
    have hcreate : clientCreate profileOps cl p
        = .ok (profileOps.setItems cl (cl.profiles ++ [p])) := by
      unfold clientCreate
      simp only [hf, hfree']
      rfl
    rw [CreateProfile_ok m cl _ ctx p hbody hcreate]
    exact ⟨rfl, rfl, lookupObj_append profileOps_lawful hfree rfl⟩
  · intro existing hfault hex
    have hf : faultOf cl .create profileOps.kind = none := hfault
    have hex' : lookupObj profileOps cl (keyOf (profileOps.meta p)) = some existing := hex
    have hcreate : clientCreate profileOps cl p = .error .alreadyExists := by
      unfold clientCreate
      simp only [hf, hex']
    rw [CreateProfile_error m cl ctx p _ hbody hcreate]
    exact ⟨rfl, hex⟩
  · cases hc : clientCreate profileOps cl p with
    | ok cl' =>
      rw [CreateProfile_ok m cl cl' ctx p hbody hc]
      simp [replyCode]
    | error e =>
      rw [CreateProfile_error m cl ctx p e hbody hc]
      by_cases he : IsAlreadyExists e = true
      · simp [he, replyCode]
      · simp [he, replyCode]
  · intro e hc he
    rw [CreateProfile_error m cl ctx p e hbody hc]
    simp [he]

/-- Witness of C16: the test `CreatesAProfile`, on an empty store. -/
theorem c16_createProfile_codes_witness :
    (CreateProfile {} {} { profile := some profile.starlord }).reply = .status 200 "" ∧
    lookupObj profileOps (CreateProfile {} {} { profile := some profile.starlord }).cluster
      ("", "starlord") = some profile.starlord :=
  match (c16_createProfile_codes {} {} { profile := some profile.starlord } profile.starlord
      rfl).1 (by decide) (by decide) with
  | ⟨h1, _, h3⟩ => ⟨h1, h3⟩

set_option maxRecDepth 100000 in
/-- Claim C17, evaluated on the store `guardians`: a binding for rocket@guardians.net,
whose derived Contributor "rocket" already exists in the namespace "starlord", makes the
store answer AlreadyExists and `AddContributor` answer 500, where `CreateProfile`
answers 409 to the same error of the store. -/
theorem c17_addContributor_conflict_is_500 :
    clientCreate contributorOps guardians
        (newContributor (roleBindingOf "User" "rocket@guardians.net" "starlord" "edit")
          { kind := "User", name := "rocket@guardians.net" }
          { kind := "ClusterRole", name := "edit" })
      = .error .alreadyExists ∧
    (AddContributor {} guardians
      (postBinding "User" "rocket@guardians.net" "starlord" "edit")).reply = .status 500 "" ∧
    clientCreate profileOps guardians profile.starlord = .error .alreadyExists ∧
    (CreateProfile {} guardians { profile := some profile.starlord }).reply
      = .status 409 "" := by
  decide

/-- Claim C18: `ListAdmins` answers 400 when the query parameter "user" is missing or
empty, and otherwise 200 with the body "true" when the user is a configured admin and
"false" when not; it returns the store as it was and its reply is the same on every
store, so that an owner who is no configured admin gets "false". -/
theorem c18_listAdmins_static (m : manager) (cl : Cluster) (ctx : Context) :
    (Query ctx "user" = "" →
      ListAdmins m cl ctx = ⟨cl, .status 400 "missing required param \x27user\x27"⟩) ∧
    (Query ctx "user" ≠ "" → Query ctx "user" ∈ m.admins →
      ListAdmins m cl ctx = ⟨cl, .status 200 "true"⟩) ∧
    (Query ctx "user" ≠ "" → Query ctx "user" ∉ m.admins →
      ListAdmins m cl ctx = ⟨cl, .status 200 "false"⟩) ∧
    (∀ other : Cluster, (ListAdmins m other ctx).reply = (ListAdmins m cl ctx).reply) ∧
    (ListAdmins {} guardians (adminQuery "starlord@guardians.net")).reply
      = .status 200 "false" ∧
    (ListAdmins (NewManager [WithAdmin ["root@guardians.net"]]) guardians
      (adminQuery "root@guardians.net")).reply = .status 200 "true" := by
  refine ⟨?_, ?_, ?_, ?_, by decide, by decide⟩
  · intro h
    unfold ListAdmins
    simp [h]
  · intro h hin
    unfold ListAdmins
    simp [h, setHas, hin, FormatBool]
  · intro h hout
    unfold ListAdmins
    simp [h, setHas, hout, FormatBool]
  · intro other
    unfold ListAdmins
    dsimp only
    split <;> rfl

theorem readBindings_loop (items : List Contributor) : ∀ acc : List Binding,
    items.foldl (fun bindings contributor =>
      if contributor.spec.role = ContributorRoleOwner then
        bindings ++ [{ referredNamespace := contributor.metadata.ns,
                       roleRef := some { name := "admin", kind := "ClusterRole" },
                       user := some { kind := UserKind, name := contributor.spec.name } }]
      else if contributor.spec.role = ContributorRoleContributor then
        bindings ++ [{ referredNamespace := contributor.metadata.ns,
                       roleRef := some { name := "edit", kind := "ClusterRole" },
                       user := some { kind := UserKind, name := contributor.spec.name } }]
      else bindings) acc = acc ++ items.filterMap specBinding := by
  induction items with
  | nil => intro acc; simp
  | cons a t ih =>
    intro acc
    rw [List.foldl_cons, ih, List.filterMap_cons]
    by_cases h1 : a.spec.role = ContributorRoleOwner
    · have hs : specBinding a
          = some (roleBindingOf "User" a.spec.name a.metadata.ns "admin") := by
        have h1' : a.spec.role = "Owner" := h1
        simp [specBinding, h1']
      rw [hs, if_pos h1, List.append_assoc]
      rfl
    · have h1' : ¬ a.spec.role = "Owner" := h1
      by_cases h2 : a.spec.role = ContributorRoleContributor
      · have hs : specBinding a
            = some (roleBindingOf "User" a.spec.name a.metadata.ns "edit") := by
          have h2' : a.spec.role = "Contributor" := h2
          simp [specBinding, h2']
        rw [hs, if_neg h1, if_pos h2, List.append_assoc]
        rfl
      · have hs : specBinding a = none := by
          have h2' : ¬ a.spec.role = "Contributor" := h2
          simp [specBinding, h1', h2']
        rw [hs, if_neg h1, if_neg h2]

/-- Claim C19: from the Contributors that the store lists, `ReadNamespaces` answers 200
with, in the order of the list, one Binding for every Contributor of role Owner or
Contributor and none for another role; the Binding carries the Contributor's namespace,
a user of kind "User" named by the Contributor's `spec.name`, and the role reference
"admin" for Owner and "edit" for Contributor. -/
theorem c19_readNamespaces_bindings (m : manager) (cl : Cluster) (ctx : Context) :
    (∀ items, clientList contributorOps cl
        (if Query ctx "namespace" ≠ "" then some (Query ctx "namespace") else none)
        ((if Query ctx "user" ≠ "" then [("owner.kubeflow.org/id", md5Sum (Query ctx "user"))]
            else [])
          ++ (if Query ctx "role" ≠ "" then [("contributor.kubeflow.org/role", Query ctx "role")]
            else [])) = .ok items →
      ReadNamespaces m cl ctx = ⟨cl, .bindings 200 (items.filterMap specBinding)⟩) ∧
    (∀ items : List Contributor, readBindings items = items.filterMap specBinding) ∧
    (∀ (co : Contributor) (b : Binding), specBinding co = some b →
      b.referredNamespace = co.metadata.ns ∧
      b.user = some { kind := "User", name := co.spec.name } ∧
      (co.spec.role = "Owner" ∧ b.roleRef = some { kind := "ClusterRole", name := "admin" } ∨
       co.spec.role = "Contributor" ∧
         b.roleRef = some { kind := "ClusterRole", name := "edit" })) ∧
    (∀ co : Contributor, specBinding co = none ↔
      co.spec.role ≠ "Owner" ∧ co.spec.role ≠ "Contributor") := by
  have hloop : ∀ items : List Contributor, readBindings items = items.filterMap specBinding := by
    intro items
    unfold readBindings
    rw [readBindings_loop]
    rfl
  refine ⟨?_, hloop, ?_, ?_⟩
  · intro items hlist
    unfold ReadNamespaces
    simp only [hlist, hloop]
  · intro co b hb
    unfold specBinding at hb
    by_cases h1 : co.spec.role = "Owner"
    · rw [if_pos h1] at hb
      cases hb
      exact ⟨rfl, rfl, Or.inl ⟨h1, rfl⟩⟩
    · by_cases h2 : co.spec.role = "Contributor"
      · rw [if_neg h1, if_pos h2] at hb
        cases hb
        exact ⟨rfl, rfl, Or.inr ⟨h2, rfl⟩⟩
      · rw [if_neg h1, if_neg h2] at hb
        cases hb
  · intro co
    unfold specBinding
    by_cases h1 : co.spec.role = "Owner"
    · simp [h1]
    · by_cases h2 : co.spec.role = "Contributor"
      · simp [h2]
      · simp [h1, h2]

/-- Witness of C19: the bindings of the namespace "starlord". -/
theorem c19_readNamespaces_bindings_witness :
    ReadNamespaces {} guardians { query := [("namespace", "starlord")] }
      = ⟨guardians, .bindings 200
          ([starlordOwner, gamoraOwner, rocketContributor].filterMap specBinding)⟩ :=
  (c19_readNamespaces_bindings {} guardians { query := [("namespace", "starlord")] }).1
    [starlordOwner, gamoraOwner, rocketContributor] rfl

end access

end KPM

namespace KPM

theorem serviceAccountOps_lawful : LawfulOps serviceAccountOps :=
  ⟨fun _ _ => rfl, fun _ _ => rfl⟩

namespace contributor

/-! ### Service account of a contributor -/

/-- Claim C20: after `ReconcileServiceAccount` succeeds for a Contributor, the service
account stored under the Contributor's namespace and name has that name and namespace,
the Contributor as controller, the label "owner.kubeflow.org/id" with the hash of
`spec.name` and the annotation "owner.kubeflow.org/name" with `spec.name`; the labels
and annotations under other keys are those of the service account stored before, if
there was one. -/
theorem c20_service_account (r : Settings) (c : Cluster) (contributor : Contributor)
    (hok : (ReconcileServiceAccount r c contributor).err = none) :
    ∃ sa, lookupObj serviceAccountOps (ReconcileServiceAccount r c contributor).cluster
        (contributor.metadata.ns, contributor.metadata.name) = some sa ∧
      sa.metadata.name = contributor.metadata.name ∧
      sa.metadata.ns = contributor.metadata.ns ∧
      GetControllerOf sa.metadata
        = some (newControllerRef contributorGVK contributor.metadata) ∧
      mapGet sa.metadata.labels "owner.kubeflow.org/id"
        = some (md5Sum contributor.spec.name) ∧
      mapGet sa.metadata.annotations "owner.kubeflow.org/name"
        = some contributor.spec.name ∧
      ∀ old, lookupObj serviceAccountOps c
          (contributor.metadata.ns, contributor.metadata.name) = some old →
        (∀ k, k ≠ "owner.kubeflow.org/id" →
          mapGet sa.metadata.labels k = mapGet old.metadata.labels k) ∧
        (∀ k, k ≠ "owner.kubeflow.org/name" →
          mapGet sa.metadata.annotations k = mapGet old.metadata.annotations k) := by
  unfold ReconcileServiceAccount at hok ⊢
  dsimp only at hok ⊢
  obtain ⟨base, sa, hbase, hf, hkey, hlook⟩ :=
    createOrWrite_ok serviceAccountOps_lawful .patch c _ _ (profile.Wrap_none hok)
  refine ⟨sa, hlook, congrArg Prod.snd hkey, congrArg Prod.fst hkey, ?_⟩
  cases hs : SetControllerReference contributorGVK contributor.metadata base.metadata with
  | error e => simp [hs] at hf
  | ok m =>
    simp only [hs] at hf
    cases hf
    obtain ⟨hctrl, _, _, hlab, hann⟩ := profile.SetControllerReference_controller hs
    refine ⟨hctrl, ?_, ?_, ?_⟩
    · simp only [ addAnnotation, addLabel]
      rw [mapGet_mapSet_same]
    · simp only [ addAnnotation, addLabel]
      rw [mapGet_mapSet_same]
    · intro old hold
      have hb : base = old := by
        rcases hbase with hb | ⟨hb, _⟩
        · exact Option.some.inj (hb.symm.trans hold)
        · exact absurd (hb.symm.trans hold) (by simp)
      subst hb
      constructor
      · intro k hk
        simp only [ addAnnotation, addLabel]
        rw [mapGet_mapSet_other _ _ _ _ hk, hlab]
      · intro k hk
        simp only [ addAnnotation, addLabel]
        rw [mapGet_mapSet_other _ _ _ _ hk, hann]

/-- Witness of C20: the test `CreatesAServiceAccount`. -/
theorem c20_service_account_witness :
    ∃ sa, lookupObj serviceAccountOps
        (ReconcileServiceAccount {} access.guardians access.starlordOwner).cluster
        ("starlord", "starlord") = some sa ∧
      mapGet sa.metadata.annotations "owner.kubeflow.org/name"
        = some "starlord@guardians.net" :=
  match c20_service_account {} access.guardians access.starlordOwner (by decide) with
  | ⟨sa, h1, _, _, _, _, h6, _⟩ => ⟨sa, h1, h6⟩

end contributor

end KPM

namespace KPM

/-! ### Shape of an upsert -/

theorem roleBindingOps_lawful : LawfulOps roleBindingOps := ⟨fun _ _ => rfl, fun _ _ => rfl⟩

/-- The store after `CreateOrPatch` / `CreateOrUpdate`: unchanged, or with one object of
the skeleton's key appended, or with the objects of that key replaced. -/
theorem createOrWrite_shape {α : Type} [DecidableEq α] (v : Verb) (ops : KindOps α)
    (c : Cluster) (obj : α) (f : α → Except Err α) :
    (createOrWrite v ops c obj f).cluster = c ∨
      ∃ obj', keyOf (ops.meta obj') = keyOf (ops.meta obj) ∧
        ((lookupObj ops c (keyOf (ops.meta obj)) = none ∧
            (createOrWrite v ops c obj f).cluster = ops.setItems c (ops.items c ++ [obj'])) ∨
          (createOrWrite v ops c obj f).cluster = replaceObj ops c obj') := by
  unfold createOrWrite
  cases hg : clientGet ops c (keyOf (ops.meta obj)) with
  | error e =>
    simp only [hg]
    by_cases hnf : IsNotFound e = true
    · simp only [hnf, Bool.not_true, Bool.false_eq_true, if_false]
      cases hm : mutate ops f (keyOf (ops.meta obj)) obj with
      | error e' => exact Or.inl rfl
      | ok obj' =>
        simp only [hm]
        cases hc : clientCreate ops c obj' with
        | error e' => exact Or.inl rfl
        | ok c' =>
          obtain ⟨_, hk⟩ := mutate_ok hm
          obtain ⟨hnone, hc'⟩ := clientCreate_ok hc
          rw [hk] at hnone
          exact Or.inr ⟨obj', hk, Or.inl ⟨hnone, hc'⟩⟩
    · simp [hnf]
  | ok cur =>
    simp only [hg]
    cases hm : mutate ops f (keyOf (ops.meta obj)) cur with
    | error e' => exact Or.inl rfl
    | ok obj' =>
      simp only [hm]
      by_cases heq : cur = obj'
      · simp [heq]
      · simp only [heq, if_false]
        cases hw : clientWrite v ops c obj' with
        | error e' => exact Or.inl rfl
        | ok c' => exact Or.inr ⟨obj', (mutate_ok hm).2, Or.inr (clientWrite_ok hw)⟩

theorem hasKey_namespaced {α : Type} (ops : KindOps α) (hns : ops.namespaced = true)
    (key : ObjectKey) (o : α) : hasKey ops key o = true ↔ keyOf (ops.meta o) = key := by
  obtain ⟨k1, k2⟩ := key
  simp [hasKey, hns, keyOf, Prod.ext_iff]

theorem find_replace_other {α : Type} (p q : α → Bool) (obj : α) (hq : q obj = false)
    (hpq : ∀ o, p o = true → q o = false) :
    ∀ l : List α, (l.map (fun o => if p o then obj else o)).find? q = l.find? q := by
  intro l
  induction l with
  | nil => rfl
  | cons a t ih =>
    by_cases hp : p a = true
    · simp only [List.map_cons, hp, if_true, List.find?_cons, hq, hpq a hp]
      exact ih
    · have hp' : p a = false := by simpa using hp
      simp only [List.map_cons, hp', Bool.false_eq_true, if_false, List.find?_cons]
      cases q a with
      | true => rfl
      | false => exact ih

/-- An upsert of a namespaced kind leaves the objects of every other key in place. -/
theorem lookupObj_createOrWrite_other {α : Type} [DecidableEq α] {ops : KindOps α}
    (hl : LawfulOps ops) (hns : ops.namespaced = true) (v : Verb) (c : Cluster) (obj : α)
    (f : α → Except Err α) (key : ObjectKey) (hne : key ≠ keyOf (ops.meta obj)) :
    lookupObj ops (createOrWrite v ops c obj f).cluster key = lookupObj ops c key := by
  rcases createOrWrite_shape v ops c obj f with h | ⟨obj', hk, h | h⟩
  · rw [h]
  · rw [h.2]
    unfold lookupObj
    rw [hl.items_set, List.find?_append]
    have hno : hasKey ops key obj' = false := by
      cases hh : hasKey ops key obj' with
      | false => rfl
      | true => exact absurd (((hasKey_namespaced ops hns key obj').mp hh).symm.trans hk) hne
    cases List.find? (hasKey ops key) (ops.items c) with
    | some x => rfl
    | none => simp [List.find?, hno]
  · rw [h]
    unfold lookupObj replaceObj
    rw [hl.items_set]
    apply find_replace_other
    · cases hh : hasKey ops key obj' with
      | false => rfl
      | true => exact absurd (((hasKey_namespaced ops hns key obj').mp hh).symm.trans hk) hne
    · intro o ho
      cases hh : hasKey ops key o with
      | false => rfl
      | true =>
        have h1 := (hasKey_namespaced ops hns _ o).mp ho
        have h2 := (hasKey_namespaced ops hns key o).mp hh
        exact absurd (h2.symm.trans (h1.trans hk)) hne

namespace contributor

/-! ### Role binding and policies of a contributor -/

/-- Claim C21: after `ReconcileRoleBinding` succeeds for a Contributor, the role binding
stored under the Contributor's namespace and name has that name and namespace, the
Contributor as controller, the role reference to the configured cluster role
("kubeflow-edit" when no option sets it), exactly one subject, of kind "User" and named
by `spec.name`, the identity-hash label, and the annotations "owner", "role" and
"owner.kubeflow.org/name"; what the binding held as subjects before does not matter. -/
theorem c21_role_binding (r : Settings) (c : Cluster) (contributor : Contributor)
    (hok : (ReconcileRoleBinding r c contributor).err = none) :
    (∃ rb, lookupObj roleBindingOps (ReconcileRoleBinding r c contributor).cluster
        (contributor.metadata.ns, contributor.metadata.name) = some rb ∧
      rb.metadata.name = contributor.metadata.name ∧
      rb.metadata.ns = contributor.metadata.ns ∧
      GetControllerOf rb.metadata
        = some (newControllerRef contributorGVK contributor.metadata) ∧
      rb.roleRef = { kind := "ClusterRole", apiGroup := "rbac.authorization.k8s.io",
                     name := r.contributorRole } ∧
      rb.subjects = [{ kind := "User", name := contributor.spec.name }] ∧
      mapGet rb.metadata.labels "owner.kubeflow.org/id"
        = some (md5Sum contributor.spec.name) ∧
      mapGet rb.metadata.annotations "owner" = some contributor.spec.name ∧
      mapGet rb.metadata.annotations "role" = some contributor.spec.role ∧
      mapGet rb.metadata.annotations "owner.kubeflow.org/name"
        = some contributor.spec.name) ∧
    (NewReconciler []).contributorRole = "kubeflow-edit" := by
  refine ⟨?_, rfl⟩
  unfold ReconcileRoleBinding at hok ⊢
  dsimp only at hok ⊢
  obtain ⟨base, rb, _, hf, hkey, hlook⟩ :=
    createOrWrite_ok roleBindingOps_lawful .patch c _ _ (profile.Wrap_none hok)
  refine ⟨rb, hlook, congrArg Prod.snd hkey, congrArg Prod.fst hkey, ?_⟩
  cases hs : SetControllerReference contributorGVK contributor.metadata base.metadata with
  | error e => simp [hs] at hf
  | ok m =>
    simp only [hs] at hf
    cases hf
    obtain ⟨hctrl, _, _, _, _⟩ := profile.SetControllerReference_controller hs
    refine ⟨hctrl, rfl, rfl, ?_, ?_, ?_, ?_⟩
    · simp only [ addAnnotation, addLabel]
      rw [mapGet_mapSet_same]
    · simp only [ addAnnotation, addLabel]
      rw [mapGet_mapSet_other _ _ _ _ (by decide), mapGet_mapSet_same]
    · simp only [ addAnnotation, addLabel]
      rw [mapGet_mapSet_same]
    · simp only [ addAnnotation, addLabel]
      rw [mapGet_mapSet_other _ _ _ _ (by decide), mapGet_mapSet_other _ _ _ _ (by decide),
        mapGet_mapSet_same]

/-- Witness of C21: the test `CreatesARoleBinding`. -/
theorem c21_role_binding_witness :
    ∃ rb, lookupObj roleBindingOps
        (ReconcileRoleBinding { contributorRole := "kubeflow-contributor" } access.guardians
          access.starlordOwner).cluster ("starlord", "starlord") = some rb ∧
      rb.subjects = [{ kind := "User", name := "starlord@guardians.net" }] :=
  match (c21_role_binding { contributorRole := "kubeflow-contributor" } access.guardians
      access.starlordOwner (by decide)).1 with
  | ⟨rb, h1, _, _, _, _, h6, _⟩ => ⟨rb, h1, h6⟩

theorem policy_names_differ (n : String) : n ++ "-public" ≠ n ++ "-private" := by
  intro h
  have h1 := congrArg String.toList h
  simp only [String.toList, String.data_append] at h1
  have h2 := List.append_cancel_left h1
  revert h2
  decide

theorem upsertPrivate_keeps_public (r : Settings) (c : Cluster) (contributor : Contributor) :
    lookupObj authorizationPolicyOps (upsertPrivate r c contributor).cluster
        (contributor.metadata.ns, contributor.metadata.name ++ "-public")
      = lookupObj authorizationPolicyOps c
        (contributor.metadata.ns, contributor.metadata.name ++ "-public") := by
  unfold upsertPrivate
  apply lookupObj_createOrWrite_other authorizationPolicyOps_lawful rfl
  intro h
  exact policy_names_differ _ (congrArg Prod.snd h)

/-- Claim C22: after `ReconcileIstioAuthorizationPolicy` succeeds for a Contributor with
header name `userIDHeader` and prefix `userIDPrefix`, the namespace of the Contributor
holds the two ALLOW policies "<name>-public" and "<name>-private", both with the
Contributor as controller and the single condition that the header carries the prefixed
`spec.name`; the public one selects "kubeflow.org/visibility" = "public" and allows the
ingress-gateway principal only, the private one selects the identity-hash label and
allows the ingress-gateway principal and the Contributor's service account. -/
theorem c22_contributor_policies (r : Settings) (c : Cluster) (contributor : Contributor)
    (hok : (ReconcileIstioAuthorizationPolicy r c contributor).err = none) :
    ∃ pub priv,
      lookupObj authorizationPolicyOps (ReconcileIstioAuthorizationPolicy r c contributor).cluster
        (contributor.metadata.ns, contributor.metadata.name ++ "-public") = some pub ∧
      lookupObj authorizationPolicyOps (ReconcileIstioAuthorizationPolicy r c contributor).cluster
        (contributor.metadata.ns, contributor.metadata.name ++ "-private") = some priv ∧
      GetControllerOf pub.metadata
        = some (newControllerRef contributorGVK contributor.metadata) ∧
      GetControllerOf priv.metadata
        = some (newControllerRef contributorGVK contributor.metadata) ∧
      pub.spec.action = "ALLOW" ∧ priv.spec.action = "ALLOW" ∧
      pub.spec.selector = some [("kubeflow.org/visibility", "public")] ∧
      priv.spec.selector = some [("owner.kubeflow.org/id", md5Sum contributor.spec.name)] ∧
      pub.spec.rules.map (fun rule => rule.fromPrincipals)
        = [[["cluster.local/ns/istio-system/sa/istio-ingressgateway-service-account"]]] ∧
      priv.spec.rules.map (fun rule => rule.fromPrincipals)
        = [[["cluster.local/ns/istio-system/sa/istio-ingressgateway-service-account",
             "cluster.local/ns/" ++ contributor.metadata.ns ++ "/sa/"
               ++ contributor.metadata.name]]] ∧
      pub.spec.rules.map (fun rule => rule.whenConditions)
        = [[{ key := "request.headers[" ++ r.userIDHeader ++ "]",
              values := [r.userIDPrefix ++ contributor.spec.name] }]] ∧
      priv.spec.rules.map (fun rule => rule.whenConditions)
        = [[{ key := "request.headers[" ++ r.userIDHeader ++ "]",
              values := [r.userIDPrefix ++ contributor.spec.name] }]] ∧
      pub.spec.rules.map (fun rule => rule.toOperations) = [[]] ∧
      priv.spec.rules.map (fun rule => rule.toOperations) = [[]] := by
  unfold ReconcileIstioAuthorizationPolicy at hok ⊢
  dsimp only at hok ⊢
  cases hpub : (upsertPublic r c contributor).err with
  | some e => simp [hpub] at hok
  | none =>
    simp only [hpub] at hok ⊢
    have hpriv := profile.Wrap_none hok
    have hother := upsertPrivate_keeps_public r (upsertPublic r c contributor).cluster contributor
    unfold upsertPrivate at hpriv hother ⊢
    dsimp only at hpriv hother ⊢
    obtain ⟨base2, priv, _, hf2, _, hlook2⟩ :=
      createOrWrite_ok authorizationPolicyOps_lawful .patch _ _ _ hpriv
    unfold upsertPublic at hpub hother hlook2 ⊢
    dsimp only at hpub hother hlook2 ⊢
    obtain ⟨base1, pub, _, hf1, _, hlook1⟩ :=
      createOrWrite_ok authorizationPolicyOps_lawful .patch c _ _ hpub
    refine ⟨pub, priv, hother.trans hlook1, hlook2, ?_⟩
    cases hs1 : SetControllerReference contributorGVK contributor.metadata base1.metadata with
    | error e => simp [hs1] at hf1
    | ok m1 =>
      simp only [hs1] at hf1
      cases hf1
      cases hs2 : SetControllerReference contributorGVK contributor.metadata base2.metadata with
      | error e => simp [hs2] at hf2
      | ok m2 =>
        simp only [hs2] at hf2
        cases hf2
        exact ⟨(profile.SetControllerReference_controller hs1).1,
          (profile.SetControllerReference_controller hs2).1,
          rfl, rfl, rfl, rfl, rfl, rfl, rfl, rfl, rfl, rfl⟩

/-- Witness of C22: the test `CreatesAnAuthorizationPolicy`. -/
theorem c22_contributor_policies_witness :
    ∃ priv, lookupObj authorizationPolicyOps
        (ReconcileIstioAuthorizationPolicy {} access.guardians access.starlordOwner).cluster
        ("starlord", "starlord-private") = some priv ∧
      priv.spec.rules.map (fun rule => rule.whenConditions)
        = [[{ key := "request.headers[kubeflow-userid]",
              values := ["starlord@guardians.net"] }]] :=
  match c22_contributor_policies {} access.guardians access.starlordOwner (by decide) with
  | ⟨_, priv, _, h2, _, _, _, _, _, _, _, _, _, h12, _⟩ => ⟨priv, h2, h12⟩

end contributor

end KPM

namespace KPM

/-! ### The step drivers -/

namespace profile

/-- The loop stops at the first step that returns an error: with the steps `pre` before
it all successful and none of them a Stop, the error is returned and the store is the
one that step left, whatever the steps `post` after it are. -/
theorem runFuncs_error_at (r : Settings) (p : Profile) (f : ReconcileFunc)
    (post : List ReconcileFunc) (e : Err) : ∀ (pre : List ReconcileFunc) (c : Cluster),
    (∀ done g rest, pre = done ++ g :: rest →
      (g r (done.foldl (fun c h => (h r c p).cluster) c) p).err = none ∧
      (g r (done.foldl (fun c h => (h r c p).cluster) c) p).res ≠ Stop) →
    (f r (pre.foldl (fun c h => (h r c p).cluster) c) p).err = some e →
    runFuncs r (pre ++ f :: post) c p
      = ⟨(f r (pre.foldl (fun c h => (h r c p).cluster) c) p).cluster, {}, some e⟩ := by
  intro pre
  induction pre with
  | nil =>
    intro c _ hf
    simp only [List.nil_append, List.foldl_nil] at hf ⊢
    unfold runFuncs
    simp only [hf]
  | cons g t ih =>
    intro c hpre hf
    obtain ⟨hg1, hg2⟩ := hpre [] g t rfl
    simp only [List.foldl_nil] at hg1 hg2
    simp only [List.cons_append, List.foldl_cons] at hf ⊢
    unfold runFuncs
    simp only [hg1, hg2, if_false]
    apply ih _ _ hf
    intro done h rest hdr
    have := hpre (g :: done) h rest (by rw [hdr]; rfl)
    simpa only [List.foldl_cons] using this

/-- What `Reconcile` does once the profile is read, the contributors are listed and the
roster is patched: it runs the four steps on the store that holds the roster. -/
theorem Reconcile_steps (r : Reconciler) (c : Cluster) (req : ObjectKey) (profile : Profile)
    (hprofile : clientGet profileOps c req = .ok profile)
    (hlist : faultOf c .list .contributor = none)
    (hpatch : faultOf c .patchStatus .profile = none) :
    Reconcile r c req = runFuncs r.toSettings
      [r.namespaceFn, r.contributor, r.resourceQuota, r.istio]
      (replaceObj profileOps c (setRoster profile (roster (c.contributors.filter
        (fun o => decide (o.metadata.ns = profile.metadata.name))))))
      (setRoster profile (roster (c.contributors.filter
        (fun o => decide (o.metadata.ns = profile.metadata.name))))) := by
  obtain ⟨_, hlp⟩ := clientGet_ok hprofile
  have hname : profile.metadata.name = req.2 := by
    have := lookupObj_hasKey hlp
    simpa [hasKey, profileOps] using this
  have hself : lookupObj profileOps c (keyOf profile.metadata) = some profile := by
    rw [lookupObj_profile_name c (keyOf profile.metadata) req hname]
    exact hlp
  unfold Reconcile
  simp only [hprofile, clientList_contributors hlist]
  rw [patchStatus_ok hpatch hself]

end profile

namespace contributor

theorem steps_error_at (r : Settings) (p : Contributor) (f : ReconcileFunc)
    (post : List ReconcileFunc) (e : Err) : ∀ (pre : List ReconcileFunc) (c : Cluster),
    (∀ done g rest, pre = done ++ g :: rest →
      (g r (done.foldl (fun c h => (h r c p).cluster) c) p).err = none) →
    (f r (pre.foldl (fun c h => (h r c p).cluster) c) p).err = some e →
    runFuncs r (pre ++ f :: post) c p
      = ⟨(f r (pre.foldl (fun c h => (h r c p).cluster) c) p).cluster, {}, some e⟩ := by
  intro pre
  induction pre with
  | nil =>
    intro c _ hf
    simp only [List.nil_append, List.foldl_nil] at hf ⊢
    unfold runFuncs
    simp only [hf]
  | cons g t ih =>
    intro c hpre hf
    have hg1 := hpre [] g t rfl
    simp only [List.foldl_nil] at hg1
    simp only [List.cons_append, List.foldl_cons] at hf ⊢
    unfold runFuncs
    simp only [hg1]
    apply ih _ _ hf
    intro done h rest hdr
    have := hpre (g :: done) h rest (by rw [hdr]; rfl)
    simpa only [List.foldl_cons] using this

/-- Claim C24: in both drivers, when the steps `pre` have each run once in order without
error (and, for a Profile, without Stop) and the next step returns an error, the loop
returns that error and the store that step left, whatever steps come after it; the
Profile driver runs its steps on the store that already holds the recomputed roster, and
the Contributor driver on the store as read. -/
theorem c24_step_error_aborts (pre post : List profile.ReconcileFunc)
    (f : profile.ReconcileFunc) (rp : profile.Reconciler) (c : Cluster) (p : Profile)
    (e : Err)
    (hpre : ∀ done g rest, pre = done ++ g :: rest →
      (g rp.toSettings (done.foldl (fun c h => (h rp.toSettings c p).cluster) c) p).err = none ∧
      (g rp.toSettings (done.foldl (fun c h => (h rp.toSettings c p).cluster) c) p).res
        ≠ profile.Stop)
    (hf : (f rp.toSettings (pre.foldl (fun c h => (h rp.toSettings c p).cluster) c) p).err
      = some e) :
    profile.runFuncs rp.toSettings (pre ++ f :: post) c p
      = ⟨(f rp.toSettings (pre.foldl (fun c h => (h rp.toSettings c p).cluster) c) p).cluster,
          {}, some e⟩ ∧
    (∀ (req : ObjectKey) (prof : Profile),
      clientGet profileOps c req = .ok prof →
      faultOf c .list .contributor = none → faultOf c .patchStatus .profile = none →
      profile.Reconcile rp c req = profile.runFuncs rp.toSettings
        [rp.namespaceFn, rp.contributor, rp.resourceQuota, rp.istio]
        (replaceObj profileOps c (profile.setRoster prof (profile.roster
          (c.contributors.filter (fun o => decide (o.metadata.ns = prof.metadata.name))))))
        (profile.setRoster prof (profile.roster
          (c.contributors.filter (fun o => decide (o.metadata.ns = prof.metadata.name)))))) ∧
    (∀ (rc : Reconciler) (pre2 post2 : List ReconcileFunc) (g : ReconcileFunc)
      (co : Contributor) (e2 : Err),
      (∀ done h rest, pre2 = done ++ h :: rest →
        (h rc.toSettings (done.foldl (fun c k => (k rc.toSettings c co).cluster) c) co).err
          = none) →
      (g rc.toSettings (pre2.foldl (fun c k => (k rc.toSettings c co).cluster) c) co).err
        = some e2 →
      runFuncs rc.toSettings (pre2 ++ g :: post2) c co
        = ⟨(g rc.toSettings (pre2.foldl (fun c k => (k rc.toSettings c co).cluster) c)
            co).cluster, {}, some e2⟩) ∧
    (∀ (rc : Reconciler) (req : ObjectKey) (co : Contributor),
      clientGet contributorOps c req = .ok co →
      Reconcile rc c req
        = runFuncs rc.toSettings [rc.serviceAccount, rc.roleBinding, rc.istio] c co) := by
  refine ⟨profile.runFuncs_error_at _ p f post e pre c hpre hf, ?_, ?_, ?_⟩
  · intro req prof hprofile hlist hpatch
    exact profile.Reconcile_steps rp c req prof hprofile hlist hpatch
  · intro rc pre2 post2 g co e2 hpre2 hg
    exact steps_error_at _ co g post2 e2 pre2 c hpre2 hg
  · intro rc req co hget
    unfold Reconcile
    simp only [hget]

end contributor

end KPM

namespace KPM

namespace contributor

set_option maxRecDepth 100000 in
/-- Witness of C24: with creates of resource quotas failing, the quota step of the
Profile driver fails after the namespace and the owner Contributor steps, and before the
policy step. -/
theorem c24_step_error_aborts_witness :
    (profile.runFuncs {}
      ([profile.ReconcileNamespace, profile.ReconcileContributor]
        ++ profile.ReconcileResourceQuota :: [profile.ReconcileIstioAuthorizationPolicy])
      profile.quotaFaultCluster profile.starlord).err
      = some (.wrapped profile.errReconcileResourceQuota (.backend "quota service down")) :=
  congrArg profile.ReconcileOut.err
    (c24_step_error_aborts [profile.ReconcileNamespace, profile.ReconcileContributor]
      [profile.ReconcileIstioAuthorizationPolicy] profile.ReconcileResourceQuota {}
      profile.quotaFaultCluster profile.starlord
      (.wrapped profile.errReconcileResourceQuota (.backend "quota service down"))
      (fun done g rest h => by
        rcases done with _ | ⟨d1, _ | ⟨d2, done⟩⟩
        · cases h
          decide
        · cases h
          decide
        · have := congrArg List.length h
          simp at this)
      (by decide)).1

end contributor

/-! ### No-op steps -/

/-- Claim C27: the default step of both packages returns the None result, no error and
the store as it was; a reconciler built with no options has only such steps, and so has
the policy step of a reconciler set up without the Istio feature; a Profile pass of the
reconciler without options changes at most the status roster of the Profile, and a
Contributor pass changes nothing. -/
theorem c27_disabled_step_is_noop (c : Cluster) (req : ObjectKey) :
    (∀ (s : profile.Settings) (p : Profile),
      profile.NopReconcileFunc s c p = ⟨c, OperationResultNone, none⟩) ∧
    (∀ (s : contributor.Settings) (co : Contributor),
      contributor.NopReconcileFunc s c co = ⟨c, OperationResultNone, none⟩) ∧
    ((profile.NewReconciler []).namespaceFn = profile.NopReconcileFunc ∧
      (profile.NewReconciler []).contributor = profile.NopReconcileFunc ∧
      (profile.NewReconciler []).resourceQuota = profile.NopReconcileFunc ∧
      (profile.NewReconciler []).istio = profile.NopReconcileFunc) ∧
    ((contributor.NewReconciler []).serviceAccount = contributor.NopReconcileFunc ∧
      (contributor.NewReconciler []).roleBinding = contributor.NopReconcileFunc ∧
      (contributor.NewReconciler []).istio = contributor.NopReconcileFunc) ∧
    (∀ adoption pipelines : Bool,
      (profile.NewReconciler (profile.SetupOptions [] false adoption pipelines)).istio
        = profile.NopReconcileFunc) ∧
    (∀ pipelines : Bool,
      (contributor.NewReconciler (contributor.SetupOptions [] false pipelines)).istio
        = contributor.NopReconcileFunc) ∧
    ((profile.Reconcile (profile.NewReconciler []) c req).cluster = c ∨
      ∃ p names, lookupObj profileOps c req = some p ∧
        (profile.Reconcile (profile.NewReconciler []) c req).cluster
          = replaceObj profileOps c (profile.setRoster p names)) ∧
    (contributor.Reconcile (contributor.NewReconciler []) c req).cluster = c := by
  refine ⟨fun _ _ => rfl, fun _ _ => rfl, ⟨rfl, rfl, rfl, rfl⟩, ⟨rfl, rfl, rfl⟩, ?_, ?_, ?_, ?_⟩
  · intro adoption pipelines
    cases adoption <;> cases pipelines <;> rfl
  · intro pipelines
    cases pipelines <;> rfl
  · unfold profile.Reconcile
    cases hg : clientGet profileOps c req with
    | error e => exact Or.inl rfl
    | ok p =>
      simp only []
      cases hlist : clientList contributorOps c (some p.metadata.name) [] with
      | error e => exact Or.inl rfl
      | ok items =>
        simp only []
        cases hp : profile.patchStatus c (profile.setRoster p (profile.roster items)) with
        | error e => exact Or.inl rfl
        | ok out =>
          obtain ⟨c1, p1⟩ := out
          right
          unfold profile.patchStatus at hp
          cases hf : faultOf c .patchStatus .profile with
          | some e => simp [hf] at hp
          | none =>
            simp only [hf] at hp
            have hlp := (clientGet_ok hg).2
            have hname : p.metadata.name = req.2 := by
              have := lookupObj_hasKey hlp
              simpa [hasKey, profileOps] using this
            have hself : lookupObj profileOps c
                (keyOf (profile.setRoster p (profile.roster items)).metadata) = some p := by
              rw [profile.lookupObj_profile_name c _ req hname]
              exact hlp
            rw [hself] at hp
            simp only [Except.ok.injEq, Prod.mk.injEq] at hp
            refine ⟨p, profile.roster items, hlp, ?_⟩
            rw [← hp.1]
            rfl
  · unfold contributor.Reconcile
    cases hg : clientGet contributorOps c req with
    | error e => rfl
    | ok co => rfl

namespace access

/-! ### Absent fields of a binding, and the round trip -/

/-- Claim C28, evaluated on the store `guardians`: a binding that names no user, and a
binding that names a user of kind "User" but no role reference, each make
`AddContributor` dereference the absent field: the handler does not answer 400, it
panics, and nothing is created. -/
theorem c28_addContributor_absent_field_panics :
    AddContributor {} guardians (postNoUser "starlord") = ⟨guardians, .panicked⟩ ∧
    AddContributor {} guardians (postNoRoleRef "drax@guardians.net" "starlord")
      = ⟨guardians, .panicked⟩ ∧
    replyCode (AddContributor {} guardians (postNoUser "starlord")).reply ≠ some 400 :=
  ⟨rfl, rfl, by decide⟩

theorem filter_append_new (l : List Contributor) (co : Contributor) (q : Contributor → Bool)
    (hl : ∀ o ∈ l, q o = false) (hco : q co = true) :
    (l ++ [co]).filter (fun o => !q o) = l := by
  rw [List.filter_append]
  have h1 : l.filter (fun o => !q o) = l := by
    rw [List.filter_eq_self]
    intro o ho
    simp [hl o ho]
  have h2 : [co].filter (fun o => !q o) = [] := by
    simp [hco]
  rw [h1, h2, List.append_nil]

/-- Claim C30: when no Contributor of the namespace carries the hash label of the
identity and none has its local name, a successful `AddContributor` followed by an
authorized `RemoveContributor` for the same identity and namespace returns the store in
which the add started: the Contributors are those from before, and `RemoveContributor`
selects by the label `md5Sum` of the identity that `AddContributor` wrote. -/
theorem c30_add_then_remove (m : manager) (cl : Cluster) (ctxAdd ctxDel : Context)
    (badd bdel : Binding) (u : Subject) (udel : Subject) (roleRef : RoleRef) (p : Profile)
    (hadd : ctxAdd.binding = some badd)
    (hdelb : ctxDel.binding = some bdel)
    (hu : badd.user = some u)
    (hkind : u.kind = "User")
    (hrole : badd.roleRef = some roleRef)
    (hudel : bdel.user = some udel)
    (hsameUser : udel.name = u.name)
    (hsameNs : bdel.referredNamespace = badd.referredNamespace)
    (hfresh : ∀ o ∈ cl.contributors, ¬ (o.metadata.ns = badd.referredNamespace ∧
      mapGet o.metadata.labels "owner.kubeflow.org/id" = some (md5Sum u.name)))
    (hfree : lookupObj contributorOps cl (badd.referredNamespace, localName u.name) = none)
    (hcreate : faultOf cl .create .contributor = none)
    (hprofile : clientGet profileOps cl ("", badd.referredNamespace) = .ok p)
    (hlist : faultOf cl .list .contributor = none)
    (hdel : faultOf cl .deleteAllOf .contributor = none)
    (hauth : callerIdentity m ctxDel ∈ removeContributorAdmins m p (cl.contributors.filter
      (fun o => decide (o.metadata.ns = badd.referredNamespace)))) :
    (AddContributor m cl ctxAdd).reply = .status 200 "Added Contributor" ∧
    (AddContributor m cl ctxAdd).cluster.contributors
      = cl.contributors ++ [newContributor badd u roleRef] ∧
    mapGet (newContributor badd u roleRef).metadata.labels "owner.kubeflow.org/id"
      = some (md5Sum udel.name) ∧
    (RemoveContributor m (AddContributor m cl ctxAdd).cluster ctxDel).reply
      = .status 200 "Removed Contributor" ∧
    (RemoveContributor m (AddContributor m cl ctxAdd).cluster ctxDel).cluster.contributors
      = cl.contributors ∧
    (RemoveContributor m (AddContributor m cl ctxAdd).cluster ctxDel).cluster = cl := by
  have hcr : clientCreate contributorOps cl (newContributor badd u roleRef)
      = .ok (contributorOps.setItems cl (cl.contributors ++ [newContributor badd u roleRef])) := by
    unfold clientCreate
    have hf : faultOf cl .create contributorOps.kind = none := hcreate
    have hl : lookupObj contributorOps cl
        (keyOf (contributorOps.meta (newContributor badd u roleRef))) = none := hfree
    simp only [hf, hl]
    rfl
  have hrunAdd : AddContributor m cl ctxAdd
      = ⟨contributorOps.setItems cl (cl.contributors ++ [newContributor badd u roleRef]),
          .status 200 "Added Contributor"⟩ := by
    unfold AddContributor
    have hk : ¬ u.kind ≠ UserKind := fun h => h hkind
    simp only [hadd, hu, hk, if_false, hrole, hcr]
  have hlabel : mapGet (newContributor badd u roleRef).metadata.labels "owner.kubeflow.org/id"
      = some (md5Sum udel.name) := by
    rw [hsameUser]
    simp [newContributor, mapGet]
  have hprofile2 : clientGet profileOps
      (contributorOps.setItems cl (cl.contributors ++ [newContributor badd u roleRef]))
      ("", bdel.referredNamespace) = .ok p := by
    rw [hsameNs]
    exact hprofile
  have hauth2 : callerIdentity m ctxDel ∈ removeContributorAdmins m p
      ((contributorOps.setItems cl
          (cl.contributors ++ [newContributor badd u roleRef])).contributors.filter
        (fun o => decide (o.metadata.ns = bdel.referredNamespace))) := by
    rw [removeContributorAdmins_mem] at hauth ⊢
    rcases hauth with h | h | ⟨item, hi, hr, hn⟩
    · exact Or.inl h
    · exact Or.inr (Or.inl h)
    · refine Or.inr (Or.inr ⟨item, ?_, hr, hn⟩)
      rw [List.mem_filter] at hi ⊢
      rw [hsameNs]
      exact ⟨List.mem_append_left _ hi.1, hi.2⟩
  have hrunDel : RemoveContributor m
      (contributorOps.setItems cl (cl.contributors ++ [newContributor badd u roleRef])) ctxDel
      = ⟨cl, .status 200 "Removed Contributor"⟩ := by
    rw [RemoveContributor_read m _ ctxDel bdel p hdelb hprofile2 hlist]
    have hdel' : faultOf (contributorOps.setItems cl
        (cl.contributors ++ [newContributor badd u roleRef])) .deleteAllOf contributorOps.kind
        = none := hdel
    simp only [setHas, hauth2, decide_True, Bool.not_true, Bool.false_eq_true, if_false, hudel,
      clientDeleteAllOf, hdel']
    have hfilter : (cl.contributors ++ [newContributor badd u roleRef]).filter
        (fun o => !(decide ((contributorOps.meta o).ns = bdel.referredNamespace) &&
          matchesLabels [("owner.kubeflow.org/id", md5Sum udel.name)]
            (contributorOps.meta o).labels))
        = cl.contributors := by
      apply filter_append_new cl.contributors _
        (fun o => decide (o.metadata.ns = bdel.referredNamespace) &&
          matchesLabels [("owner.kubeflow.org/id", md5Sum udel.name)] o.metadata.labels)
      · intro o ho
        have := hfresh o ho
        rw [hsameNs, hsameUser]
        simp only [matchesLabels, List.all_cons, List.all_nil, Bool.and_true,
          Bool.and_eq_false_iff, decide_eq_false_iff_not, beq_eq_false_iff_ne, ne_eq]
        exact not_and_or.mp this
      · rw [hsameNs]
        simp only [matchesLabels, List.all_cons, List.all_nil, Bool.and_true,
          Bool.and_eq_true, decide_eq_true_eq, beq_iff_eq]
        exact ⟨rfl, hlabel⟩
    have key : ∀ l, l = cl.contributors →
        (⟨contributorOps.setItems (contributorOps.setItems cl
            (cl.contributors ++ [newContributor badd u roleRef])) l,
          .status 200 "Removed Contributor"⟩ : HandlerOut)
          = ⟨cl, .status 200 "Removed Contributor"⟩ := by
      intro l hl
      subst hl
      rfl
    exact key _ hfilter
  rw [hrunAdd, hrunDel]
  exact ⟨rfl, rfl, hlabel, rfl, rfl, rfl⟩

set_option maxRecDepth 100000 in
/-- Witness of C30: drax is added to the namespace "starlord" and removed again by
gamora. -/
theorem c30_add_then_remove_witness :
    (RemoveContributor {}
      (AddContributor {} guardians
        (postBinding "User" "drax@guardians.net" "starlord" "edit")).cluster
      (deleteBinding "gamora@guardians.net" "drax@guardians.net" "starlord")).cluster
      = guardians :=
  (c30_add_then_remove {} guardians
    (postBinding "User" "drax@guardians.net" "starlord" "edit")
    (deleteBinding "gamora@guardians.net" "drax@guardians.net" "starlord")
    (roleBindingOf "User" "drax@guardians.net" "starlord" "edit")
    (userBinding "drax@guardians.net" "starlord")
    { kind := "User", name := "drax@guardians.net" }
    { kind := "User", name := "drax@guardians.net" }
    { kind := "ClusterRole", name := "edit" } profile.starlord
    rfl rfl rfl rfl rfl rfl rfl rfl
    (by
      intro o ho
      simp only [guardians, List.mem_cons, List.mem_singleton, List.not_mem_nil, or_false] at ho
      rcases ho with h | h | h <;> subst h <;> decide)
    (by decide) (by decide) (by decide) (by decide) (by decide)
    ((removeContributorAdmins_mem _ _ _ _).mpr
      (Or.inr (Or.inr ⟨gamoraOwner,
        by simp [guardians, gamoraOwner, roleBindingOf], rfl, rfl⟩)))).2.2.2.2.2

end access

end KPM

namespace KPM

/-! ### Messages of the errors that `Reconcile` returns -/

theorem Wrap_some {x : Option Err} {msg : String} {e : Err} (h : Wrap x msg = some e) :
    ∃ cause, x = some cause ∧ e = .wrapped msg cause := by
  cases x with
  | none => simp [Wrap] at h
  | some cause =>
    refine ⟨cause, rfl, ?_⟩
    simp only [Wrap, Option.map_some', Option.some.injEq] at h
    exact h.symm

namespace profile

/-- Messages with which the step methods of the profile package wrap their errors. -/
theorem runFuncs_error_from (s : Settings) (p : Profile) (e : Err) :
    ∀ (fs : List ReconcileFunc) (c : Cluster), (runFuncs s fs c p).err = some e →
      ∃ f ∈ fs, ∃ c1, (f s c1 p).err = some e := by
  intro fs
  induction fs with
  | nil => intro c h; simp [runFuncs] at h
  | cons f fs ih =>
    intro c h
    unfold runFuncs at h
    dsimp only at h
    cases hf : (f s c p).err with
    | some e1 =>
      rw [hf] at h
      simp only [Option.some.injEq] at h
      exact ⟨f, List.mem_cons_self _ _, c, by rw [hf, h]⟩
    | none =>
      rw [hf] at h
      dsimp only at h
      split at h
      · simp at h
      · obtain ⟨g, hg, c1, hc1⟩ := ih _ h
        exact ⟨g, List.mem_cons_of_mem _ hg, c1, hc1⟩

theorem ReconcileNamespace_error (s : Settings) (c : Cluster) (p : Profile) (e : Err)
    (h : (ReconcileNamespace s c p).err = some e) :
    ∃ cause, e = .wrapped errReconcileNamespace cause := by
  unfold ReconcileNamespace at h
  dsimp only at h
  split at h
  · split at h
    · obtain ⟨cause, _, hc⟩ := Wrap_some h
      exact ⟨cause, hc⟩
    · obtain ⟨cause, _, hc⟩ :=
        Wrap_some (show Wrap (some _) errReconcileNamespace = some e from h)
      exact ⟨cause, hc⟩
  · split at h
    · simp at h
    · obtain ⟨cause, _, hc⟩ := Wrap_some h
      exact ⟨cause, hc⟩

theorem ReconcileContributor_error (s : Settings) (c : Cluster) (p : Profile) (e : Err)
    (h : (ReconcileContributor s c p).err = some e) :
    ∃ cause, e = .wrapped errReconcileOwnerContributor cause := by
  unfold ReconcileContributor at h
  split at h
  · simp [NopReconcileFunc] at h
  · obtain ⟨cause, _, hc⟩ := Wrap_some h
    exact ⟨cause, hc⟩

theorem packageStep_error (r : Reconciler) (hsteps : PackageSteps r) (f : ReconcileFunc)
    (hf : f ∈ [r.namespaceFn, r.contributor, r.resourceQuota, r.istio])
    (s : Settings) (c : Cluster) (p : Profile) (e : Err) (h : (f s c p).err = some e) :
    ∃ msg cause, e = .wrapped msg cause ∧
      msg ∈ [errReconcileNamespace, errReconcileOwnerContributor, errReconcileResourceQuota,
        errReconcileAuthorizationPolicy] := by
  obtain ⟨h1, h2, h3, h4⟩ := hsteps
  simp only [List.mem_cons, List.mem_singleton, List.not_mem_nil, or_false] at hf
  rcases hf with hf | hf | hf | hf
  · rcases h1 with h1 | h1
    · rw [hf, h1] at h; simp [NopReconcileFunc] at h
    · rw [hf, h1] at h
      obtain ⟨cause, hc⟩ := ReconcileNamespace_error s c p e h
      exact ⟨_, cause, hc, by simp⟩
  · rcases h2 with h2 | h2
    · rw [hf, h2] at h; simp [NopReconcileFunc] at h
    · rw [hf, h2] at h
      obtain ⟨cause, hc⟩ := ReconcileContributor_error s c p e h
      exact ⟨_, cause, hc, by simp⟩
  · rcases h3 with h3 | h3
    · rw [hf, h3] at h; simp [NopReconcileFunc] at h
    · rw [hf, h3] at h
      obtain ⟨cause, _, hc⟩ := Wrap_some h
      exact ⟨_, cause, hc, by simp⟩
  · rcases h4 with h4 | h4
    · rw [hf, h4] at h; simp [NopReconcileFunc] at h
    · rw [hf, h4] at h
      obtain ⟨cause, _, hc⟩ := Wrap_some h
      exact ⟨_, cause, hc, by simp⟩

end profile

namespace contributor

theorem steps_error_from (s : Settings) (co : Contributor) (e : Err) :
    ∀ (fs : List ReconcileFunc) (c : Cluster), (runFuncs s fs c co).err = some e →
      ∃ f ∈ fs, ∃ c1, (f s c1 co).err = some e := by
  intro fs
  induction fs with
  | nil => intro c h; simp [runFuncs] at h
  | cons f fs ih =>
    intro c h
    unfold runFuncs at h
    dsimp only at h
    cases hf : (f s c co).err with
    | some e1 =>
      rw [hf] at h
      simp only [Option.some.injEq] at h
      exact ⟨f, List.mem_cons_self _ _, c, by rw [hf, h]⟩
    | none =>
      rw [hf] at h
      obtain ⟨g, hg, c1, hc1⟩ := ih _ h
      exact ⟨g, List.mem_cons_of_mem _ hg, c1, hc1⟩

theorem policy_error (s : Settings) (c : Cluster) (co : Contributor) (e : Err)
    (h : (ReconcileIstioAuthorizationPolicy s c co).err = some e) :
    (upsertPublic s c co).err = some e ∨
      ((upsertPublic s c co).err = none ∧
        ∃ cause, e = .wrapped errReconcileAuthorizationPolicy cause) := by
  unfold ReconcileIstioAuthorizationPolicy at h
  dsimp only at h
  cases hp : (upsertPublic s c co).err with
  | some e1 =>
    rw [hp] at h
    exact Or.inl h
  | none =>
    rw [hp] at h
    obtain ⟨cause, _, hc⟩ := Wrap_some h
    exact Or.inr ⟨rfl, cause, hc⟩

/-- Counterexample to C26 as stated: with the list of Contributors failing, the Profile
`Reconcile` of the reconciler with every feature on returns the backend error as it is:
the error carries no message of a step. -/
theorem c26_roster_list_error_unwrapped :
    (profile.Reconcile (profile.NewReconciler (profile.SetupOptions [] true false true))
      profile.listFaultCluster ("", "starlord")).err = some (.backend "list failed") ∧
    ∀ msg cause,
      (profile.Reconcile (profile.NewReconciler (profile.SetupOptions [] true false true))
        profile.listFaultCluster ("", "starlord")).err ≠ some (.wrapped msg cause) := by
  have h : (profile.Reconcile (profile.NewReconciler (profile.SetupOptions [] true false true))
      profile.listFaultCluster ("", "starlord")).err = some (.backend "list failed") := by
    decide
  refine ⟨h, ?_⟩
  intro msg cause hw
  rw [h] at hw
  cases hw

end contributor

end KPM

namespace KPM

/-! ### Upserts that find their own result -/

theorem mapSet_of_get (k v : String) : ∀ m : StrMap, mapGet m k = some v → mapSet m k v = m := by
  intro m
  induction m with
  | nil => intro h; simp [mapGet] at h
  | cons a t ih =>
    intro h
    obtain ⟨k0, v0⟩ := a
    by_cases hk : k0 = k
    · simp only [mapGet, hk, if_true, Option.some.injEq] at h
      simp [mapSet, hk, h]
    · simp only [mapGet, hk, if_false] at h
      simp [mapSet, hk, ih h]

theorem addLabel_of_get (m : ObjectMeta) (k v : String) (h : mapGet m.labels k = some v) :
    addLabel m k v = m := by
  unfold addLabel
  rw [mapSet_of_get k v _ h]

theorem addAnnotation_of_get (m : ObjectMeta) (k v : String)
    (h : mapGet m.annotations k = some v) : addAnnotation m k v = m := by
  unfold addAnnotation
  rw [mapSet_of_get k v _ h]

theorem upsertOwnerRef_again (ref : OwnerReference) (hself : referSameObject ref ref = true) :
    ∀ l : List OwnerReference, upsertOwnerRef ref (upsertOwnerRef ref l) = upsertOwnerRef ref l := by
  intro l
  induction l with
  | nil => simp [upsertOwnerRef, hself]
  | cons a t ih =>
    by_cases hsame : referSameObject a ref = true
    · simp [upsertOwnerRef, hsame, hself]
    · simp [upsertOwnerRef, hsame, ih]

/-- A controller reference of a registered kind with a group and a version refers to the
same object as itself. -/
theorem referSameObject_self (gvk : String × String) (owner : ObjectMeta) (g : String)
    (hg : parseGroup gvk.1 = some g) :
    referSameObject (newControllerRef gvk owner) (newControllerRef gvk owner) = true := by
  simp [referSameObject, newControllerRef, hg]

/-- Setting the controller reference again, on metadata that carries the owner
references of an earlier success, changes nothing. -/
theorem SetControllerReference_again {gvk : String × String} {owner m0 m1 : ObjectMeta}
    (g : String) (hg : parseGroup gvk.1 = some g)
    (h : SetControllerReference gvk owner m0 = .ok m1) (m2 : ObjectMeta)
    (hns : m2.ns = m1.ns) (hrefs : m2.ownerReferences = m1.ownerReferences) :
    SetControllerReference gvk owner m2 = .ok m2 := by
  obtain ⟨hctrl, _, hns1, _, _⟩ := profile.SetControllerReference_controller h
  have hm1 := SetControllerReference_ok h
  have hv0 : validateOwner owner m0 = none := by
    unfold SetControllerReference at h
    cases hv : validateOwner owner m0 with
    | some e => simp [hv] at h
    | none => rfl
  have hv2 : validateOwner owner m2 = none := by
    unfold validateOwner at hv0 ⊢
    rw [hns, hns1]
    exact hv0
  have hc2 : GetControllerOf m2 = some (newControllerRef gvk owner) := by
    unfold GetControllerOf at hctrl ⊢
    rw [hrefs]
    exact hctrl
  have hup : upsertOwnerRef (newControllerRef gvk owner) m2.ownerReferences
      = m2.ownerReferences := by
    rw [hrefs, hm1]
    exact upsertOwnerRef_again _ (referSameObject_self gvk owner g hg) _
  unfold SetControllerReference
  simp only [hv2, hc2, referSameObject_self gvk owner g hg, Bool.not_true, Bool.false_eq_true,
    if_false, hup]

theorem parseGroup_kubeflow : parseGroup "kubeflow.org/v1alpha1" = some "kubeflow.org" := by
  decide

/-- When the store holds under the key of the skeleton an object that the mutate function
leaves as it is, the upsert changes nothing in the store. -/
theorem createOrWrite_fix {α : Type} [DecidableEq α] (v : Verb) (ops : KindOps α)
    (c : Cluster) (obj o : α) (f : α → Except Err α)
    (hl : lookupObj ops c (keyOf (ops.meta obj)) = some o) (hf : f o = .ok o) :
    (createOrWrite v ops c obj f).cluster = c := by
  unfold createOrWrite
  cases hg : clientGet ops c (keyOf (ops.meta obj)) with
  | error e =>
    simp only [hg]
    by_cases hnf : IsNotFound e = true
    · simp only [hnf, Bool.not_true, Bool.false_eq_true, if_false]
      cases hm : mutate ops f (keyOf (ops.meta obj)) obj with
      | error e' => rfl
      | ok obj' =>
        simp only [hm]
        cases hc : clientCreate ops c obj' with
        | error e' => rfl
        | ok c' =>
          obtain ⟨hnone, _⟩ := clientCreate_ok hc
          rw [(mutate_ok hm).2, hl] at hnone
          cases hnone
    · simp [hnf]
  | ok cur =>
    simp only [hg]
    have hcur : cur = o := by
      have := (clientGet_ok hg).2
      rw [hl] at this
      exact (Option.some.inj this).symm
    subst hcur
    unfold mutate
    simp only [hf]
    by_cases hk : keyOf (ops.meta cur) = keyOf (ops.meta obj)
    · simp [hk]
    · simp [hk]

/-- An upsert leaves every part of the store that writes of its kind leave. -/
theorem createOrWrite_frame {α β : Type} [DecidableEq α] (v : Verb) (ops : KindOps α)
    (g : Cluster → β) (hfr : ∀ c l, g (ops.setItems c l) = g c)
    (c : Cluster) (obj : α) (f : α → Except Err α) :
    g (createOrWrite v ops c obj f).cluster = g c := by
  rcases profile.createOrWrite_cluster v ops c obj f with h | ⟨l, h⟩
  · rw [h]
  · rw [h, hfr]

theorem lookupObj_items {α : Type} (ops : KindOps α) (c c' : Cluster) (key : ObjectKey)
    (h : ops.items c' = ops.items c) : lookupObj ops c' key = lookupObj ops c key := by
  unfold lookupObj
  rw [h]

end KPM

namespace KPM

theorem mapGet_of_mem (L : StrMap) (kv : String × String) (h : kv ∈ L) :
    (mapGet L kv.1).isSome = true := by
  induction L with
  | nil => cases h
  | cons a t ih =>
    obtain ⟨k0, v0⟩ := a
    by_cases hk : k0 = kv.1
    · simp [mapGet, hk]
    · have hmem : kv ∈ t := by
        rcases List.mem_cons.mp h with h1 | h1
        · exact absurd (by rw [h1]) hk
        · exact h1
      simp [mapGet, hk, ih hmem]

theorem addLabel_again (m : ObjectMeta) (k v : String) :
    addLabel (addLabel m k v) k v = addLabel m k v :=
  addLabel_of_get (addLabel m k v) k v (by simp only [addLabel]; rw [mapGet_mapSet_same])

theorem addAnnotation_again (m : ObjectMeta) (k v : String) :
    addAnnotation ( addAnnotation m k v) k v = addAnnotation m k v :=
  addAnnotation_of_get ( addAnnotation m k v) k v
    (by simp only [ addAnnotation]; rw [mapGet_mapSet_same])

theorem addLabel_again_two (m : ObjectMeta) (k1 v1 k2 v2 : String) (hne : k1 ≠ k2) :
    addLabel (addLabel (addLabel (addLabel m k1 v1) k2 v2) k1 v1) k2 v2
      = addLabel (addLabel m k1 v1) k2 v2 := by
  rw [addLabel_of_get (addLabel (addLabel m k1 v1) k2 v2) k1 v1
    (by simp only [addLabel]
        rw [mapGet_mapSet_other _ _ _ _ hne, mapGet_mapSet_same])]
  exact addLabel_again _ _ _

/-- A successful upsert, run again wherever the objects of its kind are those it left,
changes nothing when the mutate function leaves its own results as they are. -/
theorem createOrWrite_settles {α : Type} [DecidableEq α] {ops : KindOps α}
    (hl : LawfulOps ops) (v v2 : Verb) (c c2 : Cluster) (obj : α) (f : α → Except Err α)
    (hidem : ∀ a b, f a = .ok b → f b = .ok b)
    (hok : (createOrWrite v ops c obj f).err = none)
    (hitems : ops.items c2 = ops.items (createOrWrite v ops c obj f).cluster) :
    (createOrWrite v2 ops c2 obj f).cluster = c2 := by
  obtain ⟨base, obj', _, hf, _, hlook⟩ := createOrWrite_ok hl v c obj f hok
  apply createOrWrite_fix v2 ops c2 obj obj' f
  · rw [lookupObj_items ops _ _ _ hitems]
    exact hlook
  · exact hidem base obj' hf

namespace profile

theorem labelLoop_fix (L : StrMap) : ∀ m : ObjectMeta,
    (∀ kv ∈ L, HasLabel m kv.1 = true) →
    L.foldl (fun m kv => if !HasLabel m kv.1 then addLabel m kv.1 kv.2 else m) m = m := by
  induction L with
  | nil => intro m _; rfl
  | cons a t ih =>
    intro m h
    rw [List.foldl_cons]
    have ha : HasLabel m a.1 = true := h a (List.mem_cons_self _ _)
    simp only [ha, Bool.not_true, Bool.false_eq_true, if_false]
    exact ih m (fun kv hkv => h kv (List.mem_cons_of_mem _ hkv))

/-- The mutate function of the namespace step leaves a namespace as it is when the
controller reference, the configured labels and the owner annotation are in place. -/
theorem updateFn_fixed (r : Settings) (p : Profile) (m : ObjectMeta)
    (h1 : SetControllerReference profileGVK p.metadata m = .ok m)
    (h2 : ∀ kv ∈ r.namespaceLabels, HasLabel m kv.1 = true)
    (h3 : mapGet m.annotations "owner" = some p.spec.owner.name) :
    updateFn r p { metadata := m } = .ok { metadata := m } := by
  unfold updateFn
  dsimp only
  rw [h1]
  dsimp only
  rw [labelLoop_fix _ _ h2, addAnnotation_of_get _ _ _ h3]

theorem updateFn_again {r : Settings} {p : Profile} {n n' : Namespace}
    (h : updateFn r p n = .ok n') : updateFn r p n' = .ok n' := by
  obtain ⟨hann, hlabels, hrefs⟩ := updateFn_ok h
  unfold updateFn at h
  cases hs : SetControllerReference profileGVK p.metadata n.metadata with
  | error e => simp [hs] at h
  | ok m =>
    simp only [hs] at h
    obtain ⟨_, _, hns, _, _⟩ := SetControllerReference_controller hs
    have hm := SetControllerReference_ok hs
    have hn' : n' = { metadata := n'.metadata } := rfl
    rw [hn']
    apply updateFn_fixed
    · apply SetControllerReference_again "kubeflow.org" parseGroup_kubeflow hs
      · cases h
        simp only [ addAnnotation]
        rw [labelLoop_frame]
      · rw [hrefs, hm]
    · intro kv hkv
      unfold HasLabel mapHas
      rw [hlabels]
      have := mapGet_of_mem _ kv hkv
      cases hg : mapGet n.metadata.labels kv.1 with
      | some v => rfl
      | none => simpa using this
    · exact hann

theorem ReconcileNamespace_frame {β : Type} (g : Cluster → β)
    (hfr : ∀ c l, g (namespaceOps.setItems c l) = g c) (r : Settings) (c : Cluster)
    (p : Profile) : g (ReconcileNamespace r c p).cluster = g c := by
  unfold ReconcileNamespace
  dsimp only
  repeat' split
  all_goals first
    | rfl
    | exact createOrWrite_frame .patch namespaceOps g hfr _ _ _

theorem ReconcileContributor_frame {β : Type} (g : Cluster → β)
    (hfr : ∀ c l, g (contributorOps.setItems c l) = g c) (r : Settings) (c : Cluster)
    (p : Profile) : g (ReconcileContributor r c p).cluster = g c := by
  unfold ReconcileContributor
  split
  · rfl
  · exact createOrWrite_frame .patch contributorOps g hfr _ _ _

theorem ReconcileResourceQuota_frame {β : Type} (g : Cluster → β)
    (hfr : ∀ c l, g (resourceQuotaOps.setItems c l) = g c) (r : Settings) (c : Cluster)
    (p : Profile) : g (ReconcileResourceQuota r c p).cluster = g c :=
  createOrWrite_frame .update resourceQuotaOps g hfr _ _ _

theorem ReconcileIstioAuthorizationPolicy_frame {β : Type} (g : Cluster → β)
    (hfr : ∀ c l, g (authorizationPolicyOps.setItems c l) = g c) (r : Settings) (c : Cluster)
    (p : Profile) : g (ReconcileIstioAuthorizationPolicy r c p).cluster = g c :=
  createOrWrite_frame .patch authorizationPolicyOps g hfr _ _ _

/-- After a namespace step that succeeded without `Stop`, the namespace of the Profile's
name is stored and the mutate function leaves it as it is. -/
theorem ReconcileNamespace_settled (r : Settings) (c : Cluster) (p : Profile)
    (hok : (ReconcileNamespace r c p).err = none)
    (hns : (ReconcileNamespace r c p).res ≠ Stop) :
    ∃ o, lookupObj namespaceOps (ReconcileNamespace r c p).cluster (keyOf p.metadata) = some o ∧
      updateFn r p o = .ok o := by
  unfold ReconcileNamespace at hok hns ⊢
  dsimp only at hok hns ⊢
  cases hg : clientGet namespaceOps c (keyOf p.metadata) with
  | error e =>
    simp only [hg] at hok hns ⊢
    by_cases hnf : IsNotFound e = true
    · simp only [hnf, if_true] at hok hns ⊢
      obtain ⟨base, o, _, hf, _, hlook⟩ :=
        createOrWrite_ok namespaceOps_lawful .patch c _ _ (Wrap_none hok)
      refine ⟨o, ?_, updateFn_again hf⟩
      rw [← hlook]
      exact lookupObj_namespace_name _ _ _ rfl
    · simp [hnf, Wrap] at hok
  | ok nsObj =>
    simp only [hg] at hok hns ⊢
    split at hok
    · rename_i hstop
      simp only [hstop, if_true] at hns
      exact absurd rfl hns
    · rename_i hgo
      simp only [hgo]
      obtain ⟨ns', hf, hlook⟩ := namespace_upsert_ok r c p nsObj hg (Wrap_none hok)
      exact ⟨ns', hlook, updateFn_again hf⟩

/-- The namespace step changes nothing in a store that holds the namespace of the
Profile's name in the state its mutate function produces. -/
theorem ReconcileNamespace_fixed (r : Settings) (c : Cluster) (p : Profile) (o : Namespace)
    (hl : lookupObj namespaceOps c (keyOf p.metadata) = some o)
    (hf : updateFn r p o = .ok o) :
    (ReconcileNamespace r c p).cluster = c := by
  unfold ReconcileNamespace
  dsimp only
  cases hg : clientGet namespaceOps c (keyOf p.metadata) with
  | error e =>
    dsimp only
    split
    · apply createOrWrite_fix .patch namespaceOps c _ o _ _ hf
      rw [← hl]
      exact lookupObj_namespace_name _ _ _ rfl
    · rfl
  | ok nsObj =>
    dsimp only
    have hcur : nsObj = o := by
      have := (clientGet_ok hg).2
      rw [hl] at this
      exact (Option.some.inj this).symm
    subst hcur
    split
    · rfl
    · apply createOrWrite_fix .patch namespaceOps c _ nsObj _ _ hf
      rw [← hl]
      apply lookupObj_namespace_name
      have := lookupObj_hasKey hl
      simpa [hasKey, namespaceOps, keyOf] using this

/-- The owner Contributor step, run again wherever the Contributors are those it left
after a success, changes nothing. -/
theorem ReconcileContributor_settles (r : Settings) (c c2 : Cluster) (p : Profile)
    (hok : (ReconcileContributor r c p).err = none)
    (hitems : c2.contributors = (ReconcileContributor r c p).cluster.contributors) :
    (ReconcileContributor r c2 p).cluster = c2 := by
  unfold ReconcileContributor at hok hitems ⊢
  split
  · rfl
  · rename_i hkind
    simp only [hkind, if_false] at hok hitems
    apply createOrWrite_settles contributorOps_lawful .patch .patch c c2 _ _ ?_
      (Wrap_none hok) hitems
    intro a b hab
    dsimp only at hab ⊢
    cases hs : SetControllerReference profileGVK p.metadata a.metadata with
    | error e => simp [hs] at hab
    | ok m =>
      simp only [hs] at hab
      cases hab
      dsimp only
      rw [SetControllerReference_again "kubeflow.org" parseGroup_kubeflow hs
        (addLabel (addLabel m "owner.kubeflow.org/id" (md5Sum p.spec.owner.name))
          "contributor.kubeflow.org/role" "admin") rfl rfl]
      dsimp only
      rw [addLabel_again_two _ _ _ _ _ (by decide)]

theorem ReconcileResourceQuota_settles (r : Settings) (c c2 : Cluster) (p : Profile)
    (hok : (ReconcileResourceQuota r c p).err = none)
    (hitems : c2.resourceQuotas = (ReconcileResourceQuota r c p).cluster.resourceQuotas) :
    (ReconcileResourceQuota r c2 p).cluster = c2 := by
  unfold ReconcileResourceQuota at hok hitems ⊢
  apply createOrWrite_settles resourceQuotaOps_lawful .update .update c c2 _ _ ?_
    (Wrap_none hok) hitems
  intro a b hab
  dsimp only at hab ⊢
  cases hs : SetControllerReference profileGVK p.metadata a.metadata with
  | error e => simp [hs] at hab
  | ok m =>
    simp only [hs] at hab
    cases hab
    dsimp only
    rw [SetControllerReference_again "kubeflow.org" parseGroup_kubeflow hs
      (addLabel m "app.kubernetes.io/part-of" "kubeflow-profile") rfl rfl]
    dsimp only
    rw [addLabel_again]

theorem ReconcileIstioAuthorizationPolicy_settles (r : Settings) (c c2 : Cluster) (p : Profile)
    (hok : (ReconcileIstioAuthorizationPolicy r c p).err = none)
    (hitems : c2.authorizationPolicies
      = (ReconcileIstioAuthorizationPolicy r c p).cluster.authorizationPolicies) :
    (ReconcileIstioAuthorizationPolicy r c2 p).cluster = c2 := by
  unfold ReconcileIstioAuthorizationPolicy at hok hitems ⊢
  apply createOrWrite_settles authorizationPolicyOps_lawful .patch .patch c c2 _ _ ?_
    (Wrap_none hok) hitems
  intro a b hab
  dsimp only at hab ⊢
  cases hs : SetControllerReference profileGVK p.metadata a.metadata with
  | error e => simp [hs] at hab
  | ok m =>
    simp only [hs] at hab
    cases hab
    dsimp only
    rw [SetControllerReference_again "kubeflow.org" parseGroup_kubeflow hs
      (addLabel m "app.kubernetes.io/part-of" "kubeflow-profile") rfl rfl]
    dsimp only
    rw [addLabel_again]

end profile

end KPM

namespace KPM

namespace contributor

theorem ReconcileServiceAccount_frame {β : Type} (g : Cluster → β)
    (hfr : ∀ c l, g (serviceAccountOps.setItems c l) = g c) (r : Settings) (c : Cluster)
    (co : Contributor) : g (ReconcileServiceAccount r c co).cluster = g c :=
  createOrWrite_frame .patch serviceAccountOps g hfr _ _ _

theorem ReconcileRoleBinding_frame {β : Type} (g : Cluster → β)
    (hfr : ∀ c l, g (roleBindingOps.setItems c l) = g c) (r : Settings) (c : Cluster)
    (co : Contributor) : g (ReconcileRoleBinding r c co).cluster = g c :=
  createOrWrite_frame .patch roleBindingOps g hfr _ _ _

theorem policy_frame {β : Type} (g : Cluster → β)
    (hfr : ∀ c l, g (authorizationPolicyOps.setItems c l) = g c) (r : Settings) (c : Cluster)
    (co : Contributor) : g (ReconcileIstioAuthorizationPolicy r c co).cluster = g c := by
  have hpub : g (upsertPublic r c co).cluster = g c :=
    createOrWrite_frame .patch authorizationPolicyOps g hfr _ _ _
  unfold ReconcileIstioAuthorizationPolicy
  dsimp only
  split
  · exact hpub
  · exact (createOrWrite_frame .patch authorizationPolicyOps g hfr _ _ _).trans hpub

/-- The service account step, run again wherever the service accounts are those it left
after a success, changes nothing. -/
theorem ReconcileServiceAccount_settles (r : Settings) (c c2 : Cluster) (co : Contributor)
    (hok : (ReconcileServiceAccount r c co).err = none)
    (hitems : c2.serviceAccounts = (ReconcileServiceAccount r c co).cluster.serviceAccounts) :
    (ReconcileServiceAccount r c2 co).cluster = c2 := by
  unfold ReconcileServiceAccount at hok hitems ⊢
  apply createOrWrite_settles serviceAccountOps_lawful .patch .patch c c2 _ _ ?_
    (profile.Wrap_none hok) hitems
  intro a b hab
  dsimp only at hab ⊢
  cases hs : SetControllerReference contributorGVK co.metadata a.metadata with
  | error e => simp [hs] at hab
  | ok m =>
    simp only [hs] at hab
    cases hab
    dsimp only
    rw [SetControllerReference_again "kubeflow.org" parseGroup_kubeflow hs
      ( addAnnotation (addLabel m "owner.kubeflow.org/id" (md5Sum co.spec.name))
        "owner.kubeflow.org/name" co.spec.name) rfl rfl]
    dsimp only
    rw [addLabel_of_get ( addAnnotation (addLabel m "owner.kubeflow.org/id"
        (md5Sum co.spec.name)) "owner.kubeflow.org/name" co.spec.name)
        "owner.kubeflow.org/id" (md5Sum co.spec.name)
        (by simp only [ addAnnotation, addLabel]; rw [mapGet_mapSet_same]),
      addAnnotation_again]

theorem ReconcileRoleBinding_settles (r : Settings) (c c2 : Cluster) (co : Contributor)
    (hok : (ReconcileRoleBinding r c co).err = none)
    (hitems : c2.roleBindings = (ReconcileRoleBinding r c co).cluster.roleBindings) :
    (ReconcileRoleBinding r c2 co).cluster = c2 := by
  unfold ReconcileRoleBinding at hok hitems ⊢
  apply createOrWrite_settles roleBindingOps_lawful .patch .patch c c2 _ _ ?_
    (profile.Wrap_none hok) hitems
  intro a b hab
  dsimp only at hab ⊢
  cases hs : SetControllerReference contributorGVK co.metadata a.metadata with
  | error e => simp [hs] at hab
  | ok m =>
    simp only [hs] at hab
    cases hab
    dsimp only
    have hM : ∀ M : ObjectMeta,
        M = addAnnotation ( addAnnotation ( addAnnotation
          (addLabel m "owner.kubeflow.org/id" (md5Sum co.spec.name))
          "owner.kubeflow.org/name" co.spec.name) "owner" co.spec.name) "role" co.spec.role →
        addAnnotation ( addAnnotation ( addAnnotation
          (addLabel M "owner.kubeflow.org/id" (md5Sum co.spec.name))
          "owner.kubeflow.org/name" co.spec.name) "owner" co.spec.name) "role" co.spec.role
          = M := by
      intro M hMdef
      have h1 : addLabel M "owner.kubeflow.org/id" (md5Sum co.spec.name) = M :=
        addLabel_of_get _ _ _ (by
          rw [hMdef]
          simp only [ addAnnotation, addLabel]
          rw [mapGet_mapSet_same])
      have h2 : addAnnotation M "owner.kubeflow.org/name" co.spec.name = M :=
        addAnnotation_of_get _ _ _ (by
          rw [hMdef]
          simp only [ addAnnotation, addLabel]
          rw [mapGet_mapSet_other _ _ _ _ (by decide), mapGet_mapSet_other _ _ _ _ (by decide),
            mapGet_mapSet_same])
      have h3 : addAnnotation M "owner" co.spec.name = M :=
        addAnnotation_of_get _ _ _ (by
          rw [hMdef]
          simp only [ addAnnotation, addLabel]
          rw [mapGet_mapSet_other _ _ _ _ (by decide), mapGet_mapSet_same])
      have h4 : addAnnotation M "role" co.spec.role = M :=
        addAnnotation_of_get _ _ _ (by
          rw [hMdef]
          simp only [ addAnnotation, addLabel]
          rw [mapGet_mapSet_same])
      rw [h1, h2, h3, h4]
    rw [SetControllerReference_again "kubeflow.org" parseGroup_kubeflow hs
      ( addAnnotation ( addAnnotation ( addAnnotation
          (addLabel m "owner.kubeflow.org/id" (md5Sum co.spec.name))
          "owner.kubeflow.org/name" co.spec.name) "owner" co.spec.name) "role" co.spec.role)
      rfl rfl]
    dsimp only
    rw [hM _ rfl]

theorem upsertPublic_again (co : Contributor) (a b : AuthorizationPolicy)
    (spec : AuthorizationPolicySpec)
    (hab : (match SetControllerReference contributorGVK co.metadata a.metadata with
      | .error e => Except.error (Err.wrapped (errFmtSetControllerRef "AuthorizationPolicy") e)
      | .ok m => Except.ok ({ metadata := m, spec := spec } : AuthorizationPolicy)) = .ok b) :
    (match SetControllerReference contributorGVK co.metadata b.metadata with
      | .error e => Except.error (Err.wrapped (errFmtSetControllerRef "AuthorizationPolicy") e)
      | .ok m => Except.ok ({ metadata := m, spec := spec } : AuthorizationPolicy)) = .ok b := by
  cases hs : SetControllerReference contributorGVK co.metadata a.metadata with
  | error e => simp [hs] at hab
  | ok m =>
    simp only [hs] at hab
    cases hab
    dsimp only
    obtain ⟨_, _, hns, _, _⟩ := profile.SetControllerReference_controller hs
    have hm := SetControllerReference_ok hs
    have hfix : SetControllerReference contributorGVK co.metadata m = .ok m := by
      apply SetControllerReference_again "kubeflow.org" parseGroup_kubeflow hs m rfl rfl
    rw [hfix]

/-- The policy step, run again wherever the policies are those it left after a success,
changes nothing. -/
theorem policy_settles (r : Settings) (c c2 : Cluster)
    (co : Contributor)
    (hok : (ReconcileIstioAuthorizationPolicy r c co).err = none)
    (hitems : c2.authorizationPolicies
      = (ReconcileIstioAuthorizationPolicy r c co).cluster.authorizationPolicies) :
    (ReconcileIstioAuthorizationPolicy r c2 co).cluster = c2 := by
  unfold ReconcileIstioAuthorizationPolicy at hok hitems
  dsimp only at hok hitems
  cases hpub : (upsertPublic r c co).err with
  | some e => simp [hpub] at hok
  | none =>
    simp only [hpub] at hok hitems
    have hpriv := profile.Wrap_none hok
    have hpub2 : (upsertPublic r c2 co).cluster = c2 := by
      unfold upsertPublic at hpub ⊢
      obtain ⟨base, obj', _, hf, _, hlook⟩ :=
        createOrWrite_ok authorizationPolicyOps_lawful .patch c _ _ hpub
      apply createOrWrite_fix .patch authorizationPolicyOps c2 _ obj' _ _
        (upsertPublic_again co base obj' _ hf)
      have h1 : lookupObj authorizationPolicyOps c2
            (co.metadata.ns, co.metadata.name ++ "-public")
          = lookupObj authorizationPolicyOps
              (upsertPrivate r (upsertPublic r c co).cluster co).cluster
              (co.metadata.ns, co.metadata.name ++ "-public") :=
        lookupObj_items authorizationPolicyOps _ _ _ hitems
      rw [upsertPrivate_keeps_public] at h1
      exact h1.trans hlook
    unfold ReconcileIstioAuthorizationPolicy
    dsimp only
    split
    · exact hpub2
    · rw [hpub2]
      unfold upsertPrivate at hpriv hitems ⊢
      apply createOrWrite_settles authorizationPolicyOps_lawful .patch .patch _ c2 _ _ ?_
        hpriv hitems
      intro a b hab
      exact upsertPublic_again co a b _ hab

theorem runFuncs_unchanged (s : Settings) (co : Contributor) (c : Cluster) :
    ∀ fs : List ReconcileFunc, (∀ f ∈ fs, (f s c co).cluster = c) →
      (runFuncs s fs c co).cluster = c := by
  intro fs
  induction fs with
  | nil => intro _; rfl
  | cons f fs ih =>
    intro h
    have hf := h f (List.mem_cons_self _ _)
    unfold runFuncs
    dsimp only
    cases he : (f s c co).err with
    | some e => exact hf
    | none =>
      dsimp only
      rw [hf]
      exact ih (fun g hg => h g (List.mem_cons_of_mem _ hg))

/-- A second Contributor pass after a successful one changes nothing in the store. -/
theorem pass_again (rc : Reconciler) (c : Cluster) (req : ObjectKey)
    (hsteps : PackageSteps rc) (hok : (Reconcile rc c req).err = none) :
    (Reconcile rc (Reconcile rc c req).cluster req).cluster = (Reconcile rc c req).cluster := by
  cases hg : clientGet contributorOps c req with
  | error e =>
    have h1 : (Reconcile rc c req).cluster = c := by
      unfold Reconcile
      rw [hg]
    simp only [h1]
  | ok co =>
    have h1 : Reconcile rc c req
        = runFuncs rc.toSettings [rc.serviceAccount, rc.roleBinding, rc.istio] c co := by
      unfold Reconcile
      rw [hg]
    rw [h1] at hok
    obtain ⟨hs1, hs2, hs3⟩ := hsteps
    -- the three steps of the first pass
    unfold runFuncs at hok
    dsimp only at hok
    cases he1 : (rc.serviceAccount rc.toSettings c co).err with
    | some e => simp [he1] at hok
    | none =>
      simp only [he1] at hok
      unfold runFuncs at hok
      dsimp only at hok
      cases he2 : (rc.roleBinding rc.toSettings
          (rc.serviceAccount rc.toSettings c co).cluster co).err with
      | some e => simp [he2] at hok
      | none =>
        simp only [he2] at hok
        unfold runFuncs at hok
        dsimp only at hok
        cases he3 : (rc.istio rc.toSettings (rc.roleBinding rc.toSettings
            (rc.serviceAccount rc.toSettings c co).cluster co).cluster co).err with
        | some e => simp [he3] at hok
        | none =>
          have hc1 : (Reconcile rc c req).cluster
              = (rc.istio rc.toSettings (rc.roleBinding rc.toSettings
                (rc.serviceAccount rc.toSettings c co).cluster co).cluster co).cluster := by
            rw [h1]
            simp only [runFuncs, he1, he2, he3]
          have hfr2 : ∀ {β : Type} (g : Cluster → β),
              (∀ c l, g (roleBindingOps.setItems c l) = g c) → ∀ c1,
              g (rc.roleBinding rc.toSettings c1 co).cluster = g c1 := by
            intro β g hg c1
            rcases hs2 with h | h
            · rw [h]; rfl
            · rw [h]; exact ReconcileRoleBinding_frame g hg _ _ _
          have hfr3 : ∀ {β : Type} (g : Cluster → β),
              (∀ c l, g (authorizationPolicyOps.setItems c l) = g c) → ∀ c1,
              g (rc.istio rc.toSettings c1 co).cluster = g c1 := by
            intro β g hg c1
            rcases hs3 with h | h
            · rw [h]; rfl
            · rw [h]; exact policy_frame g hg _ _ _
          have hfr1 : ∀ {β : Type} (g : Cluster → β),
              (∀ c l, g (serviceAccountOps.setItems c l) = g c) → ∀ c1,
              g (rc.serviceAccount rc.toSettings c1 co).cluster = g c1 := by
            intro β g hg c1
            rcases hs1 with h | h
            · rw [h]; rfl
            · rw [h]; exact ReconcileServiceAccount_frame g hg _ _ _
          generalize hc1def : (Reconcile rc c req).cluster = c1 at hc1 ⊢
          -- the second pass reads the same contributor
          have hcontrib : c1.contributors = c.contributors := by
            rw [hc1, hfr3 (fun c => c.contributors) (fun _ _ => rfl),
              hfr2 (fun c => c.contributors) (fun _ _ => rfl),
              hfr1 (fun c => c.contributors) (fun _ _ => rfl)]
          cases hg2 : clientGet contributorOps c1 req with
          | error e =>
            unfold Reconcile
            rw [hg2]
          | ok co2 =>
            have hco : co2 = co := by
              have h2 := (clientGet_ok hg2).2
              have h3 := (clientGet_ok hg).2
              rw [lookupObj_items contributorOps c c1 req hcontrib, h3] at h2
              exact (Option.some.inj h2).symm
            subst hco
            have h2 : Reconcile rc c1 req
                = runFuncs rc.toSettings [rc.serviceAccount, rc.roleBinding, rc.istio] c1 co2 := by
              unfold Reconcile
              rw [hg2]
            rw [h2]
            apply runFuncs_unchanged
            intro f hf
            simp only [List.mem_cons, List.mem_singleton, List.not_mem_nil, or_false] at hf
            rcases hf with hf | hf | hf
            · rw [hf]
              rcases hs1 with h | h
              · rw [h]; rfl
              · rw [h] at he1 ⊢
                apply ReconcileServiceAccount_settles _ c c1 co2 he1
                rw [hc1, hfr3 (fun c => c.serviceAccounts) (fun _ _ => rfl),
                  hfr2 (fun c => c.serviceAccounts) (fun _ _ => rfl), h]
            · rw [hf]
              rcases hs2 with h | h
              · rw [h]; rfl
              · rw [h] at he2 ⊢
                apply ReconcileRoleBinding_settles _ _ c1 co2 he2
                rw [hc1, hfr3 (fun c => c.roleBindings) (fun _ _ => rfl), h]
            · rw [hf]
              rcases hs3 with h | h
              · rw [h]; rfl
              · rw [h] at he3 ⊢
                apply policy_settles _ _ c1 co2 he3
                rw [hc1, h]

end contributor

end KPM

namespace KPM

theorem clientGet_local {α : Type} (ops : KindOps α) (c c2 : Cluster) (key : ObjectKey)
    (hitems : ops.items c2 = ops.items c) (hfaults : c2.faults = c.faults) :
    clientGet ops c2 key = clientGet ops c key := by
  unfold clientGet faultOf lookupObj
  rw [hitems, hfaults]

namespace profile

theorem loop_unchanged (s : Settings) (p : Profile) (c : Cluster) :
    ∀ fs : List ReconcileFunc, (∀ f ∈ fs, (f s c p).cluster = c) →
      (runFuncs s fs c p).cluster = c := by
  intro fs
  induction fs with
  | nil => intro _; rfl
  | cons f fs ih =>
    intro h
    have hf := h f (List.mem_cons_self _ _)
    unfold runFuncs
    dsimp only
    cases he : (f s c p).err with
    | some e => exact hf
    | none =>
      dsimp only
      split
      · exact hf
      · rw [hf]
        exact ih (fun g hg => h g (List.mem_cons_of_mem _ hg))

theorem loop_congr (s : Settings) (p p2 : Profile) :
    ∀ (fs : List ReconcileFunc) (c : Cluster), (∀ f ∈ fs, ∀ c, f s c p2 = f s c p) →
      runFuncs s fs c p2 = runFuncs s fs c p := by
  intro fs
  induction fs with
  | nil => intro c _; rfl
  | cons f fs ih =>
    intro c h
    unfold runFuncs
    rw [h f (List.mem_cons_self _ _) c]
    dsimp only
    split
    · rfl
    · split
      · rfl
      · exact ih _ (fun g hg => h g (List.mem_cons_of_mem _ hg))

/-- The steps of the package read the metadata and the spec of the Profile, not its
status. -/
theorem packageStep_status (r : Reconciler) (hsteps : PackageSteps r) (p : Profile)
    (names : List String) :
    ∀ f ∈ [r.namespaceFn, r.contributor, r.resourceQuota, r.istio], ∀ c,
      f r.toSettings c (setRoster p names) = f r.toSettings c p := by
  obtain ⟨h1, h2, h3, h4⟩ := hsteps
  intro f hf c
  simp only [List.mem_cons, List.mem_singleton, List.not_mem_nil, or_false] at hf
  rcases hf with hf | hf | hf | hf
  · rcases h1 with h | h <;> rw [hf, h] <;> rfl
  · rcases h2 with h | h <;> rw [hf, h] <;> rfl
  · rcases h3 with h | h <;> rw [hf, h] <;> rfl
  · rcases h4 with h | h <;> rw [hf, h] <;> rfl

theorem ReconcileContributor_not_stop (s : Settings) (c : Cluster) (p : Profile) :
    (ReconcileContributor s c p).res ≠ Stop := by
  unfold ReconcileContributor
  split
  · simp [NopReconcileFunc, OperationResultNone, Stop]
  · exact createOrWrite_res_ne_stop _ _ _ _ _

/-- A namespace step that answered `Stop` answers `Stop` again wherever the namespaces and
the faults of the backend are the same. -/
theorem ReconcileNamespace_stops_again (s : Settings) (c c2 : Cluster) (p : Profile)
    (hres : (ReconcileNamespace s c p).res = Stop)
    (hitems : c2.namespaces = c.namespaces) (hfaults : c2.faults = c.faults) :
    ReconcileNamespace s c2 p = ⟨c2, Stop, none⟩ := by
  have hget := clientGet_local namespaceOps c c2 (keyOf p.metadata) hitems hfaults
  unfold ReconcileNamespace at hres ⊢
  dsimp only at hres ⊢
  rw [hget]
  cases hg : clientGet namespaceOps c (keyOf p.metadata) with
  | error e =>
    simp only [hg] at hres
    split at hres
    · exact absurd hres (createOrWrite_res_ne_stop _ _ _ _ _)
    · simp [OperationResultNone, Stop] at hres
  | ok nsObj =>
    simp only [hg] at hres ⊢
    split at hres
    · rename_i h
      simp only [h, if_true]
    · exact absurd hres (createOrWrite_res_ne_stop _ _ _ _ _)

/-- How a pass over the four steps of the package ends without an error: on a `Stop` of
the namespace step, which leaves the store as it is, or after all four steps. -/
theorem runFuncs_ok_chain (r : Reconciler) (hsteps : PackageSteps r) (c : Cluster) (p : Profile)
    (hok : (runFuncs r.toSettings [r.namespaceFn, r.contributor, r.resourceQuota, r.istio]
      c p).err = none) :
    (r.namespaceFn = ReconcileNamespace ∧ (ReconcileNamespace r.toSettings c p).res = Stop ∧
      runFuncs r.toSettings [r.namespaceFn, r.contributor, r.resourceQuota, r.istio] c p
        = ⟨c, {}, none⟩) ∨
    ((r.namespaceFn r.toSettings c p).err = none ∧
      (r.namespaceFn r.toSettings c p).res ≠ Stop ∧
      (r.contributor r.toSettings (r.namespaceFn r.toSettings c p).cluster p).err = none ∧
      (r.resourceQuota r.toSettings (r.contributor r.toSettings
        (r.namespaceFn r.toSettings c p).cluster p).cluster p).err = none ∧
      (r.istio r.toSettings (r.resourceQuota r.toSettings (r.contributor r.toSettings
        (r.namespaceFn r.toSettings c p).cluster p).cluster p).cluster p).err = none ∧
      (runFuncs r.toSettings [r.namespaceFn, r.contributor, r.resourceQuota, r.istio]
        c p).cluster
        = (r.istio r.toSettings (r.resourceQuota r.toSettings (r.contributor r.toSettings
          (r.namespaceFn r.toSettings c p).cluster p).cluster p).cluster p).cluster) := by
  obtain ⟨h1, h2, h3, h4⟩ := hsteps
  have hn2 : ∀ c1, (r.contributor r.toSettings c1 p).res ≠ Stop := by
    intro c1
    rcases h2 with h | h
    · rw [h]; simp [NopReconcileFunc, OperationResultNone, Stop]
    · rw [h]; exact ReconcileContributor_not_stop _ _ _
  have hn3 : ∀ c1, (r.resourceQuota r.toSettings c1 p).res ≠ Stop := by
    intro c1
    rcases h3 with h | h
    · rw [h]; simp [NopReconcileFunc, OperationResultNone, Stop]
    · rw [h]; exact createOrWrite_res_ne_stop _ _ _ _ _
  have hn4 : ∀ c1, (r.istio r.toSettings c1 p).res ≠ Stop := by
    intro c1
    rcases h4 with h | h
    · rw [h]; simp [NopReconcileFunc, OperationResultNone, Stop]
    · rw [h]; exact createOrWrite_res_ne_stop _ _ _ _ _
  cases he1 : (r.namespaceFn r.toSettings c p).err with
  | some e =>
    unfold runFuncs at hok
    simp [he1] at hok
  | none =>
    by_cases hst : (r.namespaceFn r.toSettings c p).res = Stop
    · left
      rcases h1 with h | h
      · rw [h] at hst
        simp [NopReconcileFunc, OperationResultNone, Stop] at hst
      · rw [h] at hst he1
        have hstop := ReconcileNamespace_stops_again r.toSettings c c p hst rfl rfl
        refine ⟨h, hst, ?_⟩
        unfold runFuncs
        rw [h, hstop]
        simp
    · right
      unfold runFuncs at hok ⊢
      simp only [he1, hst, if_false] at hok ⊢
      cases he2 : (r.contributor r.toSettings (r.namespaceFn r.toSettings c p).cluster p).err with
      | some e =>
        unfold runFuncs at hok
        simp [he2] at hok
      | none =>
        unfold runFuncs at hok ⊢
        simp only [he2, hn2, if_false] at hok ⊢
        cases he3 : (r.resourceQuota r.toSettings (r.contributor r.toSettings
            (r.namespaceFn r.toSettings c p).cluster p).cluster p).err with
        | some e =>
          unfold runFuncs at hok
          simp [he3] at hok
        | none =>
          unfold runFuncs at hok ⊢
          simp only [he3, hn3, if_false] at hok ⊢
          cases he4 : (r.istio r.toSettings (r.resourceQuota r.toSettings
              (r.contributor r.toSettings (r.namespaceFn r.toSettings c p).cluster
                p).cluster p).cluster p).err with
          | some e =>
            unfold runFuncs at hok
            simp [he4] at hok
          | none =>
            refine ⟨by simp, hst, by simp, by simp, by simp, ?_⟩
            unfold runFuncs
            simp only [he4, hn4, if_false]
            rfl

end profile

end KPM

namespace KPM

namespace profile

/-- A second run of the four steps, wherever the derived objects and the faults of the
backend are those that a first run without error left, changes nothing. -/
theorem runFuncs_again (r : Reconciler) (hsteps : PackageSteps r) (c c2 : Cluster) (p : Profile)
    (hok : (runFuncs r.toSettings [r.namespaceFn, r.contributor, r.resourceQuota, r.istio]
      c p).err = none)
    (hns : c2.namespaces = (runFuncs r.toSettings
      [r.namespaceFn, r.contributor, r.resourceQuota, r.istio] c p).cluster.namespaces)
    (hco : c2.contributors = (runFuncs r.toSettings
      [r.namespaceFn, r.contributor, r.resourceQuota, r.istio] c p).cluster.contributors)
    (hrq : c2.resourceQuotas = (runFuncs r.toSettings
      [r.namespaceFn, r.contributor, r.resourceQuota, r.istio] c p).cluster.resourceQuotas)
    (hap : c2.authorizationPolicies = (runFuncs r.toSettings
      [r.namespaceFn, r.contributor, r.resourceQuota, r.istio] c p).cluster.authorizationPolicies)
    (hfaults : c2.faults = (runFuncs r.toSettings
      [r.namespaceFn, r.contributor, r.resourceQuota, r.istio] c p).cluster.faults) :
    (runFuncs r.toSettings [r.namespaceFn, r.contributor, r.resourceQuota, r.istio]
      c2 p).cluster = c2 := by
  rcases runFuncs_ok_chain r hsteps c p hok with ⟨hfn, hstop, hrun⟩ | ⟨he1, hst, he2, he3, he4, hrun⟩
  · rw [hrun] at hns hfaults
    have h2 := ReconcileNamespace_stops_again r.toSettings c c2 p hstop hns hfaults
    unfold runFuncs
    rw [hfn, h2]
    simp
  · obtain ⟨h1, h2, h3, h4⟩ := hsteps
    have hfr2 : ∀ {β : Type} (g : Cluster → β),
        (∀ c l, g (contributorOps.setItems c l) = g c) → ∀ c1,
        g (r.contributor r.toSettings c1 p).cluster = g c1 := by
      intro β g hg c1
      rcases h2 with h | h
      · rw [h]; rfl
      · rw [h]; exact ReconcileContributor_frame g hg _ _ _
    have hfr3 : ∀ {β : Type} (g : Cluster → β),
        (∀ c l, g (resourceQuotaOps.setItems c l) = g c) → ∀ c1,
        g (r.resourceQuota r.toSettings c1 p).cluster = g c1 := by
      intro β g hg c1
      rcases h3 with h | h
      · rw [h]; rfl
      · rw [h]; exact ReconcileResourceQuota_frame g hg _ _ _
    have hfr4 : ∀ {β : Type} (g : Cluster → β),
        (∀ c l, g (authorizationPolicyOps.setItems c l) = g c) → ∀ c1,
        g (r.istio r.toSettings c1 p).cluster = g c1 := by
      intro β g hg c1
      rcases h4 with h | h
      · rw [h]; rfl
      · rw [h]; exact ReconcileIstioAuthorizationPolicy_frame g hg _ _ _
    rw [hrun] at hns hco hrq hap
    apply loop_unchanged
    intro f hf
    simp only [List.mem_cons, List.mem_singleton, List.not_mem_nil, or_false] at hf
    rcases hf with hf | hf | hf | hf
    · rw [hf]
      rcases h1 with h | h
      · rw [h]; rfl
      · rw [h] at he1 hst hns ⊢
        obtain ⟨o, hlook, hfix⟩ := ReconcileNamespace_settled r.toSettings c p he1 hst
        apply ReconcileNamespace_fixed r.toSettings c2 p o _ hfix
        rw [← hlook]
        apply lookupObj_items namespaceOps
        show c2.namespaces = _
        rw [hns, hfr4 (fun c => c.namespaces) (fun _ _ => rfl),
          hfr3 (fun c => c.namespaces) (fun _ _ => rfl),
          hfr2 (fun c => c.namespaces) (fun _ _ => rfl)]
        rfl
    · rw [hf]
      rcases h2 with h | h
      · rw [h]; rfl
      · rw [h] at he2 ⊢
        apply ReconcileContributor_settles _ _ c2 p he2
        rw [hco, hfr4 (fun c => c.contributors) (fun _ _ => rfl),
          hfr3 (fun c => c.contributors) (fun _ _ => rfl), h]
    · rw [hf]
      rcases h3 with h | h
      · rw [h]; rfl
      · rw [h] at he3 ⊢
        apply ReconcileResourceQuota_settles _ _ c2 p he3
        rw [hrq, hfr4 (fun c => c.resourceQuotas) (fun _ _ => rfl), h]
    · rw [hf]
      rcases h4 with h | h
      · rw [h]; rfl
      · rw [h] at he4 ⊢
        apply ReconcileIstioAuthorizationPolicy_settles _ _ c2 p he4
        rw [hap, h]

/-- A pass that gets past the roster: either `Reconcile` left the store as it was, or the
Profile was read, the Contributors were listed and the status was patched. -/
theorem Reconcile_cases (r : Reconciler) (c : Cluster) (req : ObjectKey) :
    (Reconcile r c req).cluster = c ∨
      ∃ p, clientGet profileOps c req = .ok p ∧ faultOf c .list .contributor = none ∧
        faultOf c .patchStatus .profile = none := by
  cases hg : clientGet profileOps c req with
  | error e =>
    left
    unfold Reconcile
    rw [hg]
  | ok p =>
    cases hfl : faultOf c .list .contributor with
    | some e =>
      left
      have : clientList contributorOps c (some p.metadata.name) [] = .error e := by
        unfold clientList
        have h : faultOf c .list contributorOps.kind = some e := hfl
        rw [h]
      unfold Reconcile
      rw [hg]
      dsimp only
      rw [this]
    | none =>
      cases hfp : faultOf c .patchStatus .profile with
      | some e =>
        left
        unfold Reconcile
        rw [hg]
        dsimp only
        rw [clientList_contributors hfl]
        dsimp only
        unfold patchStatus
        rw [hfp]
      | none => exact Or.inr ⟨p, rfl, rfl, rfl⟩

/-- The Profile that a pass leaves in the store: the one it read, with the new roster. -/
theorem Reconcile_stored (r : Reconciler) (hsteps : PackageSteps r) (c : Cluster)
    (req : ObjectKey) (p : Profile)
    (hprofile : clientGet profileOps c req = .ok p)
    (hlist : faultOf c .list .contributor = none)
    (hpatch : faultOf c .patchStatus .profile = none) :
    lookupObj profileOps (Reconcile r c req).cluster req
      = some (setRoster p (roster (c.contributors.filter
          (fun o => decide (o.metadata.ns = p.metadata.name))))) := by
  obtain ⟨_, hlp⟩ := clientGet_ok hprofile
  have hname : p.metadata.name = req.2 := by
    have := lookupObj_hasKey hlp
    simpa [hasKey, profileOps] using this
  have hself : lookupObj profileOps c (keyOf p.metadata) = some p := by
    rw [lookupObj_profile_name c (keyOf p.metadata) req hname]
    exact hlp
  rw [Reconcile_steps r c req p hprofile hlist hpatch]
  generalize roster (c.contributors.filter
    (fun o => decide (o.metadata.ns = p.metadata.name))) = names
  have hprof := runFuncs_profiles r.toSettings (setRoster p names)
    [r.namespaceFn, r.contributor, r.resourceQuota, r.istio]
    (replaceObj profileOps c (setRoster p names)) (packageSteps_profiles r hsteps _)
  rw [lookupObj_items profileOps (replaceObj profileOps c (setRoster p names)) _ req hprof,
    ← lookupObj_profile_name _ (keyOf p.metadata) req hname]
  exact lookupObj_replaceObj profileOps_lawful hself rfl

/-- After a Profile pass without error, a second pass leaves the store as the first left
it, or as the first left it but for the roster of the Profile. -/
theorem Reconcile_again (r : Reconciler) (hsteps : PackageSteps r) (c : Cluster)
    (req : ObjectKey) (hok : (Reconcile r c req).err = none) :
    (Reconcile r (Reconcile r c req).cluster req).cluster = (Reconcile r c req).cluster ∨
    ∃ p2, (Reconcile r (Reconcile r c req).cluster req).cluster
      = replaceObj profileOps (Reconcile r c req).cluster p2 := by
  rcases Reconcile_cases r c req with h1 | ⟨p, hg, hfl, hfp⟩
  · left
    simp only [h1]
  · have hstored := Reconcile_stored r hsteps c req p hg hfl hfp
    have hsteps1 := Reconcile_steps r c req p hg hfl hfp
    rw [hsteps1] at hok
    generalize hc1 : (Reconcile r c req).cluster = c1 at hstored ⊢
    rcases Reconcile_cases r c1 req with h2 | ⟨p2, hg2, hfl2, hfp2⟩
    · exact Or.inl h2
    · right
      have hp2 : p2 = setRoster p (roster (c.contributors.filter
          (fun o => decide (o.metadata.ns = p.metadata.name)))) := by
        have := (clientGet_ok hg2).2
        rw [hstored] at this
        exact (Option.some.inj this).symm
      refine ⟨setRoster p2 (roster (c1.contributors.filter
        (fun o => decide (o.metadata.ns = p2.metadata.name)))), ?_⟩
      rw [Reconcile_steps r c1 req p2 hg2 hfl2 hfp2]
      have hcongr : ∀ f ∈ [r.namespaceFn, r.contributor, r.resourceQuota, r.istio], ∀ c0,
          f r.toSettings c0 (setRoster p2 (roster (c1.contributors.filter
            (fun o => decide (o.metadata.ns = p2.metadata.name)))))
          = f r.toSettings c0 (setRoster p (roster (c.contributors.filter
            (fun o => decide (o.metadata.ns = p.metadata.name))))) := by
        intro f hf c0
        rw [packageStep_status r hsteps p2 _ f hf c0, hp2,
          packageStep_status r hsteps p _ f hf c0]
      rw [loop_congr _ _ _ _ _ hcongr]
      rw [← hc1, hsteps1]
      apply runFuncs_again r hsteps _ _ _ hok <;> rfl

end profile

end KPM

namespace KPM

namespace contributor

/-! ### Idempotence of a pass -/

/-- Claim C23: for reconcilers built from the steps of the packages, after a Profile pass
without error a second pass on the store that the first one left changes no namespace, no
Contributor, no resource quota, no authorization policy, no service account and no role
binding (only the roster in the status of the Profile can change); after a Contributor
pass without error a second pass leaves the whole store as the first one left it. -/
theorem c23_second_pass_keeps_derived (rp : profile.Reconciler) (rc : Reconciler)
    (c : Cluster) (req : ObjectKey)
    (hp : profile.PackageSteps rp) (hc : PackageSteps rc) :
    ((profile.Reconcile rp c req).err = none →
      (profile.Reconcile rp (profile.Reconcile rp c req).cluster req).cluster.namespaces
        = (profile.Reconcile rp c req).cluster.namespaces ∧
      (profile.Reconcile rp (profile.Reconcile rp c req).cluster req).cluster.contributors
        = (profile.Reconcile rp c req).cluster.contributors ∧
      (profile.Reconcile rp (profile.Reconcile rp c req).cluster req).cluster.resourceQuotas
        = (profile.Reconcile rp c req).cluster.resourceQuotas ∧
      (profile.Reconcile rp (profile.Reconcile rp c req).cluster
          req).cluster.authorizationPolicies
        = (profile.Reconcile rp c req).cluster.authorizationPolicies ∧
      (profile.Reconcile rp (profile.Reconcile rp c req).cluster req).cluster.serviceAccounts
        = (profile.Reconcile rp c req).cluster.serviceAccounts ∧
      (profile.Reconcile rp (profile.Reconcile rp c req).cluster req).cluster.roleBindings
        = (profile.Reconcile rp c req).cluster.roleBindings) ∧
    ((Reconcile rc c req).err = none →
      (Reconcile rc (Reconcile rc c req).cluster req).cluster = (Reconcile rc c req).cluster) := by
  constructor
  · intro hok
    rcases profile.Reconcile_again rp hp c req hok with h | ⟨p2, h⟩
    · rw [h]
      exact ⟨rfl, rfl, rfl, rfl, rfl, rfl⟩
    · rw [h]
      exact ⟨rfl, rfl, rfl, rfl, rfl, rfl⟩
  · intro hok
    exact pass_again rc c req hc hok

set_option maxRecDepth 100000 in
/-- Witness of C23: two passes of the reconciler of `Setup`, with every feature on, over
the profile "starlord" in a store that holds nothing else. -/
theorem c23_second_pass_keeps_derived_witness :
    (profile.Reconcile (profile.NewReconciler (profile.SetupOptions [] true false true))
        (profile.Reconcile (profile.NewReconciler (profile.SetupOptions [] true false true))
          { profiles := [profile.starlord] } ("", "starlord")).cluster
        ("", "starlord")).cluster.contributors
      = (profile.Reconcile (profile.NewReconciler (profile.SetupOptions [] true false true))
          { profiles := [profile.starlord] } ("", "starlord")).cluster.contributors :=
  ((c23_second_pass_keeps_derived
    (profile.NewReconciler (profile.SetupOptions [] true false true))
    (NewReconciler (SetupOptions [] true true))
    { profiles := [profile.starlord] } ("", "starlord")
    ⟨Or.inr rfl, Or.inr rfl, Or.inr rfl, Or.inr rfl⟩
    ⟨Or.inr rfl, Or.inr rfl, Or.inr rfl⟩).1 (by decide)).2.1

end contributor

end KPM

namespace KPM

theorem faultOf_local (c c2 : Cluster) (hfaults : c2.faults = c.faults) (v : Verb) (k : Kind) :
    faultOf c2 v k = faultOf c v k := by
  unfold faultOf
  rw [hfaults]

/-- An upsert without error of an object that is not in the store appends the mutated
skeleton. -/
theorem createOrWrite_created {α : Type} [DecidableEq α] (v : Verb) (ops : KindOps α)
    (c : Cluster) (obj : α) (f : α → Except Err α)
    (hnone : lookupObj ops c (keyOf (ops.meta obj)) = none)
    (hok : (createOrWrite v ops c obj f).err = none) :
    ∃ obj', f obj = .ok obj' ∧ keyOf (ops.meta obj') = keyOf (ops.meta obj) ∧
      (createOrWrite v ops c obj f).cluster = ops.setItems c (ops.items c ++ [obj']) := by
  unfold createOrWrite at hok ⊢
  cases hg : clientGet ops c (keyOf (ops.meta obj)) with
  | error e =>
    simp only [hg] at hok ⊢
    by_cases hnf : IsNotFound e = true
    · simp only [hnf, Bool.not_true, Bool.false_eq_true, if_false] at hok ⊢
      cases hm : mutate ops f (keyOf (ops.meta obj)) obj with
      | error e' => simp [hm] at hok
      | ok obj' =>
        simp only [hm] at hok ⊢
        cases hc : clientCreate ops c obj' with
        | error e' => simp [hc] at hok
        | ok c' =>
          obtain ⟨hf, hk⟩ := mutate_ok hm
          exact ⟨obj', hf, hk, (clientCreate_ok hc).2⟩
    · simp [hnf] at hok
  | ok cur =>
    have := (clientGet_ok hg).2
    rw [hnone] at this
    cases this

namespace profile

theorem loop_frame {β : Type} (g : Cluster → β) (s : Settings) (p : Profile) :
    ∀ (fs : List ReconcileFunc) (c : Cluster),
      (∀ f ∈ fs, ∀ c, g (f s c p).cluster = g c) → g (runFuncs s fs c p).cluster = g c := by
  intro fs
  induction fs with
  | nil => intro c _; rfl
  | cons f t ih =>
    intro c hfs
    have hf := hfs f (List.mem_cons_self _ _) c
    unfold runFuncs
    dsimp only
    split
    · exact hf
    · split
      · exact hf
      · rw [ih _ (fun g hg => hfs g (List.mem_cons_of_mem _ hg)), hf]

/-- What no step of the package writes stays as it is over the four steps. -/
theorem packageSteps_frame {β : Type} (g : Cluster → β) (r : Reconciler)
    (hsteps : PackageSteps r) (p : Profile)
    (g1 : ∀ c l, g (namespaceOps.setItems c l) = g c)
    (g2 : ∀ c l, g (contributorOps.setItems c l) = g c)
    (g3 : ∀ c l, g (resourceQuotaOps.setItems c l) = g c)
    (g4 : ∀ c l, g (authorizationPolicyOps.setItems c l) = g c) :
    ∀ f ∈ [r.namespaceFn, r.contributor, r.resourceQuota, r.istio], ∀ c,
      g (f r.toSettings c p).cluster = g c := by
  obtain ⟨h1, h2, h3, h4⟩ := hsteps
  intro f hf c
  simp only [List.mem_cons, List.mem_singleton, List.not_mem_nil, or_false] at hf
  rcases hf with hf | hf | hf | hf
  · rcases h1 with h | h
    · rw [hf, h]; rfl
    · rw [hf, h]; exact ReconcileNamespace_frame g g1 _ _ _
  · rcases h2 with h | h
    · rw [hf, h]; rfl
    · rw [hf, h]; exact ReconcileContributor_frame g g2 _ _ _
  · rcases h3 with h | h
    · rw [hf, h]; rfl
    · rw [hf, h]; exact ReconcileResourceQuota_frame g g3 _ _ _
  · rcases h4 with h | h
    · rw [hf, h]; rfl
    · rw [hf, h]; exact ReconcileIstioAuthorizationPolicy_frame g g4 _ _ _

/-- A pass that read the Profile and ended without error listed the Contributors and
patched the status. -/
theorem Reconcile_ok_faults (r : Reconciler) (c : Cluster) (req : ObjectKey) (p : Profile)
    (hget : clientGet profileOps c req = .ok p) (hok : (Reconcile r c req).err = none) :
    faultOf c .list .contributor = none ∧ faultOf c .patchStatus .profile = none := by
  cases hfl : faultOf c .list .contributor with
  | some e =>
    have : clientList contributorOps c (some p.metadata.name) [] = .error e := by
      unfold clientList
      have h : faultOf c .list contributorOps.kind = some e := hfl
      rw [h]
    unfold Reconcile at hok
    rw [hget] at hok
    dsimp only at hok
    rw [this] at hok
    cases hok
  | none =>
    cases hfp : faultOf c .patchStatus .profile with
    | some e =>
      unfold Reconcile at hok
      rw [hget] at hok
      dsimp only at hok
      rw [clientList_contributors hfl] at hok
      dsimp only at hok
      unfold patchStatus at hok
      rw [hfp] at hok
      cases hok
    | none => exact ⟨rfl, rfl⟩

/-- The pass of a reconciler of the package, once the roster is stored: the four steps,
run for the Profile as it was read. -/
theorem Reconcile_run (r : Reconciler) (hsteps : PackageSteps r) (c : Cluster)
    (req : ObjectKey) (p : Profile)
    (hget : clientGet profileOps c req = .ok p)
    (hlist : faultOf c .list .contributor = none)
    (hpatch : faultOf c .patchStatus .profile = none) :
    Reconcile r c req = runFuncs r.toSettings
      [r.namespaceFn, r.contributor, r.resourceQuota, r.istio]
      (replaceObj profileOps c (setRoster p (roster (c.contributors.filter
        (fun o => decide (o.metadata.ns = p.metadata.name)))))) p := by
  rw [Reconcile_steps r c req p hget hlist hpatch]
  exact loop_congr _ _ _ _ _ (packageStep_status r hsteps p _)

theorem ReconcileNamespace_stop_read (s : Settings) (c : Cluster) (p : Profile)
    (hres : (ReconcileNamespace s c p).res = Stop) :
    ∃ nsObj, clientGet namespaceOps c (keyOf p.metadata) = .ok nsObj := by
  unfold ReconcileNamespace at hres
  dsimp only at hres
  cases hg : clientGet namespaceOps c (keyOf p.metadata) with
  | error e =>
    simp only [hg] at hres
    split at hres
    · exact absurd hres (createOrWrite_res_ne_stop _ _ _ _ _)
    · simp [OperationResultNone, Stop] at hres
  | ok nsObj => exact ⟨nsObj, rfl⟩

/-- The owner Contributor step on a store without Contributors in the namespace of the
Profile's name: the Contributor of the owner is appended. -/
theorem ReconcileContributor_creates (s : Settings) (c : Cluster) (p : Profile)
    (hkind : p.spec.owner.kind = UserKind)
    (hnoc : ∀ o ∈ c.contributors, o.metadata.ns ≠ p.metadata.name)
    (hok : (ReconcileContributor s c p).err = none) :
    ∃ co, (ReconcileContributor s c p).cluster.contributors = c.contributors ++ [co] ∧
      co.metadata.name = p.metadata.name ∧ co.metadata.ns = p.metadata.name ∧
      co.spec.role = ContributorRoleOwner ∧ co.spec.name = p.spec.owner.name := by
  unfold ReconcileContributor at hok ⊢
  simp only [hkind, ne_eq, not_true_eq_false, if_false] at hok ⊢
  have hnone : lookupObj contributorOps c (p.metadata.name, p.metadata.name) = none := by
    unfold lookupObj
    rw [List.find?_eq_none]
    intro o ho
    have := hnoc o ho
    simp [hasKey, contributorOps, this]
  obtain ⟨co, hf, hkey, hcl⟩ :=
    createOrWrite_created .patch contributorOps c
      ({ metadata := { name := p.metadata.name, ns := p.metadata.name } } : Contributor) _
      hnone (Wrap_none hok)
  refine ⟨co, ?_, congrArg Prod.snd hkey, congrArg Prod.fst hkey, ?_⟩
  · show (CreateOrPatch contributorOps c _ _).cluster.contributors = _
    unfold CreateOrPatch
    rw [hcl]
    rfl
  · dsimp only at hf
    cases hs : SetControllerReference profileGVK p.metadata
        ({ name := p.metadata.name, ns := p.metadata.name } : ObjectMeta) with
    | error e => simp [hs] at hf
    | ok m =>
      simp only [hs] at hf
      cases hf
      exact ⟨rfl, rfl⟩

theorem roster_single (co : Contributor) : roster [co] = [co.metadata.name] := by
  simp [roster, setInsert, setList]

/-! ### The roster is one pass behind -/

/-- Claim C29: for a reconciler of the package with the owner Contributor step, a Profile
whose owner is of kind "User", no namespace of the Profile's name and no Contributor in
that namespace, after a first pass without error the stored Profile has an empty
`status.contributors` although the owner Contributor now exists, and the pass after that
stores `status.contributors` = [name of the Profile]. -/
theorem c29_roster_lags_one_pass (r : Reconciler) (c : Cluster) (req : ObjectKey) (p : Profile)
    (hsteps : PackageSteps r) (hcontrib : r.contributor = ReconcileContributor)
    (hget : clientGet profileOps c req = .ok p)
    (hkind : p.spec.owner.kind = UserKind)
    (hnons : lookupObj namespaceOps c (keyOf p.metadata) = none)
    (hnoc : ∀ o ∈ c.contributors, o.metadata.ns ≠ p.metadata.name)
    (hok : (Reconcile r c req).err = none) :
    (∃ p1, lookupObj profileOps (Reconcile r c req).cluster req = some p1 ∧
      p1.status.contributors = []) ∧
    (∃ co, lookupObj contributorOps (Reconcile r c req).cluster
        (p.metadata.name, p.metadata.name) = some co ∧
      co.spec.role = ContributorRoleOwner ∧ co.spec.name = p.spec.owner.name) ∧
    (∃ p2, lookupObj profileOps (Reconcile r (Reconcile r c req).cluster req).cluster req
        = some p2 ∧
      p2.status.contributors = [p.metadata.name]) := by
  obtain ⟨hfl, hfp⟩ := Reconcile_ok_faults r c req p hget hok
  have hstored := Reconcile_stored r hsteps c req p hget hfl hfp
  have hrun := Reconcile_run r hsteps c req p hget hfl hfp
  have hfilter : c.contributors.filter (fun o => decide (o.metadata.ns = p.metadata.name))
      = [] := by
    rw [List.filter_eq_nil_iff]
    intro o ho
    simpa using hnoc o ho
  rw [hfilter] at hstored hrun
  rw [hrun] at hok
  have hfaults : (Reconcile r c req).cluster.faults = c.faults := by
    rw [hrun]
    exact loop_frame (fun c => c.faults) _ _ _ _
      (packageSteps_frame (fun c => c.faults) r hsteps p (fun _ _ => rfl) (fun _ _ => rfl)
        (fun _ _ => rfl) (fun _ _ => rfl))
  rcases runFuncs_ok_chain r hsteps _ p hok with ⟨hfn, hstop, _⟩ | ⟨he1, hst, he2, he3, he4, hcl⟩
  · obtain ⟨nsObj, hread⟩ := ReconcileNamespace_stop_read _ _ _ hstop
    have := (clientGet_ok hread).2
    have hsame : lookupObj namespaceOps (replaceObj profileOps c (setRoster p (roster [])))
        (keyOf p.metadata) = lookupObj namespaceOps c (keyOf p.metadata) := rfl
    rw [hsame, hnons] at this
    cases this
  · obtain ⟨h1, h2, h3, h4⟩ := hsteps
    rw [hcontrib] at he2
    have hc1 : (r.namespaceFn r.toSettings (replaceObj profileOps c (setRoster p (roster [])))
        p).cluster.contributors = c.contributors := by
      rcases h1 with h | h
      · rw [h]; rfl
      · rw [h]
        exact ReconcileNamespace_frame (fun c => c.contributors) (fun _ _ => rfl) _ _ _
    obtain ⟨co, hco, hname, hns, hrole, hspec⟩ :=
      ReconcileContributor_creates r.toSettings _ p hkind (by rw [hc1]; exact hnoc) he2
    have hcontribs : (Reconcile r c req).cluster.contributors = c.contributors ++ [co] := by
      rw [hrun, hcl]
      have e4 : ∀ c1, (r.istio r.toSettings c1 p).cluster.contributors = c1.contributors := by
        intro c1
        rcases h4 with h | h
        · rw [h]; rfl
        · rw [h]
          exact ReconcileIstioAuthorizationPolicy_frame (fun c => c.contributors)
            (fun _ _ => rfl) _ _ _
      have e3 : ∀ c1, (r.resourceQuota r.toSettings c1 p).cluster.contributors
          = c1.contributors := by
        intro c1
        rcases h3 with h | h
        · rw [h]; rfl
        · rw [h]
          exact ReconcileResourceQuota_frame (fun c => c.contributors) (fun _ _ => rfl) _ _ _
      rw [e4, e3, hcontrib, hco, hc1]
    have hfilter2 : (Reconcile r c req).cluster.contributors.filter
        (fun o => decide (o.metadata.ns = p.metadata.name)) = [co] := by
      rw [hcontribs, List.filter_append, hfilter]
      simp [hns]
    refine ⟨⟨_, hstored, rfl⟩, ⟨co, ?_, hrole, hspec⟩, ?_⟩
    · unfold lookupObj
      show List.find? _ (Reconcile r c req).cluster.contributors = _
      rw [hcontribs, List.find?_append]
      have hnone : List.find? (hasKey contributorOps (p.metadata.name, p.metadata.name))
          c.contributors = none := by
        rw [List.find?_eq_none]
        intro o ho
        have := hnoc o ho
        simp [hasKey, contributorOps, this]
      rw [hnone]
      simp [hasKey, contributorOps, hname, hns]
    · have hget2 : clientGet profileOps (Reconcile r c req).cluster req
          = .ok (setRoster p (roster [])) := by
        apply clientGet_of_lookup _ hstored
        have := (clientGet_ok hget).1
        rw [← this]
        exact faultOf_local _ _ hfaults _ _
      have hfl2 : faultOf (Reconcile r c req).cluster .list .contributor = none := by
        rw [← hfl]
        exact faultOf_local _ _ hfaults _ _
      have hfp2 : faultOf (Reconcile r c req).cluster .patchStatus .profile = none := by
        rw [← hfp]
        exact faultOf_local _ _ hfaults _ _
      have hstored2 := Reconcile_stored r ⟨h1, h2, h3, h4⟩ _ req _ hget2 hfl2 hfp2
      refine ⟨_, hstored2, ?_⟩
      show roster ((Reconcile r c req).cluster.contributors.filter
        (fun o => decide (o.metadata.ns = p.metadata.name))) = [p.metadata.name]
      rw [hfilter2, roster_single, hname]

set_option maxRecDepth 100000 in
/-- Witness of C29: the reconciler of `Setup` on a store that holds the profile
"starlord" and nothing else. -/
theorem c29_roster_lags_one_pass_witness :
    (∃ p1, lookupObj profileOps
        (Reconcile (NewReconciler (SetupOptions [] true false true))
          { profiles := [starlord] } ("", "starlord")).cluster ("", "starlord") = some p1 ∧
      p1.status.contributors = []) ∧
    (∃ p2, lookupObj profileOps
        (Reconcile (NewReconciler (SetupOptions [] true false true))
          (Reconcile (NewReconciler (SetupOptions [] true false true))
            { profiles := [starlord] } ("", "starlord")).cluster
          ("", "starlord")).cluster ("", "starlord") = some p2 ∧
      p2.status.contributors = ["starlord"]) :=
  match c29_roster_lags_one_pass (NewReconciler (SetupOptions [] true false true))
      { profiles := [starlord] } ("", "starlord") starlord
      ⟨Or.inr rfl, Or.inr rfl, Or.inr rfl, Or.inr rfl⟩ rfl (by decide) rfl (by decide)
      (fun _ ho => by cases ho) (by decide) with
  | ⟨h1, _, h3⟩ => ⟨h1, h3⟩

end profile

end KPM

namespace KPM

/-! ### One Owner per namespace -/

theorem OwnersNamed_append (l : List Contributor) (co : Contributor) (h : OwnersNamed l)
    (hnew : lookupObj contributorOps { contributors := l } (keyOf co.metadata) = none)
    (hco : co.spec.role = ContributorRoleOwner → co.metadata.name = co.metadata.ns) :
    OwnersNamed (l ++ [co]) := by
  obtain ⟨hnd, hrole⟩ := h
  constructor
  · rw [List.map_append, List.nodup_append]
    refine ⟨hnd, by simp, ?_⟩
    intro k hk1 hk2
    simp only [List.map_cons, List.map_nil, List.mem_singleton] at hk2
    obtain ⟨o, ho, hok⟩ := List.mem_map.mp hk1
    unfold lookupObj at hnew
    rw [List.find?_eq_none] at hnew
    have h1 := hnew o ho
    have h2 : hasKey contributorOps (keyOf co.metadata) o = true :=
      (hasKey_namespaced contributorOps rfl _ o).mpr (by rw [← hk2]; exact hok)
    exact h1 h2
  · intro o ho
    rcases List.mem_append.mp ho with h1 | h1
    · exact hrole o h1
    · rw [List.mem_singleton] at h1
      rw [h1]
      exact hco

theorem OwnersNamed_replace (l : List Contributor) (co : Contributor) (h : OwnersNamed l)
    (hco : co.spec.role = ContributorRoleOwner → co.metadata.name = co.metadata.ns) :
    OwnersNamed (l.map (fun o => if hasKey contributorOps (keyOf co.metadata) o then co else o)) := by
  obtain ⟨hnd, hrole⟩ := h
  constructor
  · have hkeys : (l.map (fun o => if hasKey contributorOps (keyOf co.metadata) o then co
        else o)).map (fun o => keyOf o.metadata) = l.map (fun o => keyOf o.metadata) := by
      rw [List.map_map]
      apply List.map_congr_left
      intro o _
      by_cases hk : hasKey contributorOps (keyOf co.metadata) o = true
      · have := (hasKey_namespaced contributorOps rfl _ o).mp hk
        simp only [Function.comp, hk, if_true]
        exact this.symm
      · simp [Function.comp, hk]
    rw [hkeys]
    exact hnd
  · intro o ho
    obtain ⟨o0, ho0, heq⟩ := List.mem_map.mp ho
    by_cases hk : hasKey contributorOps (keyOf co.metadata) o0 = true
    · simp only [hk, if_true] at heq
      rw [← heq]
      exact hco
    · simp only [hk, Bool.false_eq_true, if_false] at heq
      rw [← heq]
      exact hrole o0 ho0

theorem OwnersNamed_filter (l : List Contributor) (q : Contributor → Bool) (h : OwnersNamed l) :
    OwnersNamed (l.filter q) := by
  obtain ⟨hnd, hrole⟩ := h
  constructor
  · exact List.Nodup.sublist ((List.filter_sublist l).map _) hnd
  · intro o ho
    exact hrole o (List.mem_filter.mp ho).1

/-- Under the invariant a namespace has at most one Contributor with role Owner. -/
theorem OwnersNamed_owners (c : Cluster) (h : OwnersNamed c.contributors) (n : String) :
    (ownersIn c n).length ≤ 1 := by
  have hF := OwnersNamed_filter c.contributors
    (fun o => decide (o.metadata.ns = n) && decide (o.spec.role = ContributorRoleOwner)) h
  have hkey : ∀ o ∈ ownersIn c n, keyOf o.metadata = (n, n) := by
    intro o ho
    have hm := List.mem_filter.mp ho
    have h2 : o.metadata.ns = n ∧ o.spec.role = ContributorRoleOwner := by
      simpa using hm.2
    have h3 := h.2 o hm.1 h2.2
    simp [keyOf, h2.1, h3]
  unfold ownersIn at hkey ⊢
  cases hl : c.contributors.filter
      (fun o => decide (o.metadata.ns = n) && decide (o.spec.role = ContributorRoleOwner)) with
  | nil => simp
  | cons a t =>
    cases t with
    | nil => simp
    | cons b t2 =>
      rw [hl] at hF hkey
      have ha := hkey a (by simp)
      have hb := hkey b (by simp)
      have hnd := hF.1
      simp only [List.map_cons, List.nodup_cons, List.mem_cons, not_or] at hnd
      exact absurd (ha.trans hb.symm) hnd.1.1

/-- An upsert of a Contributor named after its namespace keeps the invariant. -/
theorem createOrWrite_owners (v : Verb) (c : Cluster) (obj : Contributor)
    (f : Contributor → Except Err Contributor) (h : OwnersNamed c.contributors)
    (hobj : obj.metadata.name = obj.metadata.ns) :
    OwnersNamed (createOrWrite v contributorOps c obj f).cluster.contributors := by
  rcases createOrWrite_shape v contributorOps c obj f with hc | ⟨co, hk, hc | hc⟩
  · rw [hc]
    exact h
  · rw [hc.2]
    apply OwnersNamed_append _ _ h
    · have h1 := hc.1
      rw [← hk] at h1
      exact h1
    · intro _
      have h1 : co.metadata.ns = obj.metadata.ns := congrArg Prod.fst hk
      have h2 : co.metadata.name = obj.metadata.name := congrArg Prod.snd hk
      rw [h1, h2, hobj]
  · rw [hc]
    apply OwnersNamed_replace _ _ h
    intro _
    have h1 : co.metadata.ns = obj.metadata.ns := congrArg Prod.fst hk
    have h2 : co.metadata.name = obj.metadata.name := congrArg Prod.snd hk
    rw [h1, h2, hobj]

namespace profile

theorem loop_invariant (P : Cluster → Prop) (s : Settings) (p : Profile) :
    ∀ (fs : List ReconcileFunc) (c : Cluster),
      (∀ f ∈ fs, ∀ c, P c → P (f s c p).cluster) → P c → P (runFuncs s fs c p).cluster := by
  intro fs
  induction fs with
  | nil => intro c _ h; exact h
  | cons f t ih =>
    intro c hfs hc
    have hf := hfs f (List.mem_cons_self _ _) c hc
    unfold runFuncs
    dsimp only
    split
    · exact hf
    · split
      · exact hf
      · exact ih _ (fun g hg => hfs g (List.mem_cons_of_mem _ hg)) hf

/-- The owner Contributor step keeps the invariant of the Contributors. -/
theorem ReconcileContributor_invariant (s : Settings) (c : Cluster) (p : Profile)
    (h : OwnersNamed c.contributors) :
    OwnersNamed (ReconcileContributor s c p).cluster.contributors := by
  unfold ReconcileContributor
  split
  · exact h
  · exact createOrWrite_owners .patch c _ _ h rfl

/-- A Profile pass keeps the invariant of the Contributors. -/
theorem Reconcile_invariant (r : Reconciler) (hsteps : PackageSteps r) (c : Cluster)
    (req : ObjectKey) (h : OwnersNamed c.contributors) :
    OwnersNamed (Reconcile r c req).cluster.contributors := by
  rcases Reconcile_cases r c req with h1 | ⟨p, hg, hfl, hfp⟩
  · rw [h1]
    exact h
  · rw [Reconcile_run r hsteps c req p hg hfl hfp]
    apply loop_invariant (fun c => OwnersNamed c.contributors)
    · obtain ⟨h1, h2, h3, h4⟩ := hsteps
      intro f hf c0 hc0
      simp only [List.mem_cons, List.mem_singleton, List.not_mem_nil, or_false] at hf
      rcases hf with hf | hf | hf | hf
      · rcases h1 with h | h
        · rw [hf, h]; exact hc0
        · rw [hf, h]
          show OwnersNamed _
          rw [ReconcileNamespace_frame (fun c => c.contributors) (fun _ _ => rfl)]
          exact hc0
      · rcases h2 with h | h
        · rw [hf, h]; exact hc0
        · rw [hf, h]; exact ReconcileContributor_invariant _ _ _ hc0
      · rcases h3 with h | h
        · rw [hf, h]; exact hc0
        · rw [hf, h]
          show OwnersNamed _
          rw [ReconcileResourceQuota_frame (fun c => c.contributors) (fun _ _ => rfl)]
          exact hc0
      · rcases h4 with h | h
        · rw [hf, h]; exact hc0
        · rw [hf, h]
          show OwnersNamed _
          rw [ReconcileIstioAuthorizationPolicy_frame (fun c => c.contributors)
            (fun _ _ => rfl)]
          exact hc0
    · exact h

end profile

namespace contributor

theorem steps_frame {β : Type} (g : Cluster → β) (s : Settings) (co : Contributor) :
    ∀ (fs : List ReconcileFunc) (c : Cluster),
      (∀ f ∈ fs, ∀ c, g (f s c co).cluster = g c) → g (runFuncs s fs c co).cluster = g c := by
  intro fs
  induction fs with
  | nil => intro c _; rfl
  | cons f t ih =>
    intro c hfs
    have hf := hfs f (List.mem_cons_self _ _) c
    unfold runFuncs
    dsimp only
    split
    · exact hf
    · rw [ih _ (fun g hg => hfs g (List.mem_cons_of_mem _ hg)), hf]

/-- A Contributor pass writes no Contributor. -/
theorem Reconcile_contributors (r : Reconciler) (hsteps : PackageSteps r) (c : Cluster)
    (req : ObjectKey) : (Reconcile r c req).cluster.contributors = c.contributors := by
  unfold Reconcile
  cases hg : clientGet contributorOps c req with
  | error e => rfl
  | ok co =>
    dsimp only
    apply steps_frame (fun c => c.contributors)
    obtain ⟨h1, h2, h3⟩ := hsteps
    intro f hf c0
    simp only [List.mem_cons, List.mem_singleton, List.not_mem_nil, or_false] at hf
    rcases hf with hf | hf | hf
    · rcases h1 with h | h
      · rw [hf, h]; rfl
      · rw [hf, h]
        exact ReconcileServiceAccount_frame (fun c => c.contributors) (fun _ _ => rfl) _ _ _
    · rcases h2 with h | h
      · rw [hf, h]; rfl
      · rw [hf, h]
        exact ReconcileRoleBinding_frame (fun c => c.contributors) (fun _ _ => rfl) _ _ _
    · rcases h3 with h | h
      · rw [hf, h]; rfl
      · rw [hf, h]
        exact policy_frame (fun c => c.contributors)
          (fun _ _ => rfl) _ _ _

end contributor

namespace access

theorem CreateProfile_contributors (m : manager) (cl : Cluster) (ctx : Context) :
    (CreateProfile m cl ctx).cluster.contributors = cl.contributors := by
  unfold CreateProfile
  cases ctx.profile with
  | none => rfl
  | some p =>
    dsimp only
    cases hc : clientCreate profileOps cl p with
    | error e => dsimp only; split <;> rfl
    | ok cl' =>
      rw [(clientCreate_ok hc).2]
      rfl

theorem RemoveProfile_contributors (m : manager) (cl : Cluster) (ctx : Context) :
    (RemoveProfile m cl ctx).cluster.contributors = cl.contributors := by
  unfold RemoveProfile
  dsimp only
  cases clientGet profileOps cl ("", Param ctx "profile") with
  | error e => dsimp only; split <;> rfl
  | ok p =>
    dsimp only
    cases clientList contributorOps cl (some p.metadata.name) [] with
    | error e => rfl
    | ok items =>
      dsimp only
      split
      · rfl
      · cases hd : clientDelete profileOps cl (keyOf p.metadata) with
        | error e => dsimp only; split <;> rfl
        | ok cl' =>
          dsimp only
          unfold clientDelete at hd
          cases hf : faultOf cl .delete profileOps.kind with
          | some e => simp [hf] at hd
          | none =>
            simp only [hf] at hd
            cases hl : lookupObj profileOps cl (keyOf p.metadata) with
            | none => simp [hl] at hd
            | some x =>
              simp only [hl] at hd
              cases hd
              rfl

theorem AddContributor_invariant (m : manager) (cl : Cluster) (ctx : Context)
    (h : OwnersNamed cl.contributors) :
    OwnersNamed (AddContributor m cl ctx).cluster.contributors := by
  unfold AddContributor
  cases ctx.binding with
  | none => exact h
  | some binding =>
    dsimp only
    cases binding.user with
    | none => exact h
    | some user =>
      dsimp only
      split
      · exact h
      · cases binding.roleRef with
        | none => exact h
        | some roleRef =>
          dsimp only
          cases hc : clientCreate contributorOps cl (newContributor binding user roleRef) with
          | error e => exact h
          | ok cl' =>
            obtain ⟨hnone, hcl⟩ := clientCreate_ok hc
            dsimp only
            rw [hcl]
            apply OwnersNamed_append _ _ h hnone
            intro hrole
            have hne : ContributorRoleContributor ≠ ContributorRoleOwner := by decide
            exact absurd hrole hne

theorem RemoveContributor_invariant (m : manager) (cl : Cluster) (ctx : Context)
    (h : OwnersNamed cl.contributors) :
    OwnersNamed (RemoveContributor m cl ctx).cluster.contributors := by
  unfold RemoveContributor
  dsimp only
  cases ctx.binding with
  | none => exact h
  | some binding =>
    dsimp only
    cases clientGet profileOps cl ("", binding.referredNamespace) with
    | error e => exact h
    | ok p =>
      dsimp only
      cases clientList contributorOps cl (some binding.referredNamespace) [] with
      | error e => exact h
      | ok items =>
        dsimp only
        split
        · exact h
        · cases binding.user with
          | none => exact h
          | some user =>
            dsimp only
            unfold clientDeleteAllOf
            cases faultOf cl .deleteAllOf contributorOps.kind with
            | some e => exact h
            | none => exact OwnersNamed_filter _ _ h

end access

/-- Every store that the system reaches keeps the invariant of the Contributors. -/
theorem Reachable_invariant (c : Cluster) (h : Reachable c) : OwnersNamed c.contributors := by
  induction h with
  | empty faults => exact ⟨List.nodup_nil, fun o ho => by cases ho⟩
  | createProfile m ctx _ ih => rw [access.CreateProfile_contributors]; exact ih
  | removeProfile m ctx _ ih => rw [access.RemoveProfile_contributors]; exact ih
  | addContributor m ctx _ ih => exact access.AddContributor_invariant m _ ctx ih
  | removeContributor m ctx _ ih => exact access.RemoveContributor_invariant m _ ctx ih
  | profilePass r req hsteps _ ih => exact profile.Reconcile_invariant r hsteps _ req ih
  | contributorPass r req hsteps _ ih =>
    rw [contributor.Reconcile_contributors r hsteps]
    exact ih

end KPM

namespace KPM

namespace profile

/-- After the owner Contributor step succeeds for an owner of kind "User", the namespace
of the Profile's name holds a Contributor with role Owner. -/
theorem ReconcileContributor_owner (s : Settings) (c : Cluster) (p : Profile)
    (hkind : p.spec.owner.kind = UserKind)
    (hok : (ReconcileContributor s c p).err = none) :
    ∃ co ∈ (ReconcileContributor s c p).cluster.contributors,
      co.metadata.ns = p.metadata.name ∧ co.spec.role = ContributorRoleOwner := by
  unfold ReconcileContributor at hok ⊢
  simp only [hkind, ne_eq, not_true_eq_false, if_false] at hok ⊢
  obtain ⟨base, co, _, hf, hkey, hlook⟩ :=
    createOrWrite_ok contributorOps_lawful .patch c _ _ (Wrap_none hok)
  refine ⟨co, List.mem_of_find?_eq_some hlook, congrArg Prod.fst hkey, ?_⟩
  cases hs : SetControllerReference profileGVK p.metadata base.metadata with
  | error e => simp [hs] at hf
  | ok m =>
    simp only [hs] at hf
    cases hf
    rfl

/-- Claim C25: in every store that the operations of the system reach from a store
without objects, each namespace holds at most one Contributor with role Owner; and right
after a pass of a Profile reconciler of the package with the owner Contributor step that
ended without error and in which the namespace step did not answer `Stop`, for a Profile
whose owner is of kind "User", the namespace of the Profile's name holds exactly one. -/
theorem c25_one_owner_per_namespace (c : Cluster) (hreach : Reachable c) :
    (∀ n, (ownersIn c n).length ≤ 1) ∧
    (∀ (r : Reconciler) (req : ObjectKey) (p : Profile),
      PackageSteps r → r.contributor = ReconcileContributor →
      clientGet profileOps c req = .ok p → p.spec.owner.kind = UserKind →
      (Reconcile r c req).err = none →
      (r.namespaceFn r.toSettings c p).res ≠ Stop →
      (ownersIn (Reconcile r c req).cluster p.metadata.name).length = 1) := by
  refine ⟨OwnersNamed_owners c (Reachable_invariant c hreach), ?_⟩
  intro r req p hsteps hcontrib hget hkind hok hns
  have hle := OwnersNamed_owners _
    (Reachable_invariant _ (Reachable.profilePass r req hsteps hreach)) p.metadata.name
  obtain ⟨hfl, hfp⟩ := Reconcile_ok_faults r c req p hget hok
  have hrun := Reconcile_run r hsteps c req p hget hfl hfp
  rw [hrun] at hok
  have hpos : 0 < (ownersIn (Reconcile r c req).cluster p.metadata.name).length := by
    rcases runFuncs_ok_chain r hsteps _ p hok with ⟨hfn, hstop, _⟩ | ⟨_, _, he2, _, _, hcl⟩
    · have h2 := ReconcileNamespace_stops_again r.toSettings _ c p hstop rfl rfl
      rw [hfn, h2] at hns
      exact absurd rfl hns
    · obtain ⟨_, _, h3, h4⟩ := hsteps
      rw [hcontrib] at he2
      obtain ⟨co, hmem, hcons, hrole⟩ := ReconcileContributor_owner _ _ p hkind he2
      have e4 : ∀ c1, (r.istio r.toSettings c1 p).cluster.contributors = c1.contributors := by
        intro c1
        rcases h4 with h | h
        · rw [h]; rfl
        · rw [h]
          exact ReconcileIstioAuthorizationPolicy_frame (fun c => c.contributors)
            (fun _ _ => rfl) _ _ _
      have e3 : ∀ c1, (r.resourceQuota r.toSettings c1 p).cluster.contributors
          = c1.contributors := by
        intro c1
        rcases h3 with h | h
        · rw [h]; rfl
        · rw [h]
          exact ReconcileResourceQuota_frame (fun c => c.contributors) (fun _ _ => rfl) _ _ _
      apply List.length_pos_of_mem (a := co)
      unfold ownersIn
      rw [List.mem_filter]
      refine ⟨?_, by simp [hcons, hrole]⟩
      rw [hrun, hcl, e4, e3, hcontrib]
      exact hmem
  omega

set_option maxRecDepth 100000 in
/-- Witness of C25: the store reached by creating the profile "starlord", and the pass
of the reconciler of `Setup` over it. -/
theorem c25_one_owner_per_namespace_witness :
    (ownersIn (Reconcile (NewReconciler (SetupOptions [] true false true))
      (access.CreateProfile {} {} { profile := some starlord }).cluster
      ("", "starlord")).cluster "starlord").length = 1 :=
  (c25_one_owner_per_namespace (access.CreateProfile {} {} { profile := some starlord }).cluster
    (Reachable.createProfile {} { profile := some starlord } (Reachable.empty []))).2
    (NewReconciler (SetupOptions [] true false true)) ("", "starlord") starlord
    ⟨Or.inr rfl, Or.inr rfl, Or.inr rfl, Or.inr rfl⟩ rfl (by decide) rfl (by decide)
    (by decide)

end profile

end KPM

namespace KPM

namespace access

/-! ### Refusal of a caller outside the admin set -/

set_option maxRecDepth 100000 in
/-- Claim C6, evaluated with no configured admin on the store that `CreateProfile` for
"starlord" and one pass of the reconciler leave: the admin set of the claim is the
identity "starlord@guardians.net" alone, so the caller "starlord" is outside it;
`RemoveContributor` refuses that caller with 403 and returns the store as it was, as it
does for every caller outside the set, but `RemoveProfile` answers 200 and the Profile is
gone from the store. -/
theorem c6_removeProfile_deletes_for_outsider :
    reconciledStarlord.profiles.map (fun p => (p.metadata.name, p.spec.owner)) =
      [("starlord", { kind := "User", name := "starlord@guardians.net" })] ∧
    reconciledStarlord.contributors.map (fun o => (o.metadata.ns, o.spec.name, o.spec.role)) =
      [("starlord", "starlord@guardians.net", "Owner")] ∧
    removeContributorAdmins {} profile.starlord (reconciledStarlord.contributors.filter
      (fun o => decide (o.metadata.ns = "starlord"))) = ["starlord@guardians.net"] ∧
    RemoveContributor {} reconciledStarlord
      (deleteBinding "starlord" "starlord@guardians.net" "starlord")
      = ⟨reconciledStarlord, .status 403 ""⟩ ∧
    (RemoveProfile {} reconciledStarlord (deleteProfile "starlord" "starlord")).reply
      = .status 200 "" ∧
    lookupObj profileOps
      (RemoveProfile {} reconciledStarlord (deleteProfile "starlord" "starlord")).cluster
      ("", "starlord") = none ∧
    (∀ (m : manager) (cl : Cluster) (ctx : Context) (binding : Binding) (p : Profile),
      ctx.binding = some binding →
      clientGet profileOps cl ("", binding.referredNamespace) = .ok p →
      faultOf cl .list .contributor = none →
      callerIdentity m ctx ∉ removeContributorAdmins m p (cl.contributors.filter
        (fun o => decide (o.metadata.ns = binding.referredNamespace))) →
      RemoveContributor m cl ctx = ⟨cl, .status 403 ""⟩) := by
  refine ⟨by decide, by decide, by decide, by decide, by decide, by decide, ?_⟩
  intro m cl ctx binding p hbody hprofile hlist hnot
  rw [RemoveContributor_read m cl ctx binding p hbody hprofile hlist]
  simp [setHas, hnot]

end access

end KPM

namespace KPM

/-! ### Each step wraps what its read or upsert raised -/

theorem clientGet_error {α : Type} {ops : KindOps α} {c : Cluster} {key : ObjectKey} {e : Err}
    (h : clientGet ops c key = .error e) :
    faultOf c .get ops.kind = some e ∨ e = .notFound := by
  unfold clientGet at h
  cases hf : faultOf c .get ops.kind with
  | some e1 =>
    simp only [hf] at h
    cases h
    exact Or.inl rfl
  | none =>
    simp only [hf] at h
    cases hl : lookupObj ops c key with
    | some o => simp [hl] at h
    | none =>
      simp only [hl] at h
      cases h
      exact Or.inr rfl

/-- An error of an upsert is a fault of the backend for the kind, NotFound,
AlreadyExists, the key check of `mutate`, or the error of the mutate function. -/
theorem createOrWrite_raised {α : Type} [DecidableEq α] (v : Verb) (ops : KindOps α)
    (c : Cluster) (obj : α) (f : α → Except Err α) (cause : Err)
    (h : (createOrWrite v ops c obj f).err = some cause) :
    (∃ verb, faultOf c verb ops.kind = some cause) ∨ cause = .notFound ∨
      cause = .alreadyExists ∨ cause = .mutateKey ∨ ∃ o, f o = .error cause := by
  have hmut : ∀ key o, mutate ops f key o = .error cause →
      cause = .mutateKey ∨ ∃ o, f o = .error cause := by
    intro key o hm
    unfold mutate at hm
    cases hfo : f o with
    | error e1 =>
      simp only [hfo] at hm
      cases hm
      exact Or.inr ⟨o, hfo⟩
    | ok o1 =>
      simp only [hfo] at hm
      split at hm
      · cases hm
      · cases hm
        exact Or.inl rfl
  unfold createOrWrite at h
  cases hg : clientGet ops c (keyOf (ops.meta obj)) with
  | error e =>
    simp only [hg] at h
    by_cases hnf : IsNotFound e = true
    · simp only [hnf, Bool.not_true, Bool.false_eq_true, if_false] at h
      cases hm : mutate ops f (keyOf (ops.meta obj)) obj with
      | error e1 =>
        simp only [hm, Option.some.injEq] at h
        rw [h] at hm
        rcases hmut _ _ hm with h1 | h1
        · exact Or.inr (Or.inr (Or.inr (Or.inl h1)))
        · exact Or.inr (Or.inr (Or.inr (Or.inr h1)))
      | ok obj1 =>
        simp only [hm] at h
        cases hc : clientCreate ops c obj1 with
        | ok c1 => simp [hc] at h
        | error e1 =>
          simp only [hc, Option.some.injEq] at h
          rw [h] at hc
          unfold clientCreate at hc
          cases hfc : faultOf c .create ops.kind with
          | some e2 =>
            simp only [hfc] at hc
            cases hc
            exact Or.inl ⟨.create, hfc⟩
          | none =>
            simp only [hfc] at hc
            cases hl : lookupObj ops c (keyOf (ops.meta obj1)) with
            | none => simp [hl] at hc
            | some x =>
              simp only [hl] at hc
              cases hc
              exact Or.inr (Or.inr (Or.inl rfl))
    · have hnf2 : IsNotFound e = false := by simpa using hnf
      simp only [hnf2, Bool.not_false, if_true, Option.some.injEq] at h
      rw [h] at hg
      rcases clientGet_error hg with h1 | h1
      · exact Or.inl ⟨.get, h1⟩
      · exact Or.inr (Or.inl h1)
  | ok cur =>
    simp only [hg] at h
    cases hm : mutate ops f (keyOf (ops.meta obj)) cur with
    | error e1 =>
      simp only [hm, Option.some.injEq] at h
      rw [h] at hm
      rcases hmut _ _ hm with h1 | h1
      · exact Or.inr (Or.inr (Or.inr (Or.inl h1)))
      · exact Or.inr (Or.inr (Or.inr (Or.inr h1)))
    | ok obj1 =>
      simp only [hm] at h
      split at h
      · cases h
      · cases hw : clientWrite v ops c obj1 with
        | ok c1 => simp [hw] at h
        | error e1 =>
          simp only [hw, Option.some.injEq] at h
          rw [h] at hw
          unfold clientWrite at hw
          cases hfc : faultOf c v ops.kind with
          | some e2 =>
            simp only [hfc] at hw
            cases hw
            exact Or.inl ⟨v, hfc⟩
          | none =>
            simp only [hfc] at hw
            cases hl : lookupObj ops c (keyOf (ops.meta obj1)) with
            | some x => simp [hl] at hw
            | none =>
              simp only [hl] at hw
              cases hw
              exact Or.inr (Or.inl rfl)

/-- The error of an upsert whose mutate function fails only in setting the controller
reference on `what`. -/
theorem createOrWrite_raisedBy {α : Type} [DecidableEq α] (v : Verb) (ops : KindOps α)
    (c : Cluster) (obj : α) (f : α → Except Err α) (what : String) (cause : Err)
    (hf : ∀ o e, f o = .error e →
      ∃ e0, e = .wrapped ("failed to set controller reference on " ++ what) e0)
    (h : (createOrWrite v ops c obj f).err = some cause) :
    RaisedBy c ops.kind what cause := by
  rcases createOrWrite_raised v ops c obj f cause h with h1 | h1 | h1 | h1 | ⟨o, h1⟩
  · exact Or.inl h1
  · exact Or.inr (Or.inl h1)
  · exact Or.inr (Or.inr (Or.inl h1))
  · exact Or.inr (Or.inr (Or.inr (Or.inl h1)))
  · exact Or.inr (Or.inr (Or.inr (Or.inr (hf o cause h1))))

namespace profile

theorem ReconcileNamespace_raised (s : Settings) (c : Cluster) (p : Profile) (e : Err)
    (h : (ReconcileNamespace s c p).err = some e) :
    ∃ cause, e = .wrapped errReconcileNamespace cause ∧
      RaisedBy c .namespace "namespace" cause := by
  have hupd : ∀ (o : Namespace) (e1 : Err), updateFn s p o = .error e1 →
      ∃ e0, e1 = .wrapped ("failed to set controller reference on " ++ "namespace") e0 := by
    intro o e1 h1
    unfold updateFn at h1
    cases hs : SetControllerReference profileGVK p.metadata o.metadata with
    | error e0 =>
      simp only [hs] at h1
      cases h1
      exact ⟨e0, rfl⟩
    | ok m => simp [hs] at h1
  unfold ReconcileNamespace at h
  dsimp only at h
  cases hg : clientGet namespaceOps c (keyOf p.metadata) with
  | error e1 =>
    simp only [hg] at h
    split at h
    · obtain ⟨cause, hc, he⟩ := Wrap_some h
      exact ⟨cause, he, createOrWrite_raisedBy .patch namespaceOps c _ _ _ cause hupd hc⟩
    · obtain ⟨cause, hc, he⟩ :=
        Wrap_some (show Wrap (some e1) errReconcileNamespace = some e from h)
      refine ⟨cause, he, ?_⟩
      cases hc
      rcases clientGet_error hg with h1 | h1
      · exact Or.inl ⟨.get, h1⟩
      · exact Or.inr (Or.inl h1)
  | ok nsObj =>
    simp only [hg] at h
    split at h
    · simp at h
    · obtain ⟨cause, hc, he⟩ := Wrap_some h
      exact ⟨cause, he, createOrWrite_raisedBy .patch namespaceOps c _ _ _ cause hupd hc⟩

theorem ReconcileContributor_raised (s : Settings) (c : Cluster) (p : Profile) (e : Err)
    (h : (ReconcileContributor s c p).err = some e) :
    ∃ cause, e = .wrapped errReconcileOwnerContributor cause ∧
      RaisedBy c .contributor "Contributor" cause := by
  unfold ReconcileContributor at h
  split at h
  · simp [NopReconcileFunc] at h
  · obtain ⟨cause, hc, he⟩ := Wrap_some h
    refine ⟨cause, he, createOrWrite_raisedBy .patch contributorOps c _ _ _ cause ?_ hc⟩
    intro o e1 h1
    dsimp only at h1
    cases hs : SetControllerReference profileGVK p.metadata o.metadata with
    | error e0 =>
      simp only [hs] at h1
      cases h1
      exact ⟨e0, rfl⟩
    | ok m => simp [hs] at h1

theorem ReconcileResourceQuota_raised (s : Settings) (c : Cluster) (p : Profile) (e : Err)
    (h : (ReconcileResourceQuota s c p).err = some e) :
    ∃ cause, e = .wrapped errReconcileResourceQuota cause ∧
      RaisedBy c .resourceQuota "ResourceQuota" cause := by
  unfold ReconcileResourceQuota at h
  obtain ⟨cause, hc, he⟩ := Wrap_some h
  refine ⟨cause, he, createOrWrite_raisedBy .update resourceQuotaOps c _ _ _ cause ?_ hc⟩
  intro o e1 h1
  dsimp only at h1
  cases hs : SetControllerReference profileGVK p.metadata o.metadata with
  | error e0 =>
    simp only [hs] at h1
    cases h1
    exact ⟨e0, rfl⟩
  | ok m => simp [hs] at h1

theorem ReconcileIstioAuthorizationPolicy_raised (s : Settings) (c : Cluster) (p : Profile)
    (e : Err) (h : (ReconcileIstioAuthorizationPolicy s c p).err = some e) :
    ∃ cause, e = .wrapped errReconcileAuthorizationPolicy cause ∧
      RaisedBy c .authorizationPolicy "AuthorizationPolicy" cause := by
  unfold ReconcileIstioAuthorizationPolicy at h
  obtain ⟨cause, hc, he⟩ := Wrap_some h
  refine ⟨cause, he, createOrWrite_raisedBy .patch authorizationPolicyOps c _ _ _ cause ?_ hc⟩
  intro o e1 h1
  cases hs : SetControllerReference profileGVK p.metadata o.metadata with
  | error e0 =>
    simp only [hs] at h1
    cases h1
    exact ⟨e0, rfl⟩
  | ok m => simp [hs] at h1

end profile

namespace contributor

theorem ReconcileServiceAccount_raised (s : Settings) (c : Cluster) (co : Contributor)
    (e : Err) (h : (ReconcileServiceAccount s c co).err = some e) :
    ∃ cause, e = .wrapped errReconcileServiceAccount cause ∧
      RaisedBy c .serviceAccount "ServiceAccount" cause := by
  unfold ReconcileServiceAccount at h
  obtain ⟨cause, hc, he⟩ := Wrap_some h
  refine ⟨cause, he, createOrWrite_raisedBy .patch serviceAccountOps c _ _ _ cause ?_ hc⟩
  intro o e1 h1
  dsimp only at h1
  cases hs : SetControllerReference contributorGVK co.metadata o.metadata with
  | error e0 =>
    simp only [hs] at h1
    cases h1
    exact ⟨e0, rfl⟩
  | ok m => simp [hs] at h1

theorem ReconcileRoleBinding_raised (s : Settings) (c : Cluster) (co : Contributor)
    (e : Err) (h : (ReconcileRoleBinding s c co).err = some e) :
    ∃ cause, e = .wrapped errReconcileRoleBinding cause ∧
      RaisedBy c .roleBinding "RoleBinding" cause := by
  unfold ReconcileRoleBinding at h
  obtain ⟨cause, hc, he⟩ := Wrap_some h
  refine ⟨cause, he, createOrWrite_raisedBy .patch roleBindingOps c _ _ _ cause ?_ hc⟩
  intro o e1 h1
  dsimp only at h1
  cases hs : SetControllerReference contributorGVK co.metadata o.metadata with
  | error e0 =>
    simp only [hs] at h1
    cases h1
    exact ⟨e0, rfl⟩
  | ok m => simp [hs] at h1

/-- The policy step of a Contributor: an error is the one that the upsert of the
"-public" policy returned, or what the upsert of the "-private" policy raised, wrapped
with the message of the step. -/
theorem policy_raised (s : Settings) (c : Cluster) (co : Contributor) (e : Err)
    (h : (ReconcileIstioAuthorizationPolicy s c co).err = some e) :
    (upsertPublic s c co).err = some e ∨
      ((upsertPublic s c co).err = none ∧
        ∃ cause, (upsertPrivate s (upsertPublic s c co).cluster co).err = some cause ∧
          e = .wrapped errReconcileAuthorizationPolicy cause ∧
          RaisedBy (upsertPublic s c co).cluster .authorizationPolicy
            "AuthorizationPolicy" cause) := by
  unfold ReconcileIstioAuthorizationPolicy at h
  dsimp only at h
  cases hp : (upsertPublic s c co).err with
  | some e1 =>
    rw [hp] at h
    exact Or.inl h
  | none =>
    rw [hp] at h
    obtain ⟨cause, hc, he⟩ := Wrap_some h
    refine Or.inr ⟨rfl, cause, hc, he, ?_⟩
    unfold upsertPrivate at hc
    refine createOrWrite_raisedBy .patch authorizationPolicyOps _ _ _ _ cause ?_ hc
    intro o e1 h1
    cases hs : SetControllerReference contributorGVK co.metadata o.metadata with
    | error e0 =>
      simp only [hs] at h1
      cases h1
      exact ⟨e0, rfl⟩
    | ok m => simp [hs] at h1

end contributor

end KPM

namespace KPM

namespace contributor

/-- Claim C26, amended: every step of the Profile driver returns what its read or upsert
raised wrapped with its own message ("failed to reconcile namespace", "failed to
reconcile owner contributor", "failed to reconcile resource quota", "failed to reconcile
Istio AuthorizationPolicy"); in the Contributor driver the service account step, the role
binding step and the upsert of the "-private" policy do the same with "failed to
reconcile service account", "failed to reconcile role binding" and "failed to reconcile
authorization policy"; and the error that `Reconcile` returns is the wrapped read error,
the error of the roster list or of the status patch as it is, or the error of one of its
steps, with that step's message unless it is the one that the upsert of the "-public"
policy returned. -/
theorem c26_step_errors_wrapped (rp : profile.Reconciler) (rc : Reconciler) (c : Cluster)
    (req : ObjectKey) (hp : profile.PackageSteps rp) (hc : PackageSteps rc) :
    (∀ s c1 p e, (profile.ReconcileNamespace s c1 p).err = some e →
      ∃ cause, e = .wrapped "failed to reconcile namespace" cause ∧
        RaisedBy c1 .namespace "namespace" cause) ∧
    (∀ s c1 p e, (profile.ReconcileContributor s c1 p).err = some e →
      ∃ cause, e = .wrapped "failed to reconcile owner contributor" cause ∧
        RaisedBy c1 .contributor "Contributor" cause) ∧
    (∀ s c1 p e, (profile.ReconcileResourceQuota s c1 p).err = some e →
      ∃ cause, e = .wrapped "failed to reconcile resource quota" cause ∧
        RaisedBy c1 .resourceQuota "ResourceQuota" cause) ∧
    (∀ s c1 p e, (profile.ReconcileIstioAuthorizationPolicy s c1 p).err = some e →
      ∃ cause, e = .wrapped "failed to reconcile Istio AuthorizationPolicy" cause ∧
        RaisedBy c1 .authorizationPolicy "AuthorizationPolicy" cause) ∧
    (∀ s c1 co e, (ReconcileServiceAccount s c1 co).err = some e →
      ∃ cause, e = .wrapped "failed to reconcile service account" cause ∧
        RaisedBy c1 .serviceAccount "ServiceAccount" cause) ∧
    (∀ s c1 co e, (ReconcileRoleBinding s c1 co).err = some e →
      ∃ cause, e = .wrapped "failed to reconcile role binding" cause ∧
        RaisedBy c1 .roleBinding "RoleBinding" cause) ∧
    (∀ s c1 co e, (ReconcileIstioAuthorizationPolicy s c1 co).err = some e →
      (upsertPublic s c1 co).err = some e ∨
      ((upsertPublic s c1 co).err = none ∧
        ∃ cause, (upsertPrivate s (upsertPublic s c1 co).cluster co).err = some cause ∧
          e = .wrapped "failed to reconcile authorization policy" cause ∧
          RaisedBy (upsertPublic s c1 co).cluster .authorizationPolicy
            "AuthorizationPolicy" cause)) ∧
    (∀ e, (profile.Reconcile rp c req).err = some e →
      (∃ cause, clientGet profileOps c req = .error cause ∧
        e = .wrapped "failed to read profile" cause) ∨
      (∃ p, clientGet profileOps c req = .ok p ∧
        clientList contributorOps c (some p.metadata.name) [] = .error e) ∨
      (∃ p items, clientGet profileOps c req = .ok p ∧
        clientList contributorOps c (some p.metadata.name) [] = .ok items ∧
        profile.patchStatus c (profile.setRoster p (profile.roster items)) = .error e) ∨
      (∃ c1 p1 cause, rp.namespaceFn = profile.ReconcileNamespace ∧
        (profile.ReconcileNamespace rp.toSettings c1 p1).err = some e ∧
        e = .wrapped "failed to reconcile namespace" cause) ∨
      (∃ c1 p1 cause, rp.contributor = profile.ReconcileContributor ∧
        (profile.ReconcileContributor rp.toSettings c1 p1).err = some e ∧
        e = .wrapped "failed to reconcile owner contributor" cause) ∨
      (∃ c1 p1 cause, rp.resourceQuota = profile.ReconcileResourceQuota ∧
        (profile.ReconcileResourceQuota rp.toSettings c1 p1).err = some e ∧
        e = .wrapped "failed to reconcile resource quota" cause) ∨
      (∃ c1 p1 cause, rp.istio = profile.ReconcileIstioAuthorizationPolicy ∧
        (profile.ReconcileIstioAuthorizationPolicy rp.toSettings c1 p1).err = some e ∧
        e = .wrapped "failed to reconcile Istio AuthorizationPolicy" cause)) ∧
    (∀ e, (Reconcile rc c req).err = some e →
      (∃ cause, clientGet contributorOps c req = .error cause ∧
        e = .wrapped "failed to read profile" cause) ∨
      (∃ c1 co cause, rc.serviceAccount = ReconcileServiceAccount ∧
        (ReconcileServiceAccount rc.toSettings c1 co).err = some e ∧
        e = .wrapped "failed to reconcile service account" cause) ∨
      (∃ c1 co cause, rc.roleBinding = ReconcileRoleBinding ∧
        (ReconcileRoleBinding rc.toSettings c1 co).err = some e ∧
        e = .wrapped "failed to reconcile role binding" cause) ∨
      (∃ c1 co, rc.istio = ReconcileIstioAuthorizationPolicy ∧
        (ReconcileIstioAuthorizationPolicy rc.toSettings c1 co).err = some e ∧
        ((upsertPublic rc.toSettings c1 co).err = some e ∨
          ∃ cause, e = .wrapped "failed to reconcile authorization policy" cause))) := by
  refine ⟨profile.ReconcileNamespace_raised, profile.ReconcileContributor_raised,
    profile.ReconcileResourceQuota_raised, profile.ReconcileIstioAuthorizationPolicy_raised,
    ReconcileServiceAccount_raised, ReconcileRoleBinding_raised, policy_raised, ?_, ?_⟩
  · intro e herr
    unfold profile.Reconcile at herr
    cases hg : clientGet profileOps c req with
    | error e1 =>
      rw [hg] at herr
      obtain ⟨cause, hcs, he⟩ := Wrap_some herr
      left
      refine ⟨e1, rfl, ?_⟩
      cases h1 : IsNotFound e1 <;> simp [IgnoreNotFound, h1] at hcs
      rw [he, ← hcs]
    | ok p =>
      rw [hg] at herr
      dsimp only at herr
      right
      cases hl : clientList contributorOps c (some p.metadata.name) [] with
      | error e1 =>
        rw [hl] at herr
        simp only [Option.some.injEq] at herr
        left
        exact ⟨p, rfl, herr ▸ hl⟩
      | ok items =>
        rw [hl] at herr
        dsimp only at herr
        right
        cases hps : profile.patchStatus c (profile.setRoster p (profile.roster items)) with
        | error e1 =>
          rw [hps] at herr
          simp only [Option.some.injEq] at herr
          left
          exact ⟨p, items, rfl, hl, herr ▸ hps⟩
        | ok out =>
          rw [hps] at herr
          dsimp only at herr
          right
          obtain ⟨f, hf, c1, hc1⟩ := profile.runFuncs_error_from _ _ _ _ _ herr
          obtain ⟨h1, h2, h3, h4⟩ := hp
          simp only [List.mem_cons, List.mem_singleton, List.not_mem_nil, or_false] at hf
          rcases hf with hf | hf | hf | hf
          · rcases h1 with h | h
            · rw [hf, h] at hc1; simp [profile.NopReconcileFunc] at hc1
            · rw [hf, h] at hc1
              obtain ⟨cause, he, _⟩ := profile.ReconcileNamespace_raised _ _ _ _ hc1
              exact Or.inl ⟨c1, _, cause, h, hc1, he⟩
          · rcases h2 with h | h
            · rw [hf, h] at hc1; simp [profile.NopReconcileFunc] at hc1
            · rw [hf, h] at hc1
              obtain ⟨cause, he, _⟩ := profile.ReconcileContributor_raised _ _ _ _ hc1
              exact Or.inr (Or.inl ⟨c1, _, cause, h, hc1, he⟩)
          · rcases h3 with h | h
            · rw [hf, h] at hc1; simp [profile.NopReconcileFunc] at hc1
            · rw [hf, h] at hc1
              obtain ⟨cause, he, _⟩ := profile.ReconcileResourceQuota_raised _ _ _ _ hc1
              exact Or.inr (Or.inr (Or.inl ⟨c1, _, cause, h, hc1, he⟩))
          · rcases h4 with h | h
            · rw [hf, h] at hc1; simp [profile.NopReconcileFunc] at hc1
            · rw [hf, h] at hc1
              obtain ⟨cause, he, _⟩ :=
                profile.ReconcileIstioAuthorizationPolicy_raised _ _ _ _ hc1
              exact Or.inr (Or.inr (Or.inr ⟨c1, _, cause, h, hc1, he⟩))
  · intro e herr
    unfold Reconcile at herr
    cases hg : clientGet contributorOps c req with
    | error e1 =>
      rw [hg] at herr
      obtain ⟨cause, hcs, he⟩ := Wrap_some herr
      left
      refine ⟨e1, rfl, ?_⟩
      cases h1 : IsNotFound e1 <;> simp [IgnoreNotFound, h1] at hcs
      rw [he, ← hcs]
    | ok co =>
      rw [hg] at herr
      dsimp only at herr
      right
      obtain ⟨f, hf, c1, hc1⟩ := steps_error_from _ _ _ _ _ herr
      obtain ⟨h1, h2, h3⟩ := hc
      simp only [List.mem_cons, List.mem_singleton, List.not_mem_nil, or_false] at hf
      rcases hf with hf | hf | hf
      · rcases h1 with h | h
        · rw [hf, h] at hc1; simp [NopReconcileFunc] at hc1
        · rw [hf, h] at hc1
          obtain ⟨cause, he, _⟩ := ReconcileServiceAccount_raised _ _ _ _ hc1
          exact Or.inl ⟨c1, co, cause, h, hc1, he⟩
      · rcases h2 with h | h
        · rw [hf, h] at hc1; simp [NopReconcileFunc] at hc1
        · rw [hf, h] at hc1
          obtain ⟨cause, he, _⟩ := ReconcileRoleBinding_raised _ _ _ _ hc1
          exact Or.inr (Or.inl ⟨c1, co, cause, h, hc1, he⟩)
      · rcases h3 with h | h
        · rw [hf, h] at hc1; simp [NopReconcileFunc] at hc1
        · rw [hf, h] at hc1
          refine Or.inr (Or.inr ⟨c1, co, h, hc1, ?_⟩)
          rcases policy_raised _ _ _ _ hc1 with hpub | ⟨_, cause, _, he, _⟩
          · exact Or.inl hpub
          · exact Or.inr ⟨cause, he⟩

set_option maxRecDepth 100000 in
/-- Witness of C26: with creates of resource quotas failing, the error of the pass of the
reconciler of `Setup` over the profile "starlord" is the one that the resource quota step
returned. -/
theorem c26_step_errors_wrapped_witness :
    ∃ c1 p1, (profile.ReconcileResourceQuota
        (profile.NewReconciler (profile.SetupOptions [] true false true)).toSettings
        c1 p1).err
      = some (.wrapped "failed to reconcile resource quota" (.backend "quota service down")) := by
  have hget : clientGet profileOps profile.quotaFaultCluster ("", "starlord")
      = .ok profile.starlord := by decide
  have h := (c26_step_errors_wrapped
    (profile.NewReconciler (profile.SetupOptions [] true false true))
    (NewReconciler (SetupOptions [] true true))
    profile.quotaFaultCluster ("", "starlord")
    ⟨Or.inr rfl, Or.inr rfl, Or.inr rfl, Or.inr rfl⟩
    ⟨Or.inr rfl, Or.inr rfl, Or.inr rfl⟩).2.2.2.2.2.2.2.1
    (.wrapped "failed to reconcile resource quota" (.backend "quota service down"))
    (by decide)
  rcases h with ⟨cause, hg, _⟩ | ⟨p, hg, hl⟩ | ⟨p, items, hg, hl, hps⟩ |
    ⟨_, _, cause, _, _, he⟩ | ⟨_, _, cause, _, _, he⟩ | ⟨c1, p1, _, _, h1, _⟩ |
    ⟨_, _, cause, _, _, he⟩
  · rw [hget] at hg
    cases hg
  · rw [hget] at hg
    cases hg
    exact absurd hl (by decide)
  · rw [hget] at hg
    cases hg
    have hlist : clientList contributorOps profile.quotaFaultCluster
        (some profile.starlord.metadata.name) [] = .ok [] := by decide
    rw [hlist] at hl
    cases hl
    exact absurd hps (by decide)
  · simp at he
  · simp at he
  · exact ⟨c1, p1, h1⟩
  · simp at he

end contributor

end KPM
